import Mathlib

/-!
# Structural atlas: geometry builder, view control, projector and compositor

A shallow embedding of `src/src/main.c` (and of the copy of the builder in
`src/gtests/test_geometry.c`).

* C `float` values are read as elements of a linearly ordered field `α`
  with a floor function (the theorems instantiate `α` with `ℝ`, the
  definitions also run on `ℚ`).  The libm functions `cosf`, `sinf` and
  `sqrtf` are parameters of the definitions that call them, and so is the
  libc function `qsort`.
* Division is the total division of the field (`x / 0 = 0`); the divisions
  of the source are `900.0f / (900.0f + p.z)`, with a zero divisor only at
  `p.z = -900`, and `(minDim * 0.38f) / radius`.  At `p.z = -900` the C
  division is infinite and the pixel is unspecified; `project_to_screen_checked`
  sets that input apart.
* C `int` values are `Int`; no integer arithmetic in the embedded functions
  leaves the 32-bit range.  `/` and `%` on `int` are `Int.tdiv` and
  `Int.tmod` (on a loop counter, which is a `Nat`, `%` is that of `Nat`).
* A C array is a total map from the `int` index to the element; the
  capacity checks of the source are the guards of `add_atom` and
  `add_bond`.  The contents of a `MoleculeGeometry` before a call are an
  explicit argument, since `apply_preset` writes into caller memory.
* Calls on the SDL renderer are returned as a list of `DrawCall` in the
  order they are made.
-/

namespace StructuralAtlas

/-- Capacity of the atom arrays (`#define MAX_ATOMS 64`). -/
def MAX_ATOMS : Int := 64

/-- Capacity of the bond array (`#define MAX_BONDS 96`). -/
def MAX_BONDS : Int := 96

/-- The record `typedef struct { float x, y, z; } Vec3;`. -/
structure Vec3 (α : Type) where
  x : α
  y : α
  z : α
deriving DecidableEq

/-- The record `typedef struct { int from, to; int order; } Bond;`
(`from` and `to` are reserved words here, so the fields are `from_` and `to_`). -/
structure Bond where
  from_ : Int
  to_ : Int
  order : Int
deriving DecidableEq

/-- The record `MoleculeGeometry`: two atom arrays with their count and the
bond array with its count. -/
structure MoleculeGeometry (α : Type) where
  atomPos : Int → Vec3 α
  atomLabel : Int → Nat
  atomCount : Int
  bonds : Int → Bond
  bondCount : Int

set_option linter.unusedSectionVars false

variable {α : Type} [LinearOrderedField α] [FloorRing α]

/-- The constant `#define PI 3.14159265f`, read as the decimal written. -/
def PI : α := 3.14159265

/-- The function `clampf`. -/
def clampf (v lo hi : α) : α :=
  if v < lo then lo
  else if v > hi then hi
  else v

/-- The function `make_vec3`. -/
def make_vec3 (x y z : α) : Vec3 α := ⟨x, y, z⟩

/-- The libm function `lroundf` followed by the cast to `int`: the nearest
integer, halfway cases away from zero.  The result is the mathematical integer;
the 32-bit range of `int` is not modelled. -/
def lroundf (v : α) : Int :=
  if 0 ≤ v then ⌊v + 1 / 2⌋ else ⌈v - 1 / 2⌉

/-- The function `rotate_yaw_pitch`. -/
def rotate_yaw_pitch (cosf sinf : α → α) (p : Vec3 α) (yaw pitch : α) : Vec3 α :=
  let cy := cosf yaw
  let sy := sinf yaw
  let x1 := cy * p.x + sy * p.z
  let z1 := -sy * p.x + cy * p.z
  let cp := cosf pitch
  let sp := sinf pitch
  let y2 := cp * p.y - sp * z1
  let z2 := sp * p.y + cp * z1
  make_vec3 x1 y2 z2

/-- The three outputs of `project_to_screen`. -/
structure Projected (α : Type) where
  outX : Int
  outY : Int
  outDepth : α

/-- The function `project_to_screen`; the three out-parameters are returned
as a record. -/
def project_to_screen (p : Vec3 α) (zoom : α) (centerX centerY : Int) : Projected α :=
  let perspective := 900 / (900 + p.z)
  { outX := lroundf ((centerX : α) + p.x * zoom * perspective)
    outY := lroundf ((centerY : α) - p.y * zoom * perspective)
    outDepth := p.z }

/-- The function `project_to_screen` with the input where its division is by
zero set apart.  At `900 + p.z = 0` the C expression `900.0f / (900.0f + p.z)`
is infinite, the products with it are infinite or not a number, and the result of
`lroundf` on such a value is unspecified: no pixel is returned there (`none`).
At every other `p.z` the result is that of `project_to_screen`. -/
def project_to_screen_checked (p : Vec3 α) (zoom : α) (centerX centerY : Int) :
    Option (Projected α) :=
  if 900 + p.z = 0 then none else some (project_to_screen p zoom centerX centerY)

/-- The function `add_atom`. -/
def add_atom (mol : MoleculeGeometry α) (p : Vec3 α) (label : Nat) : MoleculeGeometry α :=
  if mol.atomCount ≥ MAX_ATOMS then mol
  else
    { mol with
      atomPos := fun j => if j = mol.atomCount then p else mol.atomPos j
      atomLabel := fun j => if j = mol.atomCount then label else mol.atomLabel j
      atomCount := mol.atomCount + 1 }

/-- The function `add_bond`. -/
def add_bond (mol : MoleculeGeometry α) (a b order : Int) : MoleculeGeometry α :=
  if mol.bondCount ≥ MAX_BONDS then mol
  else
    { mol with
      bonds := fun j => if j = mol.bondCount then ⟨a, b, order⟩ else mol.bonds j
      bondCount := mol.bondCount + 1 }

/-- The statement `mol->bonds[k].order = order;`. -/
def set_bond_order (mol : MoleculeGeometry α) (k order : Int) : MoleculeGeometry α :=
  { mol with
    bonds := fun j => if j = k then { mol.bonds k with order := order } else mol.bonds j }

/-- A loop `for(int i = 0; i < n; i++) body` over a state `σ`. -/
def forLoop {σ : Type} (n : Nat) (body : σ → Nat → σ) (s : σ) : σ :=
  (List.range n).foldl body s

/-- The function `build_steroid_core`. -/
def build_steroid_core (cosf sinf : α → α) (mol : MoleculeGeometry α) : MoleculeGeometry α :=
  let mol := { mol with atomCount := 0 }
  let mol := { mol with bondCount := 0 }
  let baseA := mol.atomCount
  let mol := forLoop 6 (fun mol i =>
    let ang := (i : α) * PI / 3.0
    add_atom mol (make_vec3 (cosf ang * 1.8) (sinf ang * 1.8) 0.0) 0) mol
  let mol := forLoop 6 (fun mol i => add_bond mol (baseA + i) (baseA + ((i + 1) % 6 : Nat)) 1) mol
  let baseB := mol.atomCount
  let mol := forLoop 6 (fun mol i =>
    let ang := (i : α) * PI / 3.0
    add_atom mol (make_vec3 (2.8 + cosf ang * 1.8) (sinf ang * 1.8) 0.2) 0) mol
  let mol := forLoop 6 (fun mol i => add_bond mol (baseB + i) (baseB + ((i + 1) % 6 : Nat)) 1) mol
  let mol := add_bond mol (baseA + 1) (baseB + 4) 1
  let mol := add_bond mol (baseA + 2) (baseB + 5) 1
  let baseC := mol.atomCount
  let mol := forLoop 5 (fun mol i =>
    let ang := (i : α) * 2.0 * PI / 5.0
    add_atom mol (make_vec3 (2.8 + cosf ang * 1.6) (2.8 + sinf ang * 1.6) (-0.2)) 0) mol
  let mol := forLoop 5 (fun mol i => add_bond mol (baseC + i) (baseC + ((i + 1) % 5 : Nat)) 1) mol
  let mol := add_bond mol (baseB + 1) (baseC + 3) 1
  let mol := add_bond mol (baseB + 2) (baseC + 4) 1
  let baseD := mol.atomCount
  let mol := forLoop 5 (fun mol i =>
    let ang := (i : α) * 2.0 * PI / 5.0
    add_atom mol (make_vec3 (4.8 + cosf ang * 1.3) (4.3 + sinf ang * 1.3) 0.15) 0) mol
  let mol := forLoop 5 (fun mol i => add_bond mol (baseD + i) (baseD + ((i + 1) % 5 : Nat)) 1) mol
  let mol := add_bond mol (baseC + 1) (baseD + 3) 1
  let mol := add_bond mol (baseC + 2) (baseD + 4) 1
  mol

/-- The body of the loop of `add_ester_tail`; the state is the geometry and
the local `previous`. -/
def add_ester_tail_body (attachAtom : Int) (zWiggle : α)
    (s : MoleculeGeometry α × Int) (i : Nat) : MoleculeGeometry α × Int :=
  let mol := s.1
  let previous := s.2
  let base := mol.atomPos attachAtom
  let step : α := 1.1
  let next := make_vec3 (base.x + ((i : α) + 1) * step) (base.y - 0.4 * (i : α))
    (base.z + zWiggle * (i : α))
  let mol := add_atom mol next 0
  let current := mol.atomCount - 1
  let mol := add_bond mol previous current 1
  (mol, current)

/-- The function `add_ester_tail`. -/
def add_ester_tail (mol : MoleculeGeometry α) (attachAtom segmentCount : Int) (zWiggle : α) :
    MoleculeGeometry α :=
  (forLoop segmentCount.toNat (add_ester_tail_body attachAtom zWiggle) (mol, attachAtom)).1

/-- The block `add_atom(mol, make_vec3(<offsets of mol->atomPos[k]>), label);
add_bond(mol, k, mol->atomCount-1, order);` that `apply_preset` repeats for
each substituent; `off` is the expression inside `make_vec3` as a function of
`mol->atomPos[k]`. -/
def add_substituent (mol : MoleculeGeometry α) (k : Int) (off : Vec3 α → Vec3 α) (label : Nat)
    (order : Int) : MoleculeGeometry α :=
  let mol := add_atom mol (off (mol.atomPos k)) label
  add_bond mol k (mol.atomCount - 1) order

/-- The function `apply_preset` of `src/src/main.c`. -/
def apply_preset (cosf sinf : α → α) (mol : MoleculeGeometry α) (presetType : Int) :
    MoleculeGeometry α :=
  let mol := build_steroid_core cosf sinf mol
  let attachHydroxyl : Int := 2
  let attachCarbonyl : Int := 8
  let attachEster : Int := 14
  let mol := add_substituent mol attachHydroxyl
    (fun b => make_vec3 (b.x - 0.2) (b.y + 1.4) (b.z + 0.8)) 1 1
  let mol := add_substituent mol attachCarbonyl
    (fun b => make_vec3 (b.x + 0.3) (b.y - 1.2) (b.z - 0.6)) 1 2
  let mol := if presetType = 1 then add_ester_tail mol attachEster 6 0.10 else mol
  let mol := if presetType = 2 then add_ester_tail mol attachEster 7 (-0.05) else mol
  let mol := if presetType = 18 then add_ester_tail mol attachEster 3 0.05 else mol
  let mol := if presetType = 19 then add_ester_tail mol attachEster 3 (-0.06) else mol
  let mol := if presetType = 6 ∨ presetType = 16 ∨ presetType = 17 then
      add_substituent mol 5 (fun b => make_vec3 (b.x - 1.2) (b.y + 0.6) (b.z + 0.2)) 0 1
    else mol
  let mol := if presetType = 3 ∨ presetType = 5 then
      let mol := if mol.bondCount > 10 then
          set_bond_order (set_bond_order mol 3 2) 8 2
        else mol
      if presetType = 3 ∧ mol.bondCount > 15 then set_bond_order mol 12 2 else mol
    else mol
  let mol := if presetType = 8 then
      add_substituent mol 0 (fun b => make_vec3 (b.x - 1.6) (b.y + 0.2) b.z) 2 1
    else mol
  let mol := if presetType = 12 ∨ presetType = 17 then
      add_substituent mol 1 (fun b => make_vec3 (b.x - 1.2) (b.y + 1.0) (b.z + 0.1)) 3 1
    else mol
  let mol := if presetType = 13 then
      add_substituent mol 9 (fun b => make_vec3 (b.x + 1.1) (b.y + 0.8) (b.z - 0.2)) 4 1
    else mol
  let mol := if presetType = 7 ∨ presetType = 9 then
      add_substituent mol 10 (fun b => make_vec3 (b.x + 0.2) (b.y + 1.1) (b.z - 0.4)) 1 1
    else mol
  let mol := if presetType = 4 ∨ presetType = 10 ∨ presetType = 14 ∨ presetType = 15 then
      add_substituent mol 11 (fun b => make_vec3 (b.x + 0.9) (b.y - 0.9) (b.z + 0.3)) 0 1
    else mol
  let mol := if presetType = 11 then
      add_substituent mol 6 (fun b => make_vec3 (b.x + 0.7) (b.y + 1.0) b.z) 0 1
    else mol
  mol

/-! ## List view of a geometry

The entries of a `MoleculeGeometry` below its two counts, as lists, and the
steps of `apply_preset` on these lists.  `apply_preset_rep` below proves that
the array code computes exactly this view. -/

/-- The live part of a geometry: the atoms (position and label) and the bonds
in index order. -/
structure Contents (α : Type) where
  atoms : List (Vec3 α × Nat)
  bonds : List Bond

/-- The buffer `m` with the entries below the counts replaced by `g`. -/
def ofLists (g : Contents α) (m : MoleculeGeometry α) : MoleculeGeometry α where
  atomPos j := if 0 ≤ j then (g.atoms.getD j.toNat (m.atomPos j, m.atomLabel j)).1 else m.atomPos j
  atomLabel j := if 0 ≤ j then (g.atoms.getD j.toNat (m.atomPos j, m.atomLabel j)).2 else m.atomLabel j
  atomCount := g.atoms.length
  bonds j := if 0 ≤ j then g.bonds.getD j.toNat (m.bonds j) else m.bonds j
  bondCount := g.bonds.length


/-- Position of atom `k` in a list of atoms (the zero vector outside the list). -/
def atomAt (as : List (Vec3 α × Nat)) (k : Int) : Vec3 α :=
  (as.getD k.toNat (⟨0, 0, 0⟩, 0)).1

/-- The atoms of the four rings of `build_steroid_core`, in index order. -/
def coreAtoms (cosf sinf : α → α) : List (Vec3 α × Nat) :=
  (List.range 6).map (fun (i : Nat) =>
      (make_vec3 (cosf ((i : α) * PI / 3.0) * 1.8) (sinf ((i : α) * PI / 3.0) * 1.8) 0.0, 0)) ++
    (List.range 6).map (fun (i : Nat) =>
      (make_vec3 (2.8 + cosf ((i : α) * PI / 3.0) * 1.8) (sinf ((i : α) * PI / 3.0) * 1.8) 0.2, 0)) ++
    (List.range 5).map (fun (i : Nat) =>
      (make_vec3 (2.8 + cosf ((i : α) * 2.0 * PI / 5.0) * 1.6)
        (2.8 + sinf ((i : α) * 2.0 * PI / 5.0) * 1.6) (-0.2), 0)) ++
    (List.range 5).map (fun (i : Nat) =>
      (make_vec3 (4.8 + cosf ((i : α) * 2.0 * PI / 5.0) * 1.3)
        (4.3 + sinf ((i : α) * 2.0 * PI / 5.0) * 1.3) 0.15, 0))

/-- The bonds of `build_steroid_core`, in index order. -/
def coreBonds : List Bond :=
  [⟨0, 1, 1⟩, ⟨1, 2, 1⟩, ⟨2, 3, 1⟩, ⟨3, 4, 1⟩, ⟨4, 5, 1⟩, ⟨5, 0, 1⟩,
   ⟨6, 7, 1⟩, ⟨7, 8, 1⟩, ⟨8, 9, 1⟩, ⟨9, 10, 1⟩, ⟨10, 11, 1⟩, ⟨11, 6, 1⟩,
   ⟨1, 10, 1⟩, ⟨2, 11, 1⟩,
   ⟨12, 13, 1⟩, ⟨13, 14, 1⟩, ⟨14, 15, 1⟩, ⟨15, 16, 1⟩, ⟨16, 12, 1⟩,
   ⟨7, 15, 1⟩, ⟨8, 16, 1⟩,
   ⟨17, 18, 1⟩, ⟨18, 19, 1⟩, ⟨19, 20, 1⟩, ⟨20, 21, 1⟩, ⟨21, 17, 1⟩,
   ⟨13, 20, 1⟩, ⟨14, 21, 1⟩]

/-- List view of `add_substituent`. -/
def L_subst (g : Contents α) (k : Int) (off : Vec3 α → Vec3 α) (label : Nat) (order : Int) :
    Contents α :=
  ⟨g.atoms ++ [(off (atomAt g.atoms k), label)], g.bonds ++ [⟨k, g.atoms.length, order⟩]⟩

/-- List view of `set_bond_order`. -/
def L_setOrder (g : Contents α) (k order : Int) : Contents α :=
  ⟨g.atoms, g.bonds.set k.toNat { g.bonds.getD k.toNat ⟨0, 0, 0⟩ with order := order }⟩

/-- List view of `add_ester_tail` in closed form. -/
def L_tail (g : Contents α) (a n : Int) (w : α) : Contents α :=
  ⟨g.atoms ++ (List.range n.toNat).map (fun (i : Nat) =>
      (make_vec3 ((atomAt g.atoms a).x + ((i : α) + 1) * 1.1) ((atomAt g.atoms a).y - 0.4 * (i : α))
        ((atomAt g.atoms a).z + w * (i : α)), 0)),
   g.bonds ++ (List.range n.toNat).map (fun (i : Nat) =>
      ⟨if i = 0 then a else (g.atoms.length : Int) + i - 1, (g.atoms.length : Int) + i, 1⟩)⟩

/-- List view of `apply_preset`: the same sequence of steps on lists, without
the capacity guards. -/
def presetL (cosf sinf : α → α) (presetType : Int) : Contents α :=
  let g : Contents α := ⟨coreAtoms cosf sinf, coreBonds⟩
  let g := L_subst g 2 (fun b => make_vec3 (b.x - 0.2) (b.y + 1.4) (b.z + 0.8)) 1 1
  let g := L_subst g 8 (fun b => make_vec3 (b.x + 0.3) (b.y - 1.2) (b.z - 0.6)) 1 2
  let g := if presetType = 1 then L_tail g 14 6 0.10 else g
  let g := if presetType = 2 then L_tail g 14 7 (-0.05) else g
  let g := if presetType = 18 then L_tail g 14 3 0.05 else g
  let g := if presetType = 19 then L_tail g 14 3 (-0.06) else g
  let g := if presetType = 6 ∨ presetType = 16 ∨ presetType = 17 then
      L_subst g 5 (fun b => make_vec3 (b.x - 1.2) (b.y + 0.6) (b.z + 0.2)) 0 1
    else g
  let g := if presetType = 3 ∨ presetType = 5 then
      let g := if (g.bonds.length : Int) > 10 then L_setOrder (L_setOrder g 3 2) 8 2 else g
      if presetType = 3 ∧ (g.bonds.length : Int) > 15 then L_setOrder g 12 2 else g
    else g
  let g := if presetType = 8 then
      L_subst g 0 (fun b => make_vec3 (b.x - 1.6) (b.y + 0.2) b.z) 2 1
    else g
  let g := if presetType = 12 ∨ presetType = 17 then
      L_subst g 1 (fun b => make_vec3 (b.x - 1.2) (b.y + 1.0) (b.z + 0.1)) 3 1
    else g
  let g := if presetType = 13 then
      L_subst g 9 (fun b => make_vec3 (b.x + 1.1) (b.y + 0.8) (b.z - 0.2)) 4 1
    else g
  let g := if presetType = 7 ∨ presetType = 9 then
      L_subst g 10 (fun b => make_vec3 (b.x + 0.2) (b.y + 1.1) (b.z - 0.4)) 1 1
    else g
  let g := if presetType = 4 ∨ presetType = 10 ∨ presetType = 14 ∨ presetType = 15 then
      L_subst g 11 (fun b => make_vec3 (b.x + 0.9) (b.y - 0.9) (b.z + 0.3)) 0 1
    else g
  let g := if presetType = 11 then
      L_subst g 6 (fun b => make_vec3 (b.x + 0.7) (b.y + 1.0) b.z) 0 1
    else g
  g

/-- The Bond invariant against an atom count `n`. -/
def BondOK (n : Int) (b : Bond) : Prop :=
  0 ≤ b.from_ ∧ b.from_ < n ∧ 0 ≤ b.to_ ∧ b.to_ < n ∧ b.from_ ≠ b.to_ ∧
    (b.order = 1 ∨ b.order = 2 ∨ b.order = 3)

instance BondOK.decidable (n : Int) (b : Bond) : Decidable (BondOK n b) := by
  unfold BondOK; infer_instance

/-- Size bounds on a list view together with the Bond invariant of every bond:
at least the 22 atoms and 28 bonds of the nucleus, at most `na` atoms and `nb`
bonds. -/
def GoodL (g : Contents α) (na nb : Nat) : Prop :=
  22 ≤ g.atoms.length ∧ g.atoms.length ≤ na ∧ 28 ≤ g.bonds.length ∧ g.bonds.length ≤ nb ∧
    ∀ b ∈ g.bonds, BondOK g.atoms.length b

/-- The buffer `mol` is the buffer `m` overwritten with the list view `g`, and
`g` satisfies `GoodL`. -/
def Rep (m mol : MoleculeGeometry α) (g : Contents α) (na nb : Nat) : Prop :=
  mol = ofLists g m ∧ GoodL g na nb

/-- Every coordinate of `p` has absolute value at most `B`. -/
def InBox (B : α) (p : Vec3 α) : Prop :=
  |p.x| ≤ B ∧ |p.y| ≤ B ∧ |p.z| ≤ B

/-- Every atom of the list view lies in the box of half-width `B`. -/
def BoxL (B : α) (g : Contents α) : Prop :=
  ∀ a ∈ g.atoms, InBox B a.1

/-! ## Sample buffers -/

/-- A buffer with every entry zero and both counts zero. -/
def blankMolecule : MoleculeGeometry α :=
  ⟨fun _ => ⟨0, 0, 0⟩, fun _ => 0, 0, fun _ => ⟨0, 0, 0⟩, 0⟩

/-- A buffer holding stale data: negative atom count, bond count above the
capacity, non-zero entries. -/
def staleMolecule : MoleculeGeometry α :=
  ⟨fun _ => ⟨1, 2, 3⟩, fun _ => 4, -5, fun _ => ⟨7, 7, 9⟩, 777⟩

/-- A buffer filled to capacity: 64 atoms and 96 bonds. -/
def fullMolecule : MoleculeGeometry α :=
  ⟨fun _ => ⟨0, 0, 0⟩, fun _ => 0, 64, fun _ => ⟨0, 1, 1⟩, 96⟩


/-! ## View control and the event loop of `main` -/

/-- Number of grid columns (`#define GRID_COLS 5`). -/
def GRID_COLS : Int := 5

/-- Number of compounds (`#define COMPOUND_COUNT 20`). -/
def COMPOUND_COUNT : Int := 20

/-- The record `ViewControl`. -/
structure ViewControl (α : Type) where
  yaw : α
  pitch : α
  panX : α
  panY : α
  zoomMultiplier : α

/-- The function `reset_view_control`; the argument is the record before the
call. -/
def reset_view_control (v : ViewControl α) : ViewControl α :=
  let v := { v with yaw := 0.0 }
  let v := { v with pitch := 0.5 }
  let v := { v with panX := 0.0 }
  let v := { v with panY := 0.0 }
  { v with zoomMultiplier := 1.0 }

/-- The key codes that `main` tests, and `other` for every other key. -/
inductive Keycode where
  | SDLK_ESCAPE | SDLK_SPACE | SDLK_RETURN | SDLK_r | SDLK_a
  | SDLK_LEFT | SDLK_RIGHT | SDLK_UP | SDLK_DOWN | other
deriving DecidableEq

/-- The mouse buttons that `main` tests, and `other` for every other button. -/
inductive MouseButton where
  | SDL_BUTTON_LEFT | SDL_BUTTON_RIGHT | other
deriving DecidableEq

/-- The events that `main` handles, with the fields it reads, and `other` for
every other event type. -/
inductive SDL_Event where
  | SDL_QUIT
  | SDL_KEYDOWN (key : Keycode)
  | SDL_MOUSEBUTTONDOWN (button : MouseButton) (x y : Int)
  | SDL_MOUSEBUTTONUP (button : MouseButton)
  | SDL_MOUSEMOTION (x y : Int)
  | SDL_MOUSEWHEEL (y : Int)
  | other

/-- The local variables of `main` that the event loop reads and writes. -/
structure MainState (α : Type) where
  viewControls : Int → ViewControl α
  selectedIndex : Int
  isWireframe : Bool
  isFocused : Bool
  autoRotateEnabled : Bool
  leftDragging : Bool
  rightDragging : Bool
  lastMouseX : Int
  lastMouseY : Int
  running : Bool

/-- The state of `main` when the event loop starts: every entry of
`viewControls` has been reset; `garbage` is the array before the reset loop. -/
def main_init (garbage : Int → ViewControl α) : MainState α :=
  { viewControls := forLoop 20 (fun vc i =>
      Function.update vc (i : Int) (reset_view_control (vc (i : Int)))) garbage
    selectedIndex := 0
    isWireframe := false
    isFocused := false
    autoRotateEnabled := true
    leftDragging := false
    rightDragging := false
    lastMouseX := 0
    lastMouseY := 0
    running := true }

/-- The `SDL_KEYDOWN` branch of the event loop. -/
def on_keydown (s : MainState α) (key : Keycode) : MainState α :=
  let s := if key = Keycode.SDLK_ESCAPE then { s with running := false } else s
  let s := if key = Keycode.SDLK_SPACE then { s with isWireframe := !s.isWireframe } else s
  let s := if key = Keycode.SDLK_RETURN then { s with isFocused := !s.isFocused } else s
  let s := if key = Keycode.SDLK_r then
      { s with viewControls := (Function.update s.viewControls s.selectedIndex
          (reset_view_control (s.viewControls s.selectedIndex))) }
    else s
  let s := if key = Keycode.SDLK_a then
      { s with autoRotateEnabled := !s.autoRotateEnabled }
    else s
  if !s.isFocused then
    let s := if key = Keycode.SDLK_LEFT then
        { s with selectedIndex :=
            if s.selectedIndex.tmod GRID_COLS = 0 then s.selectedIndex else s.selectedIndex - 1 }
      else s
    let s := if key = Keycode.SDLK_RIGHT then
        { s with selectedIndex :=
            if s.selectedIndex.tmod GRID_COLS = GRID_COLS - 1 then s.selectedIndex
            else s.selectedIndex + 1 }
      else s
    let s := if key = Keycode.SDLK_UP then
        { s with selectedIndex :=
            if s.selectedIndex - GRID_COLS ≥ 0 then s.selectedIndex - GRID_COLS
            else s.selectedIndex }
      else s
    let s := if key = Keycode.SDLK_DOWN then
        { s with selectedIndex :=
            if s.selectedIndex + GRID_COLS < COMPOUND_COUNT then s.selectedIndex + GRID_COLS
            else s.selectedIndex }
      else s
    s
  else s

/-- The `SDL_MOUSEMOTION` branch of the event loop. -/
def on_mousemotion (s : MainState α) (mx my : Int) : MainState α :=
  let dx := mx - s.lastMouseX
  let dy := my - s.lastMouseY
  let s := { s with lastMouseX := mx }
  let s := { s with lastMouseY := my }
  let s := if s.leftDragging then
      let v := s.viewControls s.selectedIndex
      let v := { v with yaw := v.yaw + (dx : α) * 0.01 }
      let v := { v with pitch := v.pitch + (dy : α) * 0.01 }
      let v := { v with pitch := clampf v.pitch (-1.2) 1.2 }
      { s with viewControls := Function.update s.viewControls s.selectedIndex v }
    else s
  let s := if s.rightDragging then
      let v := s.viewControls s.selectedIndex
      let v := { v with panX := v.panX + (dx : α) }
      let v := { v with panY := v.panY + (dy : α) }
      { s with viewControls := Function.update s.viewControls s.selectedIndex v }
    else s
  s

/-- The `SDL_MOUSEWHEEL` branch of the event loop. -/
def on_mousewheel (s : MainState α) (wheelY : Int) : MainState α :=
  let v := s.viewControls s.selectedIndex
  let v := if wheelY > 0 then { v with zoomMultiplier := v.zoomMultiplier * 1.08 } else v
  let v := if wheelY < 0 then { v with zoomMultiplier := v.zoomMultiplier * 0.92 } else v
  let v := { v with zoomMultiplier := clampf v.zoomMultiplier 0.35 4.0 }
  { s with viewControls := Function.update s.viewControls s.selectedIndex v }

/-- The body of the loop `while(SDL_PollEvent(&e))` of `main`, for one event. -/
def handle_event (s : MainState α) (e : SDL_Event) : MainState α :=
  match e with
  | SDL_Event.SDL_QUIT => { s with running := false }
  | SDL_Event.SDL_KEYDOWN key => on_keydown s key
  | SDL_Event.SDL_MOUSEBUTTONDOWN button x y =>
    let s := if button = MouseButton.SDL_BUTTON_LEFT then
        { s with leftDragging := true, lastMouseX := x, lastMouseY := y }
      else s
    let s := if button = MouseButton.SDL_BUTTON_RIGHT then
        { s with rightDragging := true, lastMouseX := x, lastMouseY := y }
      else s
    s
  | SDL_Event.SDL_MOUSEBUTTONUP button =>
    let s := if button = MouseButton.SDL_BUTTON_LEFT then { s with leftDragging := false } else s
    let s := if button = MouseButton.SDL_BUTTON_RIGHT then { s with rightDragging := false } else s
    s
  | SDL_Event.SDL_MOUSEMOTION x y => on_mousemotion s x y
  | SDL_Event.SDL_MOUSEWHEEL y => on_mousewheel s y
  | SDL_Event.other => s

/-- The state after the events of a list have been handled in order. -/
def handle_events (s : MainState α) (events : List SDL_Event) : MainState α :=
  events.foldl handle_event s

/-- The range invariant of one `ViewControl`: pitch in `[-1.2, 1.2]` and
zoomMultiplier in `[0.35, 4.0]`. -/
def InRange (v : ViewControl α) : Prop :=
  -1.2 ≤ v.pitch ∧ v.pitch ≤ 1.2 ∧ 0.35 ≤ v.zoomMultiplier ∧ v.zoomMultiplier ≤ 4.0

/-- A view control with every field out of range, as uninitialised memory. -/
def staleView : ViewControl α := ⟨7, 9, 3, 3, 100⟩

/-! ## Further list views -/

/-- List view of the geometry after the nucleus and the two common substituents
of `apply_preset`. -/
def commonL (cosf sinf : α → α) : Contents α :=
  L_subst
    (L_subst ⟨coreAtoms cosf sinf, coreBonds⟩ 2
      (fun b => make_vec3 (b.x - 0.2) (b.y + 1.4) (b.z + 0.8)) 1 1)
    8 (fun b => make_vec3 (b.x + 0.3) (b.y - 1.2) (b.z - 0.6)) 1 2

/-- The list view `g` keeps the atoms of `base` as a prefix and has the bonds of
`base` at every position from 28 on. -/
def ExtendsL (base g : Contents α) : Prop :=
  (∃ as, g.atoms = base.atoms ++ as) ∧ base.bonds.length ≤ g.bonds.length ∧
    ∀ k, 28 ≤ k → k < base.bonds.length → g.bonds[k]? = base.bonds[k]?

/-- The list view of a buffer: its entries below the two counts. -/
def viewOf (mol : MoleculeGeometry α) : Contents α :=
  ⟨(List.range mol.atomCount.toNat).map (fun (i : Nat) => (mol.atomPos i, mol.atomLabel i)),
   (List.range mol.bondCount.toNat).map (fun (i : Nat) => mol.bonds i)⟩

/-! ## Bounding radius, colours and `draw_molecule`

The renderer is a log of calls.  The SDL functions and the three rasterising
primitives of the source (`draw_filled_circle`, `draw_thick_line`,
`draw_glyph3x5`) are recorded as calls with their arguments; their pixel loops
are not modelled.  `uint8_t` and `uint32_t` values are `Nat`.  The libc function
`qsort` is a parameter, constrained by `QsortContract`. -/

/-- The conversion of a `float` to an integer type: truncation toward zero. -/
def truncf (v : α) : Int :=
  if 0 ≤ v then ⌊v⌋ else ⌈v⌉

/-- The cast `(uint8_t)` of a `float`. -/
def to_uint8 (v : α) : Nat :=
  (truncf v).toNat % 256

/-- The function `color_r`. -/
def color_r (c : Nat) : Nat := (c >>> 24) &&& 255

/-- The function `color_g`. -/
def color_g (c : Nat) : Nat := (c >>> 16) &&& 255

/-- The function `color_b`. -/
def color_b (c : Nat) : Nat := (c >>> 8) &&& 255

/-- The function `lighten`. -/
def lighten (rgba : Nat) (t : α) : Nat :=
  let r := color_r rgba
  let g := color_g rgba
  let b := color_b rgba
  let nr := to_uint8 (clampf ((r : α) + (255 - (r : α)) * t) 0 255)
  let ng := to_uint8 (clampf ((g : α) + (255 - (g : α)) * t) 0 255)
  let nb := to_uint8 (clampf ((b : α) + (255 - (b : α)) * t) 0 255)
  (nr <<< 24) ||| (ng <<< 16) ||| (nb <<< 8) ||| 0xFF

/-- The function `darken`. -/
def darken (rgba : Nat) (t : α) : Nat :=
  let r := color_r rgba
  let g := color_g rgba
  let b := color_b rgba
  let nr := to_uint8 (clampf ((r : α) * (1.0 - t)) 0 255)
  let ng := to_uint8 (clampf ((g : α) * (1.0 - t)) 0 255)
  let nb := to_uint8 (clampf ((b : α) * (1.0 - t)) 0 255)
  (nr <<< 24) ||| (ng <<< 16) ||| (nb <<< 8) ||| 0xFF

/-- The record `RectI` (also used for `SDL_Rect`, which has the same fields). -/
structure RectI where
  x : Int
  y : Int
  w : Int
  h : Int
deriving DecidableEq

/-- One call on the renderer. -/
inductive DrawCall where
  | SDL_RenderSetClipRect (rect : Option RectI)
  | SDL_SetRenderDrawColor (r g b a : Nat)
  | SDL_RenderFillRect (rect : RectI)
  | SDL_RenderDrawRect (rect : RectI)
  | draw_filled_circle (cx cy radius : Int)
  | draw_thick_line (x1 y1 x2 y2 thickness : Int)
  | draw_glyph3x5 (x y scale : Int) (bits : List Nat)
deriving DecidableEq

/-- Whether a call is a stroke, that is a call of `draw_thick_line`. -/
def DrawCall.isStroke : DrawCall → Bool
  | DrawCall.draw_thick_line _ _ _ _ _ => true
  | _ => false

/-- The first statement of `draw_thick_line`, `if(thickness < 2) thickness = 2;`:
the thickness the stroke is drawn with. -/
def thick_line_width (thickness : Int) : Int :=
  if thickness < 2 then 2 else thickness

/-- The function `set_draw_color`. -/
def set_draw_color (rgba : Nat) (a : Nat) : List DrawCall :=
  [DrawCall.SDL_SetRenderDrawColor (color_r rgba) (color_g rgba) (color_b rgba) a]

/-- The function `draw_stick`. -/
def draw_stick (x1 y1 x2 y2 : Int) (order : Int) (baseColor : Nat) (alpha : Nat) :
    List DrawCall :=
  let outer : Int := if order = 1 then 6 else (if order = 2 then 8 else 10)
  let inner : Int := if order = 1 then 3 else (if order = 2 then 4 else 5)
  let dark := darken baseColor (0.35 : α)
  let bright := lighten baseColor (0.35 : α)
  set_draw_color dark alpha ++
  [DrawCall.draw_thick_line x1 y1 x2 y2 outer] ++
  set_draw_color bright alpha ++
  [DrawCall.draw_thick_line x1 y1 x2 y2 inner] ++
  (if order = 2 then
    set_draw_color dark alpha ++
    [DrawCall.draw_thick_line (x1 + 3) (y1 - 3) (x2 + 3) (y2 - 3) (outer - 2)] ++
    set_draw_color bright alpha ++
    [DrawCall.draw_thick_line (x1 + 3) (y1 - 3) (x2 + 3) (y2 - 3) (inner - 1)]
  else [])

/-- The glyph table `GL_C`. -/
def GL_C : List Nat := [0b111, 0b100, 0b100, 0b100, 0b111]

/-- The glyph table `GL_O`. -/
def GL_O : List Nat := [0b111, 0b101, 0b101, 0b101, 0b111]

/-- The glyph table `GL_N`. -/
def GL_N : List Nat := [0b101, 0b111, 0b111, 0b111, 0b101]

/-- The glyph table `GL_F`. -/
def GL_F : List Nat := [0b111, 0b100, 0b110, 0b100, 0b100]

/-- The glyph table `GL_L`. -/
def GL_L : List Nat := [0b100, 0b100, 0b100, 0b100, 0b111]

/-- The function `draw_atom_label`. -/
def draw_atom_label (x y : Int) (labelCode : Int) : List DrawCall :=
  let scale : Int := 2
  if labelCode = 0 then [DrawCall.draw_glyph3x5 x y scale GL_C]
  else if labelCode = 1 then [DrawCall.draw_glyph3x5 x y scale GL_O]
  else if labelCode = 2 then [DrawCall.draw_glyph3x5 x y scale GL_N]
  else if labelCode = 4 then [DrawCall.draw_glyph3x5 x y scale GL_F]
  else if labelCode = 3 then
    [DrawCall.draw_glyph3x5 x y scale GL_C, DrawCall.draw_glyph3x5 (x + 8) y scale GL_L]
  else []

/-- The function `compute_bounding_radius`. -/
def compute_bounding_radius (sqrtf : α → α) (mol : MoleculeGeometry α) : α :=
  let maxR2 := forLoop mol.atomCount.toNat (fun (maxR2 : α) i =>
    let x := (mol.atomPos i).x
    let y := (mol.atomPos i).y
    let z := (mol.atomPos i).z
    let r2 := x * x + y * y + z * z
    if r2 > maxR2 then r2 else maxR2) 0.0
  let r := sqrtf maxR2
  if r < 0.001 then 1.0 else r

/-- The fields of the record `Compound` that `draw_molecule` reads. -/
structure Compound (α : Type) where
  colorRGBA : Nat
  presetType : Int
  baseScale : α

/-- The record `AtomDraw`. -/
structure AtomDraw (α : Type) where
  atomIndex : Int
  depth : α
  screenX : Int
  screenY : Int
  radius : Int
  color : Nat

/-- The record `BondDraw`. -/
structure BondDraw (α : Type) where
  x1 : Int
  y1 : Int
  x2 : Int
  y2 : Int
  depth : α
  order : Int
  color : Nat
  alpha : Nat

/-- The function `sort_bonds_far_to_near`. -/
def sort_bonds_far_to_near (a b : BondDraw α) : Int :=
  if a.depth < b.depth then -1
  else if a.depth > b.depth then 1
  else 0

/-- The function `sort_atoms_far_to_near`. -/
def sort_atoms_far_to_near (a b : AtomDraw α) : Int :=
  if a.depth < b.depth then -1
  else if a.depth > b.depth then 1
  else 0

/-- What the C standard asks of a comparison function passed to `qsort`: it is
a total preorder (a positive answer is mirrored by a negative one, and "not
after" is transitive). -/
def ConsistentCompare {β : Type} (cmp : β → β → Int) : Prop :=
  (∀ a b, 0 < cmp a b → cmp b a < 0) ∧ (∀ a b c, cmp a b ≤ 0 → cmp b c ≤ 0 → cmp a c ≤ 0)

/-- The contract of the libc function `qsort` on an array given as a list: with
a consistent comparison function the result is a rearrangement of the input in
which no element is followed by one that compares before it.  The order of
elements that compare equal is not fixed. -/
def QsortContract {β : Type} (qsort : (β → β → Int) → List β → List β) : Prop :=
  ∀ cmp l, ConsistentCompare cmp →
    List.Perm (qsort cmp l) l ∧ List.Pairwise (fun a b => cmp a b ≤ 0) (qsort cmp l)

/-- One `qsort` that meets `QsortContract`: insertion sort by the comparison
function. -/
def qsort_insertion {β : Type} (cmp : β → β → Int) (l : List β) : List β :=
  l.insertionSort (fun a b => cmp a b ≤ 0)

/-- The projection loop of `draw_molecule` (the arrays `projectedX`,
`projectedY`, `projectedDepth`), as a map from the atom index.  The arrays are
written for the indices below `atomCount`. -/
def projected (cosf sinf sqrtf : α → α) (compound : Compound α) (mol : MoleculeGeometry α)
    (rect : RectI) (timeSeconds : α) (view : ViewControl α) (autoRotateEnabled : Bool)
    (i : Int) : Projected α :=
  let centerX := rect.x + rect.w.tdiv 2
  let centerY := rect.y + rect.h.tdiv 2
  let radius := compute_bounding_radius sqrtf mol
  let minDim : α := ((if rect.w < rect.h then rect.w else rect.h : Int) : α)
  let baseZoom := (minDim * 0.38) / radius
  let zoom := baseZoom * compound.baseScale * view.zoomMultiplier
  let autoYaw : α := if autoRotateEnabled then timeSeconds * 0.7 else 0.0
  let autoPitch : α := if autoRotateEnabled then timeSeconds * 0.25 else 0.0
  let yaw := autoYaw + view.yaw
  let pitch := autoPitch + view.pitch
  let panX := lroundf view.panX
  let panY := lroundf view.panY
  let rp := rotate_yaw_pitch cosf sinf (mol.atomPos i) yaw pitch
  project_to_screen rp zoom (centerX + panX) (centerY + panY)

/-- The loop of `draw_molecule` that fills `bondDraws`, one entry per bond in
index order. -/
def build_bond_draws (cosf sinf sqrtf : α → α) (compound : Compound α)
    (mol : MoleculeGeometry α) (rect : RectI) (isSelected : Bool) (timeSeconds : α)
    (view : ViewControl α) (autoRotateEnabled : Bool) : List (BondDraw α) :=
  (List.range mol.bondCount.toNat).map (fun (i : Nat) =>
    let b := mol.bonds i
    let p1 := projected cosf sinf sqrtf compound mol rect timeSeconds view autoRotateEnabled
      b.from_
    let p2 := projected cosf sinf sqrtf compound mol rect timeSeconds view autoRotateEnabled
      b.to_
    let depth := (p1.outDepth + p2.outDepth) * 0.5
    let alpha : Nat := if isSelected then 230 else 140
    { x1 := p1.outX, y1 := p1.outY, x2 := p2.outX, y2 := p2.outY, depth := depth,
      order := b.order, color := compound.colorRGBA, alpha := alpha })

/-- The loop of `draw_molecule` that fills `atomDraws`, one entry per atom in
index order. -/
def build_atom_draws (cosf sinf sqrtf : α → α) (compound : Compound α)
    (mol : MoleculeGeometry α) (rect : RectI) (isWireframe : Bool) (timeSeconds : α)
    (view : ViewControl α) (autoRotateEnabled : Bool) : List (AtomDraw α) :=
  (List.range mol.atomCount.toNat).map (fun (i : Nat) =>
    let p := projected cosf sinf sqrtf compound mol rect timeSeconds view autoRotateEnabled i
    let atomColor := compound.colorRGBA
    let atomColor := if mol.atomLabel i = 1 then 0xFF4757FF else atomColor
    let atomColor := if mol.atomLabel i = 2 then 0x5F27CDFF else atomColor
    let atomColor := if mol.atomLabel i = 3 then 0x1DD1A1FF else atomColor
    let atomColor := if mol.atomLabel i = 4 then 0x48DBFBFF else atomColor
    let depthScale := clampf (1.0 - p.outDepth * 0.05) 0.6 1.35
    let baseSize : α := if isWireframe then 3.5 else 7.0
    let baseSize : α := if mol.atomLabel i = 1 then (if isWireframe then 4.0 else 8.0)
      else baseSize
    let baseSize : α := if mol.atomLabel i = 3 ∨ mol.atomLabel i = 4 then
        (if isWireframe then 4.2 else 9.0)
      else baseSize
    let rad := lroundf (baseSize * depthScale)
    { atomIndex := i, depth := p.outDepth, screenX := p.outX, screenY := p.outY,
      radius := rad, color := atomColor })

/-- The body of the bond emission loop of `draw_molecule`, for one entry. -/
def emit_bond (isWireframe : Bool) (bd : BondDraw α) : List DrawCall :=
  if isWireframe then
    let bright := lighten bd.color (0.20 : α)
    set_draw_color (darken bd.color (0.55 : α)) bd.alpha ++
    [DrawCall.draw_thick_line bd.x1 bd.y1 bd.x2 bd.y2 4] ++
    set_draw_color bright bd.alpha ++
    [DrawCall.draw_thick_line bd.x1 bd.y1 bd.x2 bd.y2 2] ++
    (if bd.order = 2 then
      set_draw_color bright bd.alpha ++
      [DrawCall.draw_thick_line (bd.x1 + 2) (bd.y1 - 2) (bd.x2 + 2) (bd.y2 - 2) 2]
    else [])
  else
    @draw_stick α _ _ bd.x1 bd.y1 bd.x2 bd.y2 bd.order bd.color bd.alpha

/-- The body of the atom emission loop of `draw_molecule`, for one entry. -/
def emit_atom (mol : MoleculeGeometry α) (isSelected isWireframe : Bool) (ad : AtomDraw α) :
    List DrawCall :=
  if isWireframe then
    let c := lighten ad.color (0.05 : α)
    set_draw_color c (if isSelected then 220 else 170) ++
    [DrawCall.draw_filled_circle ad.screenX ad.screenY (truncf (clampf (ad.radius : α) 2 5))]
  else
    let hx := ad.screenX - ad.radius.tdiv 3
    let hy := ad.screenY - ad.radius.tdiv 3
    let hi := lighten ad.color (0.60 : α)
    let label : Int := (mol.atomLabel ad.atomIndex : Nat)
    set_draw_color (darken ad.color (0.40 : α)) 255 ++
    [DrawCall.draw_filled_circle ad.screenX ad.screenY (ad.radius + 2)] ++
    set_draw_color ad.color 255 ++
    [DrawCall.draw_filled_circle ad.screenX ad.screenY ad.radius] ++
    set_draw_color hi 220 ++
    [DrawCall.draw_filled_circle hx hy (truncf (clampf ((ad.radius : α) * 0.45) 2 12))] ++
    set_draw_color 0xFFFFFFFF 200 ++
    [DrawCall.draw_filled_circle (hx - 2) (hy - 2)
      (truncf (clampf ((ad.radius : α) * 0.12) 1 4))] ++
    (if isSelected ∧ label ≠ 0 then
      [DrawCall.SDL_SetRenderDrawColor 245 245 255 255] ++
      draw_atom_label (ad.screenX + ad.radius + 4) (ad.screenY - 6) label
    else [])

/-- The function `draw_molecule`: the calls it makes on the renderer, in
order. -/
def draw_molecule (cosf sinf sqrtf : α → α)
    (qsortB : (BondDraw α → BondDraw α → Int) → List (BondDraw α) → List (BondDraw α))
    (qsortA : (AtomDraw α → AtomDraw α → Int) → List (AtomDraw α) → List (AtomDraw α))
    (compound : Compound α) (mol : MoleculeGeometry α) (rect : RectI)
    (isSelected isWireframe : Bool) (timeSeconds : α) (view : ViewControl α)
    (autoRotateEnabled : Bool) : List DrawCall :=
  let clip : RectI := ⟨rect.x, rect.y, rect.w, rect.h⟩
  let bondDraws := build_bond_draws cosf sinf sqrtf compound mol rect isSelected timeSeconds
    view autoRotateEnabled
  let atomDraws := build_atom_draws cosf sinf sqrtf compound mol rect isWireframe timeSeconds
    view autoRotateEnabled
  let bondDraws := qsortB sort_bonds_far_to_near bondDraws
  let atomDraws := qsortA sort_atoms_far_to_near atomDraws
  [DrawCall.SDL_RenderSetClipRect (some clip),
    DrawCall.SDL_SetRenderDrawColor 16 16 20 255,
    DrawCall.SDL_RenderFillRect clip,
    (if isSelected then DrawCall.SDL_SetRenderDrawColor 240 240 255 255
      else DrawCall.SDL_SetRenderDrawColor 60 60 75 255),
    DrawCall.SDL_RenderDrawRect clip] ++
  bondDraws.flatMap (emit_bond isWireframe) ++
  atomDraws.flatMap (emit_atom mol isSelected isWireframe) ++
  [DrawCall.SDL_RenderSetClipRect none]

/-! ## The copy of the builder in `src/gtests/test_geometry.c` -/

/-- The function `apply_preset` of `src/gtests/test_geometry.c`.  The test file
has its own copies of `add_atom`, `add_bond`, `build_steroid_core` and
`add_ester_tail`, which are the same text as in `src/src/main.c` and share the
definitions above. -/
def apply_preset_test (cosf sinf : α → α) (mol : MoleculeGeometry α) (presetType : Int) :
    MoleculeGeometry α :=
  let mol := build_steroid_core cosf sinf mol
  let attachHydroxyl : Int := 2
  let attachCarbonyl : Int := 8
  let attachEster : Int := 14
  let mol := add_substituent mol attachHydroxyl
    (fun b => make_vec3 (b.x - 0.2) (b.y + 1.4) (b.z + 0.8)) 1 1
  let mol := add_substituent mol attachCarbonyl
    (fun b => make_vec3 (b.x + 0.3) (b.y - 1.2) (b.z - 0.6)) 1 2
  let mol := if presetType = 1 then add_ester_tail mol attachEster 6 0.10 else mol
  let mol := if presetType = 2 then add_ester_tail mol attachEster 7 (-0.05) else mol
  let mol := if presetType = 18 then add_ester_tail mol attachEster 3 0.05 else mol
  let mol := if presetType = 19 then add_ester_tail mol attachEster 3 (-0.06) else mol
  let mol := if presetType = 6 ∨ presetType = 16 ∨ presetType = 17 then
      add_substituent mol 5 (fun b => make_vec3 (b.x - 1.2) (b.y + 0.6) (b.z + 0.2)) 0 1
    else mol
  let mol := if presetType = 3 ∨ presetType = 5 then
      let mol := if mol.bondCount > 10 then
          set_bond_order (set_bond_order mol 3 2) 8 2
        else mol
      if presetType = 3 ∧ mol.bondCount > 15 then set_bond_order mol 12 2 else mol
    else mol
  let mol := if presetType = 8 then
      add_substituent mol 0 (fun b => make_vec3 (b.x - 1.6) (b.y + 0.2) b.z) 2 1
    else mol
  let mol := if presetType = 12 ∨ presetType = 17 then
      add_substituent mol 1 (fun b => make_vec3 (b.x - 1.2) (b.y + 1.0) (b.z + 0.1)) 3 1
    else mol
  let mol := if presetType = 13 then
      add_substituent mol 9 (fun b => make_vec3 (b.x + 1.1) (b.y + 0.8) (b.z - 0.2)) 4 1
    else mol
  let mol := if presetType = 7 ∨ presetType = 9 then
      add_substituent mol 10 (fun b => make_vec3 (b.x + 0.2) (b.y + 1.1) (b.z - 0.4)) 1 1
    else mol
  mol

/-- List view of `apply_preset_test`. -/
def presetL_test (cosf sinf : α → α) (presetType : Int) : Contents α :=
  let g : Contents α := ⟨coreAtoms cosf sinf, coreBonds⟩
  let g := L_subst g 2 (fun b => make_vec3 (b.x - 0.2) (b.y + 1.4) (b.z + 0.8)) 1 1
  let g := L_subst g 8 (fun b => make_vec3 (b.x + 0.3) (b.y - 1.2) (b.z - 0.6)) 1 2
  let g := if presetType = 1 then L_tail g 14 6 0.10 else g
  let g := if presetType = 2 then L_tail g 14 7 (-0.05) else g
  let g := if presetType = 18 then L_tail g 14 3 0.05 else g
  let g := if presetType = 19 then L_tail g 14 3 (-0.06) else g
  let g := if presetType = 6 ∨ presetType = 16 ∨ presetType = 17 then
      L_subst g 5 (fun b => make_vec3 (b.x - 1.2) (b.y + 0.6) (b.z + 0.2)) 0 1
    else g
  let g := if presetType = 3 ∨ presetType = 5 then
      let g := if (g.bonds.length : Int) > 10 then L_setOrder (L_setOrder g 3 2) 8 2 else g
      if presetType = 3 ∧ (g.bonds.length : Int) > 15 then L_setOrder g 12 2 else g
    else g
  let g := if presetType = 8 then
      L_subst g 0 (fun b => make_vec3 (b.x - 1.6) (b.y + 0.2) b.z) 2 1
    else g
  let g := if presetType = 12 ∨ presetType = 17 then
      L_subst g 1 (fun b => make_vec3 (b.x - 1.2) (b.y + 1.0) (b.z + 0.1)) 3 1
    else g
  let g := if presetType = 13 then
      L_subst g 9 (fun b => make_vec3 (b.x + 1.1) (b.y + 0.8) (b.z - 0.2)) 4 1
    else g
  let g := if presetType = 7 ∨ presetType = 9 then
      L_subst g 10 (fun b => make_vec3 (b.x + 0.2) (b.y + 1.1) (b.z - 0.4)) 1 1
    else g
  g

/-! ## More sample data -/

/-- A geometry with two atoms, `(0, 0, 5)` and `(0, 0, 0)`, joined by one bond. -/
def twoAtomMolecule : MoleculeGeometry α :=
  ⟨fun j => if j = 0 then ⟨0, 0, 5⟩ else ⟨0, 0, 0⟩, fun _ => 0, 2, fun _ => ⟨0, 1, 1⟩, 1⟩

/-- A geometry whose atom array is full (64 atoms) and that has one bond, from
atom 0 to atom 1. -/
def saturatedAtoms : MoleculeGeometry α :=
  ⟨fun _ => ⟨0, 0, 0⟩, fun _ => 0, 64, fun _ => ⟨0, 1, 1⟩, 1⟩

/-- Every bond below `bondCount` satisfies the Bond invariant against
`atomCount`. -/
def BondsValid (mol : MoleculeGeometry α) : Prop :=
  ∀ i : Int, 0 ≤ i → i < mol.bondCount → BondOK mol.atomCount (mol.bonds i)

/-! ## Atom radius, nucleus rings, baseline and connectivity -/

/-- The ring of the nucleus that holds atom index `i`: ring 0 is atoms 0-5
(`baseA` = 0), ring 1 atoms 6-11 (`baseB` = 6), ring 2 atoms 12-16 (`baseC` = 12),
ring 3 atoms 17-21 (`baseD` = 17). -/
def ringOf (i : Int) : Int :=
  if i < 6 then 0 else if i < 12 then 1 else if i < 17 then 2 else 3

/-- The first atom index of a ring of the nucleus. -/
def ringBase (r : Int) : Int :=
  if r = 0 then 0 else if r = 1 then 6 else if r = 2 then 12 else 17

/-- The number of atoms of a ring of the nucleus. -/
def ringSize (r : Int) : Nat :=
  if r = 0 ∨ r = 1 then 6 else 5

/-- The statements of `apply_preset` before the first test of `presetType`: the
nucleus and the two substituents every preset gets. -/
def apply_preset_common (cosf sinf : α → α) (mol : MoleculeGeometry α) : MoleculeGeometry α :=
  let mol := build_steroid_core cosf sinf mol
  let attachHydroxyl : Int := 2
  let attachCarbonyl : Int := 8
  let mol := add_substituent mol attachHydroxyl
    (fun b => make_vec3 (b.x - 0.2) (b.y + 1.4) (b.z + 0.8)) 1 1
  let mol := add_substituent mol attachCarbonyl
    (fun b => make_vec3 (b.x + 0.3) (b.y - 1.2) (b.z - 0.6)) 1 2
  mol

/-- The number of atoms (and of bonds) that the statements of `apply_preset`
after the two common substituents add for a preset: the segments of the tail
for presets 1, 2, 18 and 19, two substituents for preset 17, none for presets
0, 3 and 5, and one substituent for every other preset from 4 to 16. -/
def preset_extra_atoms (presetType : Int) : Nat :=
  if presetType = 1 then 6
  else if presetType = 2 then 7
  else if presetType = 18 ∨ presetType = 19 then 3
  else if presetType = 17 then 2
  else if presetType = 3 ∨ presetType = 5 then 0
  else if 4 ≤ presetType ∧ presetType ≤ 16 then 1
  else 0

/-- The baseline geometry in counts and orders: 24 atoms, 30 bonds, and every
bond of the nucleus (positions 0 to 27) of order 1. -/
def IsBaseline (mol : MoleculeGeometry α) : Prop :=
  mol.atomCount = 24 ∧ mol.bondCount = 30 ∧
    ∀ i : Int, 0 ≤ i → i < 28 → (mol.bonds i).order = 1

/-- Every atom of the list view from position 24 on has a label in `S`, and the
view has at least 24 atoms. -/
def ExtraLabelsL (S : Nat → Prop) (g : Contents α) : Prop :=
  24 ≤ g.atoms.length ∧ ∀ a ∈ g.atoms.drop 24, S a.2

/-- Atoms `a` and `b` are the two ends of a live bond, in either direction. -/
def Adjacent (mol : MoleculeGeometry α) (a b : Int) : Prop :=
  ∃ i : Int, 0 ≤ i ∧ i < mol.bondCount ∧
    (((mol.bonds i).from_ = a ∧ (mol.bonds i).to_ = b) ∨
      ((mol.bonds i).from_ = b ∧ (mol.bonds i).to_ = a))

/-- Atom `b` is reached from atom `a` along live bonds taken as undirected
edges. -/
def Reachable (mol : MoleculeGeometry α) (a b : Int) : Prop :=
  Relation.ReflTransGen (Adjacent mol) a b

/-- Adjacency in a list of bonds. -/
def AdjL (bs : List Bond) (a b : Int) : Prop :=
  ∃ bd ∈ bs, (bd.from_ = a ∧ bd.to_ = b) ∨ (bd.from_ = b ∧ bd.to_ = a)

/-- Every atom of the list view is reached from atom 0 along its bonds. -/
def ConnL (g : Contents α) : Prop :=
  ∀ k : Nat, k < g.atoms.length → Relation.ReflTransGen (AdjL g.bonds) 0 (k : Int)

/-! ## The builder with a log of its calls

The same statements as `build_steroid_core`, `add_ester_tail` and
`apply_preset`, run on the geometry together with two ghost lists: the value of
`atomCount` found by each call of `add_atom` and the value of `bondCount` found
by each call of `add_bond`, in call order.  `apply_preset_logged_mol` below
proves that the geometry component is the one `apply_preset` builds. -/

/-- A geometry with the log of the counts found by the calls made so far. -/
structure Logged (α : Type) where
  mol : MoleculeGeometry α
  atomCalls : List Int
  bondCalls : List Int

/-- A call of `add_atom`, recorded with the `atomCount` it finds. -/
def add_atom_logged (s : Logged α) (p : Vec3 α) (label : Nat) : Logged α :=
  ⟨add_atom s.mol p label, s.atomCalls ++ [s.mol.atomCount], s.bondCalls⟩

/-- A call of `add_bond`, recorded with the `bondCount` it finds. -/
def add_bond_logged (s : Logged α) (a b order : Int) : Logged α :=
  ⟨add_bond s.mol a b order, s.atomCalls, s.bondCalls ++ [s.mol.bondCount]⟩

/-- The statement `mol->bonds[k].order = order;` on a logged geometry. -/
def set_bond_order_logged (s : Logged α) (k order : Int) : Logged α :=
  ⟨set_bond_order s.mol k order, s.atomCalls, s.bondCalls⟩

/-- The function `build_steroid_core` with its calls recorded. -/
def build_steroid_core_logged (cosf sinf : α → α) (s : Logged α) : Logged α :=
  let s : Logged α := ⟨{ s.mol with atomCount := 0 }, s.atomCalls, s.bondCalls⟩
  let s : Logged α := ⟨{ s.mol with bondCount := 0 }, s.atomCalls, s.bondCalls⟩
  let baseA := s.mol.atomCount
  let s := forLoop 6 (fun s i =>
    let ang := (i : α) * PI / 3.0
    add_atom_logged s (make_vec3 (cosf ang * 1.8) (sinf ang * 1.8) 0.0) 0) s
  let s := forLoop 6
    (fun s i => add_bond_logged s (baseA + i) (baseA + ((i + 1) % 6 : Nat)) 1) s
  let baseB := s.mol.atomCount
  let s := forLoop 6 (fun s i =>
    let ang := (i : α) * PI / 3.0
    add_atom_logged s (make_vec3 (2.8 + cosf ang * 1.8) (sinf ang * 1.8) 0.2) 0) s
  let s := forLoop 6
    (fun s i => add_bond_logged s (baseB + i) (baseB + ((i + 1) % 6 : Nat)) 1) s
  let s := add_bond_logged s (baseA + 1) (baseB + 4) 1
  let s := add_bond_logged s (baseA + 2) (baseB + 5) 1
  let baseC := s.mol.atomCount
  let s := forLoop 5 (fun s i =>
    let ang := (i : α) * 2.0 * PI / 5.0
    add_atom_logged s (make_vec3 (2.8 + cosf ang * 1.6) (2.8 + sinf ang * 1.6) (-0.2)) 0) s
  let s := forLoop 5
    (fun s i => add_bond_logged s (baseC + i) (baseC + ((i + 1) % 5 : Nat)) 1) s
  let s := add_bond_logged s (baseB + 1) (baseC + 3) 1
  let s := add_bond_logged s (baseB + 2) (baseC + 4) 1
  let baseD := s.mol.atomCount
  let s := forLoop 5 (fun s i =>
    let ang := (i : α) * 2.0 * PI / 5.0
    add_atom_logged s (make_vec3 (4.8 + cosf ang * 1.3) (4.3 + sinf ang * 1.3) 0.15) 0) s
  let s := forLoop 5
    (fun s i => add_bond_logged s (baseD + i) (baseD + ((i + 1) % 5 : Nat)) 1) s
  let s := add_bond_logged s (baseC + 1) (baseD + 3) 1
  let s := add_bond_logged s (baseC + 2) (baseD + 4) 1
  s

/-- The body of the loop of `add_ester_tail` with its calls recorded. -/
def add_ester_tail_body_logged (attachAtom : Int) (zWiggle : α)
    (s : Logged α × Int) (i : Nat) : Logged α × Int :=
  let st := s.1
  let previous := s.2
  let base := st.mol.atomPos attachAtom
  let step : α := 1.1
  let next := make_vec3 (base.x + ((i : α) + 1) * step) (base.y - 0.4 * (i : α))
    (base.z + zWiggle * (i : α))
  let st := add_atom_logged st next 0
  let current := st.mol.atomCount - 1
  let st := add_bond_logged st previous current 1
  (st, current)

/-- The function `add_ester_tail` with its calls recorded. -/
def add_ester_tail_logged (s : Logged α) (attachAtom segmentCount : Int) (zWiggle : α) :
    Logged α :=
  (forLoop segmentCount.toNat (add_ester_tail_body_logged attachAtom zWiggle) (s, attachAtom)).1

/-- The substituent block of `apply_preset` with its calls recorded. -/
def add_substituent_logged (s : Logged α) (k : Int) (off : Vec3 α → Vec3 α) (label : Nat)
    (order : Int) : Logged α :=
  let s := add_atom_logged s (off (s.mol.atomPos k)) label
  add_bond_logged s k (s.mol.atomCount - 1) order

/-- The function `apply_preset` of `src/src/main.c` with its calls recorded. -/
def apply_preset_logged (cosf sinf : α → α) (s : Logged α) (presetType : Int) : Logged α :=
  let s := build_steroid_core_logged cosf sinf s
  let attachHydroxyl : Int := 2
  let attachCarbonyl : Int := 8
  let attachEster : Int := 14
  let s := add_substituent_logged s attachHydroxyl
    (fun b => make_vec3 (b.x - 0.2) (b.y + 1.4) (b.z + 0.8)) 1 1
  let s := add_substituent_logged s attachCarbonyl
    (fun b => make_vec3 (b.x + 0.3) (b.y - 1.2) (b.z - 0.6)) 1 2
  let s := if presetType = 1 then add_ester_tail_logged s attachEster 6 0.10 else s
  let s := if presetType = 2 then add_ester_tail_logged s attachEster 7 (-0.05) else s
  let s := if presetType = 18 then add_ester_tail_logged s attachEster 3 0.05 else s
  let s := if presetType = 19 then add_ester_tail_logged s attachEster 3 (-0.06) else s
  let s := if presetType = 6 ∨ presetType = 16 ∨ presetType = 17 then
      add_substituent_logged s 5 (fun b => make_vec3 (b.x - 1.2) (b.y + 0.6) (b.z + 0.2)) 0 1
    else s
  let s := if presetType = 3 ∨ presetType = 5 then
      let s := if s.mol.bondCount > 10 then
          set_bond_order_logged (set_bond_order_logged s 3 2) 8 2
        else s
      if presetType = 3 ∧ s.mol.bondCount > 15 then set_bond_order_logged s 12 2 else s
    else s
  let s := if presetType = 8 then
      add_substituent_logged s 0 (fun b => make_vec3 (b.x - 1.6) (b.y + 0.2) b.z) 2 1
    else s
  let s := if presetType = 12 ∨ presetType = 17 then
      add_substituent_logged s 1 (fun b => make_vec3 (b.x - 1.2) (b.y + 1.0) (b.z + 0.1)) 3 1
    else s
  let s := if presetType = 13 then
      add_substituent_logged s 9 (fun b => make_vec3 (b.x + 1.1) (b.y + 0.8) (b.z - 0.2)) 4 1
    else s
  let s := if presetType = 7 ∨ presetType = 9 then
      add_substituent_logged s 10 (fun b => make_vec3 (b.x + 0.2) (b.y + 1.1) (b.z - 0.4)) 1 1
    else s
  let s := if presetType = 4 ∨ presetType = 10 ∨ presetType = 14 ∨ presetType = 15 then
      add_substituent_logged s 11 (fun b => make_vec3 (b.x + 0.9) (b.y - 0.9) (b.z + 0.3)) 0 1
    else s
  let s := if presetType = 11 then
      add_substituent_logged s 6 (fun b => make_vec3 (b.x + 0.7) (b.y + 1.0) b.z) 0 1
    else s
  s

/-- The log is exact: both counts are non-negative, and while a count is below
its capacity the log of the calls is 0, 1, ..., count - 1, one entry for each
unit of the count. -/
def LogExact (s : Logged α) : Prop :=
  0 ≤ s.mol.atomCount ∧ 0 ≤ s.mol.bondCount ∧
    (s.mol.atomCount < MAX_ATOMS →
      s.atomCalls = (List.range s.mol.atomCount.toNat).map (fun (n : Nat) => (n : Int))) ∧
    (s.mol.bondCount < MAX_BONDS →
      s.bondCalls = (List.range s.mol.bondCount.toNat).map (fun (n : Nat) => (n : Int)))

/-! ## The array code computes the list view -/

theorem getD_snoc_int {β : Type} (l : List β) (x d : β) (j : Int) (hj : 0 ≤ j) :
    (l ++ [x]).getD j.toNat d = if j = (l.length : Int) then x else l.getD j.toNat d := by
  obtain ⟨n, rfl⟩ := Int.eq_ofNat_of_zero_le hj
  simp only [Int.toNat_ofNat, Nat.cast_inj]
  rcases Nat.lt_trichotomy n l.length with h | h | h
  · simp [List.getD_eq_getElem?_getD, List.getElem?_append_left, h, Nat.ne_of_lt h]
  · subst h; simp [List.getD_eq_getElem?_getD]
  · have h1 : l.length ≤ n := Nat.le_of_lt h
    have h2 : n ≠ l.length := Nat.ne_of_gt h
    have h3 : (l ++ [x])[n]? = none := List.getElem?_eq_none (by simp; omega)
    have h4 : l[n]? = none := List.getElem?_eq_none h1
    simp [List.getD_eq_getElem?_getD, h2, h3, h4]

theorem add_atom_ofLists (g : Contents α) (m : MoleculeGeometry α) (p : Vec3 α) (l : Nat)
    (h : g.atoms.length < 64) :
    add_atom (ofLists g m) p l = ofLists ⟨g.atoms ++ [(p, l)], g.bonds⟩ m := by
  have h64 : ¬ ((g.atoms.length : Int) ≥ 64) := by omega
  simp only [add_atom, ofLists, MAX_ATOMS, h64, if_false, List.length_append, List.length_singleton,
    Nat.cast_add, Nat.cast_one]
  congr 1
  · funext j
    by_cases hj : 0 ≤ j
    · simp only [hj, if_true, getD_snoc_int _ _ _ _ hj]
      split_ifs <;> rfl
    · have : j ≠ (g.atoms.length : Int) := by omega
      simp [hj, this]
  · funext j
    by_cases hj : 0 ≤ j
    · simp only [hj, if_true, getD_snoc_int _ _ _ _ hj]
      split_ifs <;> rfl
    · have : j ≠ (g.atoms.length : Int) := by omega
      simp [hj, this]

theorem add_bond_ofLists (g : Contents α) (m : MoleculeGeometry α) (a b o : Int)
    (h : g.bonds.length < 96) :
    add_bond (ofLists g m) a b o = ofLists ⟨g.atoms, g.bonds ++ [⟨a, b, o⟩]⟩ m := by
  have h96 : ¬ ((g.bonds.length : Int) ≥ 96) := by omega
  simp only [add_bond, ofLists, MAX_BONDS, h96, if_false, List.length_append, List.length_singleton,
    Nat.cast_add, Nat.cast_one]
  congr 1
  funext j
  by_cases hj : 0 ≤ j
  · simp only [hj, if_true, getD_snoc_int _ _ _ _ hj]
  · have : j ≠ (g.bonds.length : Int) := by omega
    simp [hj, this]



theorem forLoop_zero {σ : Type} (body : σ → Nat → σ) (s : σ) : forLoop 0 body s = s := rfl

theorem forLoop_succ {σ : Type} (n : Nat) (body : σ → Nat → σ) (s : σ) :
    forLoop (n + 1) body s = body (forLoop n body s) n := by
  simp [forLoop, List.range_succ]

theorem ofLists_nil (m : MoleculeGeometry α) :
    (⟨m.atomPos, m.atomLabel, 0, m.bonds, 0⟩ : MoleculeGeometry α) = ofLists ⟨[], []⟩ m := by
  simp [ofLists]

theorem atomLoop_ofLists (g : Contents α) (m : MoleculeGeometry α) (f : Nat → Vec3 α) (l : Nat)
    (n : Nat) (h : g.atoms.length + n ≤ 64) :
    forLoop n (fun mol i => add_atom mol (f i) l) (ofLists g m)
      = ofLists ⟨g.atoms ++ (List.range n).map (fun i => (f i, l)), g.bonds⟩ m := by
  induction n with
  | zero => simp [forLoop_zero]
  | succ k ih =>
    rw [forLoop_succ, ih (by omega), add_atom_ofLists _ _ _ _ (by simp; omega)]
    simp [List.range_succ]

theorem bondLoop_ofLists (g : Contents α) (m : MoleculeGeometry α) (a b : Nat → Int) (o : Int)
    (n : Nat) (h : g.bonds.length + n ≤ 96) :
    forLoop n (fun mol i => add_bond mol (a i) (b i) o) (ofLists g m)
      = ofLists ⟨g.atoms, g.bonds ++ (List.range n).map (fun i => ⟨a i, b i, o⟩)⟩ m := by
  induction n with
  | zero => simp [forLoop_zero]
  | succ k ih =>
    rw [forLoop_succ, ih (by omega), add_bond_ofLists _ _ _ _ _ (by simp; omega)]
    simp [List.range_succ]

theorem ofLists_atomCount (g : Contents α) (m : MoleculeGeometry α) :
    (ofLists g m).atomCount = g.atoms.length := rfl

theorem ofLists_bondCount (g : Contents α) (m : MoleculeGeometry α) :
    (ofLists g m).bondCount = g.bonds.length := rfl


theorem core_eq (cosf sinf : α → α) (m : MoleculeGeometry α) :
    build_steroid_core cosf sinf m = ofLists ⟨coreAtoms cosf sinf, coreBonds⟩ m := by
  unfold build_steroid_core
  dsimp only
  rw [ofLists_nil]
  simp (disch := simp) only [ofLists_atomCount, atomLoop_ofLists, bondLoop_ofLists,
    add_bond_ofLists, List.length_append, List.length_map, List.length_range, List.length_nil,
    List.length_cons, List.nil_append]
  rfl

theorem ofLists_atomPos (g : Contents α) (m : MoleculeGeometry α) (k : Int) (h0 : 0 ≤ k)
    (h1 : k < g.atoms.length) : (ofLists g m).atomPos k = atomAt g.atoms k := by
  obtain ⟨n, rfl⟩ := Int.eq_ofNat_of_zero_le h0
  have hn : n < g.atoms.length := by exact_mod_cast h1
  simp [ofLists, atomAt, List.getD_eq_getElem?_getD, List.getElem?_eq_getElem hn]

theorem atomAt_append (as bs : List (Vec3 α × Nat)) (k : Int) (h0 : 0 ≤ k)
    (h1 : k < as.length) : atomAt (as ++ bs) k = atomAt as k := by
  obtain ⟨n, rfl⟩ := Int.eq_ofNat_of_zero_le h0
  have hn : n < as.length := by exact_mod_cast h1
  simp [atomAt, List.getD_eq_getElem?_getD, List.getElem?_append_left hn]

theorem add_substituent_ofLists (g : Contents α) (m : MoleculeGeometry α) (k : Int)
    (off : Vec3 α → Vec3 α) (l : Nat) (o : Int) (h0 : 0 ≤ k) (h1 : k < g.atoms.length)
    (ha : g.atoms.length < 64) (hb : g.bonds.length < 96) :
    add_substituent (ofLists g m) k off l o = ofLists (L_subst g k off l o) m := by
  unfold add_substituent
  dsimp only
  rw [ofLists_atomPos g m k h0 h1, add_atom_ofLists g m _ _ ha,
    add_bond_ofLists ⟨g.atoms ++ [(off (atomAt g.atoms k), l)], g.bonds⟩ m _ _ _ hb]
  simp [L_subst, ofLists_atomCount]

theorem set_bond_order_ofLists (g : Contents α) (m : MoleculeGeometry α) (k o : Int)
    (h0 : 0 ≤ k) (h1 : k < g.bonds.length) :
    set_bond_order (ofLists g m) k o = ofLists (L_setOrder g k o) m := by
  obtain ⟨n, rfl⟩ := Int.eq_ofNat_of_zero_le h0
  have hn : n < g.bonds.length := by exact_mod_cast h1
  simp only [set_bond_order, ofLists, L_setOrder, List.length_set, Int.toNat_ofNat]
  congr 1
  funext j
  by_cases hj : 0 ≤ j
  · obtain ⟨i, rfl⟩ := Int.eq_ofNat_of_zero_le hj
    by_cases hi : i = n
    · subst hi
      simp [List.getD_eq_getElem?_getD, List.getElem?_set_self, hn, List.getElem?_eq_getElem hn]
    · have hi2 : (i : Int) ≠ (n : Int) := by exact_mod_cast hi
      simp [hi2, List.getD_eq_getElem?_getD, List.getElem?_set_ne (Ne.symm hi)]
  · have : j ≠ (n : Int) := by omega
    simp [hj, this]

theorem tail_loop_ofLists (g : Contents α) (m : MoleculeGeometry α) (a : Int) (w : α)
    (h0 : 0 ≤ a) (h1 : a < g.atoms.length) (j : Nat)
    (ha : g.atoms.length + j ≤ 64) (hb : g.bonds.length + j ≤ 96) :
    forLoop j (add_ester_tail_body a w) (ofLists g m, a)
      = (ofLists (L_tail g a j w) m, if j = 0 then a else (g.atoms.length : Int) + j - 1) := by
  induction j with
  | zero => simp [forLoop_zero, L_tail]
  | succ i ih =>
    rw [forLoop_succ, ih (by omega) (by omega)]
    unfold add_ester_tail_body
    dsimp only
    have hlen : (L_tail g a (i : Int) w).atoms.length = g.atoms.length + i := by
      simp [L_tail]
    have hblen : (L_tail g a (i : Int) w).bonds.length = g.bonds.length + i := by
      simp [L_tail]
    have hat : atomAt (L_tail g a (i : Int) w).atoms a = atomAt g.atoms a := by
      simp only [L_tail]
      exact atomAt_append _ _ _ h0 h1
    rw [ofLists_atomPos _ m a h0 (by rw [hlen]; push_cast; omega),
      add_atom_ofLists _ m _ _ (by rw [hlen]; omega),
      add_bond_ofLists ⟨(L_tail g a (i : Int) w).atoms ++ [_], (L_tail g a (i : Int) w).bonds⟩ m _ _ _
        (by rw [hblen]; omega)]
    simp only [ofLists_atomCount, hat]
    have e : (g.atoms.length : Int) + ((i : Int) + 1) - 1 = g.atoms.length + i := by ring
    have e2 : ((i : Int) + 1).toNat = i + 1 := by omega
    refine Prod.ext ?_ ?_
    · simp only [L_tail, Int.toNat_ofNat, e2, List.range_succ, List.map_append, List.map_cons,
        List.map_nil, List.append_assoc, List.length_append, List.length_map, List.length_range,
        List.length_singleton, Nat.cast_add, Nat.cast_one, e]
    · simp only [List.length_append, hlen, List.length_singleton, Nat.cast_add, Nat.cast_one,
        Nat.succ_ne_zero, if_false, e]
      ring

theorem add_ester_tail_ofLists (g : Contents α) (m : MoleculeGeometry α) (a n : Int) (w : α)
    (h0 : 0 ≤ a) (h1 : a < g.atoms.length)
    (ha : g.atoms.length + n.toNat ≤ 64) (hb : g.bonds.length + n.toNat ≤ 96) :
    add_ester_tail (ofLists g m) a n w = ofLists (L_tail g a n w) m := by
  unfold add_ester_tail
  rw [tail_loop_ofLists g m a w h0 h1 n.toNat ha hb]
  simp only [L_tail, Int.toNat_ofNat]

theorem BondOK_mono {n n' : Int} {b : Bond} (h : BondOK n b) (hn : n ≤ n') : BondOK n' b := by
  obtain ⟨h1, h2, h3, h4, h5, h6⟩ := h
  exact ⟨h1, by omega, h3, by omega, h5, h6⟩

theorem GoodL_subst (g : Contents α) (na nb : Nat) (k : Int) (off : Vec3 α → Vec3 α) (l : Nat)
    (o : Int) (h : GoodL g na nb) (hk : 0 ≤ k ∧ k < 22) (ho : o = 1 ∨ o = 2 ∨ o = 3) :
    GoodL (L_subst g k off l o) (na + 1) (nb + 1) := by
  obtain ⟨h1, h2, h3, h4, h5⟩ := h
  refine ⟨?_, ?_, ?_, ?_, ?_⟩
  · simp [L_subst]; omega
  · simp [L_subst]; omega
  · simp [L_subst]; omega
  · simp [L_subst]; omega
  · intro b hb
    simp only [L_subst, List.mem_append, List.mem_singleton, List.length_append,
      List.length_singleton, Nat.cast_add, Nat.cast_one] at hb ⊢
    rcases hb with hb | rfl
    · exact BondOK_mono (h5 b hb) (by omega)
    · refine ⟨hk.1, ?_, ?_, ?_, ?_, ho⟩ <;> dsimp only <;> omega

theorem GoodL_tail (g : Contents α) (na nb : Nat) (a n : Int) (w : α)
    (h : GoodL g na nb) (hk : 0 ≤ a ∧ a < 22) :
    GoodL (L_tail g a n w) (na + n.toNat) (nb + n.toNat) := by
  obtain ⟨h1, h2, h3, h4, h5⟩ := h
  refine ⟨?_, ?_, ?_, ?_, ?_⟩
  · simp [L_tail]; omega
  · simp [L_tail]; omega
  · simp [L_tail]; omega
  · simp [L_tail]; omega
  · intro b hb
    simp only [L_tail, List.mem_append, List.mem_map, List.mem_range, List.length_append,
      List.length_map, List.length_range, Nat.cast_add] at hb ⊢
    rcases hb with hb | ⟨i, hi, rfl⟩
    · exact BondOK_mono (h5 b hb) (by omega)
    · have hi2 : (i : Int) < n.toNat := by exact_mod_cast hi
      by_cases h0 : i = 0
      · subst h0
        refine ⟨?_, ?_, ?_, ?_, ?_, Or.inl rfl⟩ <;> simp <;> omega
      · refine ⟨?_, ?_, ?_, ?_, ?_, Or.inl rfl⟩ <;> simp [h0] <;> omega

theorem GoodL_setOrder (g : Contents α) (na nb : Nat) (k o : Int)
    (h : GoodL g na nb) (hk : 0 ≤ k ∧ k < 28) (ho : o = 1 ∨ o = 2 ∨ o = 3) :
    GoodL (L_setOrder g k o) na nb := by
  obtain ⟨h1, h2, h3, h4, h5⟩ := h
  obtain ⟨n, rfl⟩ := Int.eq_ofNat_of_zero_le hk.1
  have hn : n < g.bonds.length := by omega
  refine ⟨h1, h2, ?_, ?_, ?_⟩
  · simpa [L_setOrder] using h3
  · simpa [L_setOrder] using h4
  · intro b hb
    simp only [L_setOrder, Int.toNat_ofNat] at hb ⊢
    rcases List.mem_or_eq_of_mem_set hb with hb | rfl
    · exact h5 b hb
    · have hmem : g.bonds.getD n ⟨0, 0, 0⟩ ∈ g.bonds := by
        rw [List.getD_eq_getElem _ _ hn]
        exact List.getElem_mem hn
      obtain ⟨b1, b2, b3, b4, b5, _⟩ := h5 _ hmem
      exact ⟨b1, b2, b3, b4, b5, ho⟩

theorem GoodL_mono (g : Contents α) {na nb na' nb' : Nat} (h : GoodL g na nb)
    (ha : na ≤ na') (hb : nb ≤ nb') : GoodL g na' nb' := by
  obtain ⟨h1, h2, h3, h4, h5⟩ := h
  exact ⟨h1, by omega, h3, by omega, h5⟩

theorem Rep_core (cosf sinf : α → α) (m : MoleculeGeometry α) :
    Rep m (build_steroid_core cosf sinf m) ⟨coreAtoms cosf sinf, coreBonds⟩ 22 28 := by
  refine ⟨core_eq cosf sinf m, ?_, ?_, ?_, ?_, ?_⟩
  · simp [coreAtoms]
  · simp [coreAtoms]
  · simp [coreBonds]
  · simp [coreBonds]
  · have hlen : (coreAtoms cosf sinf).length = 22 := by simp [coreAtoms]
    simp only [hlen]
    decide

theorem Rep_subst {m mol : MoleculeGeometry α} {g : Contents α} (na nb : Nat) {k : Int}
    {off : Vec3 α → Vec3 α} {l : Nat} {o : Int} (h : Rep m mol g na nb)
    (hk : 0 ≤ k ∧ k < 22) (ho : o = 1 ∨ o = 2 ∨ o = 3) (hn : na < 64 ∧ nb < 96) :
    Rep m (add_substituent mol k off l o) (L_subst g k off l o) (na + 1) (nb + 1) := by
  obtain ⟨rfl, hg⟩ := h
  refine ⟨?_, GoodL_subst g na nb k off l o hg hk ho⟩
  obtain ⟨h1, h2, h3, h4, _⟩ := hg
  exact add_substituent_ofLists g m k off l o hk.1 (by omega) (by omega) (by omega)

theorem Rep_subst_ite {m mol : MoleculeGeometry α} {g : Contents α} (na nb : Nat) {k : Int}
    {off : Vec3 α → Vec3 α} {l : Nat} {o : Int} {c : Prop} [Decidable c] (h : Rep m mol g na nb)
    (hk : 0 ≤ k ∧ k < 22) (ho : o = 1 ∨ o = 2 ∨ o = 3) (hn : na < 64 ∧ nb < 96) :
    Rep m (if c then add_substituent mol k off l o else mol)
      (if c then L_subst g k off l o else g) (na + 1) (nb + 1) := by
  by_cases hc : c
  · simpa only [hc, if_true] using Rep_subst na nb h hk ho hn
  · simp only [hc, if_false]
    exact ⟨h.1, GoodL_mono g h.2 (by omega) (by omega)⟩

theorem Rep_tail_ite {m mol : MoleculeGeometry α} {g : Contents α} (na nb : Nat) {a n : Int}
    {w : α} {c : Prop} [Decidable c] (h : Rep m mol g na nb)
    (hk : 0 ≤ a ∧ a < 22) (hn : na + n.toNat ≤ 64 ∧ nb + n.toNat ≤ 96) :
    Rep m (if c then add_ester_tail mol a n w else mol)
      (if c then L_tail g a n w else g) (na + n.toNat) (nb + n.toNat) := by
  by_cases hc : c
  · simp only [hc, if_true]
    obtain ⟨rfl, hg⟩ := h
    refine ⟨?_, GoodL_tail g na nb a n w hg hk⟩
    obtain ⟨h1, h2, h3, h4, _⟩ := hg
    exact add_ester_tail_ofLists g m a n w hk.1 (by omega) (by omega) (by omega)
  · simp only [hc, if_false]
    exact ⟨h.1, GoodL_mono g h.2 (by omega) (by omega)⟩

theorem Rep_setOrder {m mol : MoleculeGeometry α} {g : Contents α} {na nb : Nat} {k o : Int}
    (h : Rep m mol g na nb) (hk : 0 ≤ k ∧ k < 28) (ho : o = 1 ∨ o = 2 ∨ o = 3) :
    Rep m (set_bond_order mol k o) (L_setOrder g k o) na nb := by
  obtain ⟨rfl, hg⟩ := h
  refine ⟨?_, GoodL_setOrder g na nb k o hg hk ho⟩
  obtain ⟨h1, h2, h3, h4, _⟩ := hg
  exact set_bond_order_ofLists g m k o hk.1 (by omega)

theorem Rep_bondCount {m mol : MoleculeGeometry α} {g : Contents α} {na nb : Nat}
    (h : Rep m mol g na nb) : mol.bondCount = g.bonds.length := by
  rw [h.1]; rfl

theorem Rep_promote {m mol : MoleculeGeometry α} {g : Contents α} {na nb : Nat}
    (presetType : Int) (h : Rep m mol g na nb) :
    Rep m
      (if presetType = 3 ∨ presetType = 5 then
        let mol := if mol.bondCount > 10 then
            set_bond_order (set_bond_order mol 3 2) 8 2
          else mol
        if presetType = 3 ∧ mol.bondCount > 15 then set_bond_order mol 12 2 else mol
      else mol)
      (if presetType = 3 ∨ presetType = 5 then
        let g := if (g.bonds.length : Int) > 10 then L_setOrder (L_setOrder g 3 2) 8 2 else g
        if presetType = 3 ∧ (g.bonds.length : Int) > 15 then L_setOrder g 12 2 else g
      else g) na nb := by
  have h2 : Rep m (set_bond_order (set_bond_order mol 3 2) 8 2)
      (L_setOrder (L_setOrder g 3 2) 8 2) na nb :=
    Rep_setOrder (Rep_setOrder h (by decide) (by decide)) (by decide) (by decide)
  have h3 : Rep m (set_bond_order (set_bond_order (set_bond_order mol 3 2) 8 2) 12 2)
      (L_setOrder (L_setOrder (L_setOrder g 3 2) 8 2) 12 2) na nb :=
    Rep_setOrder h2 (by decide) (by decide)
  have hb := Rep_bondCount h
  have hb2 := Rep_bondCount h2
  have hlen : (28 : Int) ≤ g.bonds.length := by exact_mod_cast h.2.2.2.1
  have hlen2 : (28 : Int) ≤ (L_setOrder (L_setOrder g 3 2) 8 2).bonds.length := by
    exact_mod_cast h2.2.2.2.1
  have c1 : mol.bondCount > 10 := by omega
  have c2 : (g.bonds.length : Int) > 10 := by omega
  have c3 : (set_bond_order (set_bond_order mol 3 2) 8 2).bondCount > 15 := by omega
  have c4 : ((L_setOrder (L_setOrder g 3 2) 8 2).bonds.length : Int) > 15 := by omega
  dsimp only
  simp only [c1, c2, if_true, c3, c4, and_true]
  by_cases p3 : presetType = 3
  · simpa [p3] using h3
  · by_cases p5 : presetType = 5
    · simpa [p3, p5] using h2
    · simpa [p3, p5] using h

set_option maxRecDepth 4000 in
theorem apply_preset_rep (cosf sinf : α → α) (m : MoleculeGeometry α) (presetType : Int) :
    Rep m (apply_preset cosf sinf m presetType) (presetL cosf sinf presetType) 50 56 := by
  unfold apply_preset presetL
  refine Rep_subst_ite 49 55 ?_ (by decide) (by decide) (by decide)
  refine Rep_subst_ite 48 54 ?_ (by decide) (by decide) (by decide)
  refine Rep_subst_ite 47 53 ?_ (by decide) (by decide) (by decide)
  refine Rep_subst_ite 46 52 ?_ (by decide) (by decide) (by decide)
  refine Rep_subst_ite 45 51 ?_ (by decide) (by decide) (by decide)
  refine Rep_subst_ite 44 50 ?_ (by decide) (by decide) (by decide)
  refine Rep_promote presetType ?_
  refine Rep_subst_ite 43 49 ?_ (by decide) (by decide) (by decide)
  refine Rep_tail_ite 40 46 ?_ (by decide) (by decide)
  refine Rep_tail_ite 37 43 ?_ (by decide) (by decide)
  refine Rep_tail_ite 30 36 ?_ (by decide) (by decide)
  refine Rep_tail_ite 24 30 ?_ (by decide) (by decide)
  refine Rep_subst 23 29 ?_ (by decide) (by decide) (by decide)
  refine Rep_subst 22 28 ?_ (by decide) (by decide) (by decide)
  exact Rep_core cosf sinf m

theorem InBox_mono {B B' : α} {p : Vec3 α} (h : InBox B p) (hB : B ≤ B') : InBox B' p :=
  ⟨h.1.trans hB, h.2.1.trans hB, h.2.2.trans hB⟩

theorem BoxL_mono {B B' : α} {g : Contents α} (h : BoxL B g) (hB : B ≤ B') : BoxL B' g :=
  fun a ha => InBox_mono (h a ha) hB

theorem InBox_atomAt {B : α} {g : Contents α} (h : BoxL B g) (hB : 0 ≤ B) (k : Int) :
    InBox B (atomAt g.atoms k) := by
  unfold atomAt
  rw [List.getD_eq_getElem?_getD]
  cases hk : g.atoms[k.toNat]? with
  | none => simp [InBox, hB]
  | some a =>
    simp only [Option.getD_some]
    exact h a (List.getElem?_mem hk)

theorem BoxL_subst {g : Contents α} (B B' : α) {k : Int} {off : Vec3 α → Vec3 α} {l : Nat}
    {o : Int} (h : BoxL B g) (hB : 0 ≤ B ∧ B ≤ B')
    (hoff : ∀ b, InBox B b → InBox B' (off b)) :
    BoxL B' (L_subst g k off l o) := by
  intro a ha
  simp only [L_subst, List.mem_append, List.mem_singleton] at ha
  rcases ha with ha | rfl
  · exact InBox_mono (h a ha) hB.2
  · exact hoff _ (InBox_atomAt h hB.1 k)

theorem BoxL_subst_ite {g : Contents α} (B B' : α) {k : Int} {off : Vec3 α → Vec3 α} {l : Nat}
    {o : Int} {c : Prop} [Decidable c] (h : BoxL B g) (hB : 0 ≤ B ∧ B ≤ B')
    (hoff : ∀ b, InBox B b → InBox B' (off b)) :
    BoxL B' (if c then L_subst g k off l o else g) := by
  by_cases hc : c
  · simp only [hc, if_true]
    exact BoxL_subst B B' h hB hoff
  · simp only [hc, if_false]
    exact BoxL_mono h hB.2

theorem BoxL_tail_ite {g : Contents α} (B B' : α) {a n : Int} {w : α} {c : Prop} [Decidable c]
    (h : BoxL B g) (hB : 0 ≤ B ∧ B + 8 ≤ B') (hn : n ≤ 7) (hw : |w| ≤ 1) :
    BoxL B' (if c then L_tail g a n w else g) := by
  by_cases hc : c
  · simp only [hc, if_true]
    intro p hp
    simp only [L_tail, List.mem_append, List.mem_map, List.mem_range] at hp
    rcases hp with hp | ⟨i, hi, rfl⟩
    · exact InBox_mono (h p hp) (by linarith)
    · obtain ⟨hx, hy, hz⟩ := InBox_atomAt h hB.1 a
      have hi7 : (i : α) ≤ 6 := by
        have : i ≤ 6 := by omega
        exact_mod_cast this
      have hi0 : (0 : α) ≤ i := Nat.cast_nonneg i
      have hwi : |w * (i : α)| ≤ 6 := by
        rw [abs_mul, abs_of_nonneg hi0]
        nlinarith [abs_nonneg w]
      rw [abs_le] at hx hy hz hwi
      refine ⟨?_, ?_, ?_⟩ <;> simp only [make_vec3] <;> rw [abs_le] <;>
        constructor <;> norm_num <;> linarith
  · simp only [hc, if_false]
    exact BoxL_mono h (by linarith)

theorem BoxL_core (cosf sinf : α → α) (hc : ∀ t, |cosf t| ≤ 1) (hs : ∀ t, |sinf t| ≤ 1) :
    BoxL 7 (⟨coreAtoms cosf sinf, coreBonds⟩ : Contents α) := by
  intro a ha
  simp only [coreAtoms, List.mem_append, List.mem_map] at ha
  rcases ha with ((⟨i, _, rfl⟩ | ⟨i, _, rfl⟩) | ⟨i, _, rfl⟩) | ⟨i, _, rfl⟩
  · have h1 := abs_le.mp (hc ((i : α) * PI / 3.0))
    have h2 := abs_le.mp (hs ((i : α) * PI / 3.0))
    refine ⟨?_, ?_, ?_⟩ <;> simp only [make_vec3] <;> rw [abs_le] <;>
      constructor <;> norm_num <;> linarith
  · have h1 := abs_le.mp (hc ((i : α) * PI / 3.0))
    have h2 := abs_le.mp (hs ((i : α) * PI / 3.0))
    refine ⟨?_, ?_, ?_⟩ <;> simp only [make_vec3] <;> rw [abs_le] <;>
      constructor <;> norm_num <;> linarith
  · have h1 := abs_le.mp (hc ((i : α) * 2.0 * PI / 5.0))
    have h2 := abs_le.mp (hs ((i : α) * 2.0 * PI / 5.0))
    refine ⟨?_, ?_, ?_⟩ <;> simp only [make_vec3] <;> rw [abs_le] <;>
      constructor <;> norm_num <;> linarith
  · have h1 := abs_le.mp (hc ((i : α) * 2.0 * PI / 5.0))
    have h2 := abs_le.mp (hs ((i : α) * 2.0 * PI / 5.0))
    refine ⟨?_, ?_, ?_⟩ <;> simp only [make_vec3] <;> rw [abs_le] <;>
      constructor <;> norm_num <;> linarith

theorem BoxL_promote {g : Contents α} {B : α} (presetType : Int) (h : BoxL B g) :
    BoxL B
      (if presetType = 3 ∨ presetType = 5 then
        let g := if (g.bonds.length : Int) > 10 then L_setOrder (L_setOrder g 3 2) 8 2 else g
        if presetType = 3 ∧ (g.bonds.length : Int) > 15 then L_setOrder g 12 2 else g
      else g) := by
  dsimp only
  split_ifs <;> exact h

theorem presetL_box (cosf sinf : α → α) (hc : ∀ t, |cosf t| ≤ 1) (hs : ∀ t, |sinf t| ≤ 1)
    (presetType : Int) : BoxL 57 (presetL cosf sinf presetType) := by
  unfold presetL
  refine BoxL_subst_ite 55 57 ?_ (by norm_num) (fun b hb => by
    obtain ⟨hx, hy, hz⟩ := hb
    rw [abs_le] at hx hy hz
    refine ⟨?_, ?_, ?_⟩ <;> simp only [make_vec3] <;> rw [abs_le] <;>
      constructor <;> norm_num <;> linarith)
  refine BoxL_subst_ite 53 55 ?_ (by norm_num) (fun b hb => by
    obtain ⟨hx, hy, hz⟩ := hb
    rw [abs_le] at hx hy hz
    refine ⟨?_, ?_, ?_⟩ <;> simp only [make_vec3] <;> rw [abs_le] <;>
      constructor <;> norm_num <;> linarith)
  refine BoxL_subst_ite 51 53 ?_ (by norm_num) (fun b hb => by
    obtain ⟨hx, hy, hz⟩ := hb
    rw [abs_le] at hx hy hz
    refine ⟨?_, ?_, ?_⟩ <;> simp only [make_vec3] <;> rw [abs_le] <;>
      constructor <;> norm_num <;> linarith)
  refine BoxL_subst_ite 49 51 ?_ (by norm_num) (fun b hb => by
    obtain ⟨hx, hy, hz⟩ := hb
    rw [abs_le] at hx hy hz
    refine ⟨?_, ?_, ?_⟩ <;> simp only [make_vec3] <;> rw [abs_le] <;>
      constructor <;> norm_num <;> linarith)
  refine BoxL_subst_ite 47 49 ?_ (by norm_num) (fun b hb => by
    obtain ⟨hx, hy, hz⟩ := hb
    rw [abs_le] at hx hy hz
    refine ⟨?_, ?_, ?_⟩ <;> simp only [make_vec3] <;> rw [abs_le] <;>
      constructor <;> norm_num <;> linarith)
  refine BoxL_subst_ite 45 47 ?_ (by norm_num) (fun b hb => by
    obtain ⟨hx, hy, hz⟩ := hb
    rw [abs_le] at hx hy hz
    refine ⟨?_, ?_, ?_⟩ <;> simp only [make_vec3] <;> rw [abs_le] <;>
      constructor <;> norm_num <;> linarith)
  refine BoxL_promote presetType ?_
  refine BoxL_subst_ite 43 45 ?_ (by norm_num) (fun b hb => by
    obtain ⟨hx, hy, hz⟩ := hb
    rw [abs_le] at hx hy hz
    refine ⟨?_, ?_, ?_⟩ <;> simp only [make_vec3] <;> rw [abs_le] <;>
      constructor <;> norm_num <;> linarith)
  refine BoxL_tail_ite 35 43 ?_ (by norm_num) (by norm_num) (by rw [abs_le]; constructor <;> norm_num)
  refine BoxL_tail_ite 27 35 ?_ (by norm_num) (by norm_num) (by rw [abs_le]; constructor <;> norm_num)
  refine BoxL_tail_ite 19 27 ?_ (by norm_num) (by norm_num) (by rw [abs_le]; constructor <;> norm_num)
  refine BoxL_tail_ite 11 19 ?_ (by norm_num) (by norm_num) (by rw [abs_le]; constructor <;> norm_num)
  refine BoxL_subst 9 11 ?_ (by norm_num) (fun b hb => by
    obtain ⟨hx, hy, hz⟩ := hb
    rw [abs_le] at hx hy hz
    refine ⟨?_, ?_, ?_⟩ <;> simp only [make_vec3] <;> rw [abs_le] <;>
      constructor <;> norm_num <;> linarith)
  refine BoxL_subst 7 9 ?_ (by norm_num) (fun b hb => by
    obtain ⟨hx, hy, hz⟩ := hb
    rw [abs_le] at hx hy hz
    refine ⟨?_, ?_, ?_⟩ <;> simp only [make_vec3] <;> rw [abs_le] <;>
      constructor <;> norm_num <;> linarith)
  exact BoxL_core cosf sinf hc hs

/-! ## Geometry builder: claims C1 to C5 -/

theorem ofLists_live_atom (g : Contents α) (m : MoleculeGeometry α) (i : Int) (h0 : 0 ≤ i)
    (h1 : i < g.atoms.length) :
    ((ofLists g m).atomPos i, (ofLists g m).atomLabel i)
      = g.atoms.getD i.toNat (⟨0, 0, 0⟩, 0) ∧
    g.atoms.getD i.toNat (⟨0, 0, 0⟩, 0) ∈ g.atoms := by
  obtain ⟨n, rfl⟩ := Int.eq_ofNat_of_zero_le h0
  have hn : n < g.atoms.length := by exact_mod_cast h1
  simp only [ofLists, h0, if_true, Int.toNat_ofNat, List.getD_eq_getElem _ _ hn]
  exact ⟨trivial, List.getElem_mem hn⟩

theorem ofLists_live_bond (g : Contents α) (m : MoleculeGeometry α) (i : Int) (h0 : 0 ≤ i)
    (h1 : i < g.bonds.length) :
    (ofLists g m).bonds i = g.bonds.getD i.toNat ⟨0, 0, 0⟩ ∧
    g.bonds.getD i.toNat ⟨0, 0, 0⟩ ∈ g.bonds := by
  obtain ⟨n, rfl⟩ := Int.eq_ofNat_of_zero_le h0
  have hn : n < g.bonds.length := by exact_mod_cast h1
  simp only [ofLists, h0, if_true, Int.toNat_ofNat, List.getD_eq_getElem _ _ hn]
  exact ⟨trivial, List.getElem_mem hn⟩

/-- The geometry built by `apply_preset` has at least the 22 atoms and 28 bonds
of the nucleus, whatever the preset and the prior buffer contents. -/
theorem apply_preset_counts_ge (cosf sinf : α → α) (m : MoleculeGeometry α) (presetType : Int) :
    22 ≤ (apply_preset cosf sinf m presetType).atomCount ∧
      28 ≤ (apply_preset cosf sinf m presetType).bondCount := by
  obtain ⟨he, h1, _, h3, _, _⟩ := apply_preset_rep cosf sinf m presetType
  rw [he, ofLists_atomCount, ofLists_bondCount]
  exact ⟨by exact_mod_cast h1, by exact_mod_cast h3⟩

/-- C1: for every presetId in 0..19 the geometry built by `apply_preset` (from any
prior buffer contents) has a positive atom count and bond count, at most 64
atoms and at most 96 bonds. -/
theorem C1_preset_counts_within_capacity (cosf sinf : α → α) (m : MoleculeGeometry α)
    (presetId : Int) (_h0 : 0 ≤ presetId) (_h19 : presetId ≤ 19) :
    0 < (apply_preset cosf sinf m presetId).atomCount ∧
      0 < (apply_preset cosf sinf m presetId).bondCount ∧
      (apply_preset cosf sinf m presetId).atomCount ≤ 64 ∧
      (apply_preset cosf sinf m presetId).bondCount ≤ 96 := by
  obtain ⟨he, h1, h2, h3, h4, _⟩ := apply_preset_rep cosf sinf m presetId
  rw [he, ofLists_atomCount, ofLists_bondCount]
  refine ⟨?_, ?_, ?_, ?_⟩ <;> omega

/-- C1 at presetId 2 (the longest side chain) on a stale rational buffer. -/
theorem C1_preset_counts_within_capacity_witness :
    (0 : Int) ≤ 2 ∧ (2 : Int) ≤ 19 ∧
      0 < (apply_preset (fun t : ℚ => 1 - t * t / 2) (fun t : ℚ => t) staleMolecule 2).atomCount ∧
      0 < (apply_preset (fun t : ℚ => 1 - t * t / 2) (fun t : ℚ => t) staleMolecule 2).bondCount ∧
      (apply_preset (fun t : ℚ => 1 - t * t / 2) (fun t : ℚ => t) staleMolecule 2).atomCount ≤ 64 ∧
      (apply_preset (fun t : ℚ => 1 - t * t / 2) (fun t : ℚ => t) staleMolecule 2).bondCount ≤ 96 :=
  ⟨by decide, by decide,
    C1_preset_counts_within_capacity _ _ staleMolecule 2 (by decide) (by decide)⟩

/-- C2: for every presetId in 0..19 and every bond index below bondCount of the
geometry built by `apply_preset`, both endpoints are atom indices in
`0 .. atomCount - 1`, they differ, and the order is 1, 2 or 3. -/
theorem C2_preset_bonds_valid (cosf sinf : α → α) (m : MoleculeGeometry α)
    (presetId : Int) (_h0 : 0 ≤ presetId) (_h19 : presetId ≤ 19)
    (i : Int) (hi0 : 0 ≤ i) (hi : i < (apply_preset cosf sinf m presetId).bondCount) :
    0 ≤ ((apply_preset cosf sinf m presetId).bonds i).from_ ∧
      ((apply_preset cosf sinf m presetId).bonds i).from_
        < (apply_preset cosf sinf m presetId).atomCount ∧
      0 ≤ ((apply_preset cosf sinf m presetId).bonds i).to_ ∧
      ((apply_preset cosf sinf m presetId).bonds i).to_
        < (apply_preset cosf sinf m presetId).atomCount ∧
      ((apply_preset cosf sinf m presetId).bonds i).from_
        ≠ ((apply_preset cosf sinf m presetId).bonds i).to_ ∧
      (((apply_preset cosf sinf m presetId).bonds i).order = 1 ∨
        ((apply_preset cosf sinf m presetId).bonds i).order = 2 ∨
        ((apply_preset cosf sinf m presetId).bonds i).order = 3) := by
  obtain ⟨he, _, _, _, _, h5⟩ := apply_preset_rep cosf sinf m presetId
  rw [he] at hi ⊢
  obtain ⟨e, hmem⟩ := ofLists_live_bond _ m i hi0 hi
  rw [e]
  exact h5 _ hmem

/-- C2 at presetId 3 and bond 12, one of the promoted bonds. -/
theorem C2_preset_bonds_valid_witness :
    (0 : Int) ≤ 3 ∧ (3 : Int) ≤ 19 ∧ (0 : Int) ≤ 12 ∧
      12 < (apply_preset Real.cos Real.sin blankMolecule 3).bondCount ∧
      0 ≤ ((apply_preset Real.cos Real.sin blankMolecule 3).bonds 12).from_ ∧
      ((apply_preset Real.cos Real.sin blankMolecule 3).bonds 12).from_
        < (apply_preset Real.cos Real.sin blankMolecule 3).atomCount ∧
      0 ≤ ((apply_preset Real.cos Real.sin blankMolecule 3).bonds 12).to_ ∧
      ((apply_preset Real.cos Real.sin blankMolecule 3).bonds 12).to_
        < (apply_preset Real.cos Real.sin blankMolecule 3).atomCount ∧
      ((apply_preset Real.cos Real.sin blankMolecule 3).bonds 12).from_
        ≠ ((apply_preset Real.cos Real.sin blankMolecule 3).bonds 12).to_ ∧
      (((apply_preset Real.cos Real.sin blankMolecule 3).bonds 12).order = 1 ∨
        ((apply_preset Real.cos Real.sin blankMolecule 3).bonds 12).order = 2 ∨
        ((apply_preset Real.cos Real.sin blankMolecule 3).bonds 12).order = 3) :=
  have hlt : 12 < (apply_preset Real.cos Real.sin blankMolecule 3).bondCount :=
    lt_of_lt_of_le (by decide) (apply_preset_counts_ge Real.cos Real.sin blankMolecule 3).2
  ⟨by decide, by decide, by decide, hlt,
    C2_preset_bonds_valid Real.cos Real.sin blankMolecule 3 (by decide) (by decide) 12
      (by decide) hlt⟩

/-- C3: over the reals, with `cosf` and `sinf` the real cosine and sine, every
coordinate of every atom below atomCount of the geometry built by `apply_preset`
for a presetId in 0..19 has absolute value strictly below 200. -/
theorem C3_preset_coordinates_bounded (m : MoleculeGeometry ℝ)
    (presetId : Int) (_h0 : 0 ≤ presetId) (_h19 : presetId ≤ 19)
    (i : Int) (hi0 : 0 ≤ i) (hi : i < (apply_preset Real.cos Real.sin m presetId).atomCount) :
    |((apply_preset Real.cos Real.sin m presetId).atomPos i).x| < 200 ∧
      |((apply_preset Real.cos Real.sin m presetId).atomPos i).y| < 200 ∧
      |((apply_preset Real.cos Real.sin m presetId).atomPos i).z| < 200 := by
  obtain ⟨he, _⟩ := apply_preset_rep Real.cos Real.sin m presetId
  have hbox := presetL_box Real.cos Real.sin Real.abs_cos_le_one Real.abs_sin_le_one presetId
  rw [he] at hi ⊢
  obtain ⟨e, hmem⟩ := ofLists_live_atom _ m i hi0 hi
  obtain ⟨hx, hy, hz⟩ := hbox _ hmem
  have e1 := congrArg Prod.fst e
  simp only at e1
  rw [e1]
  exact ⟨lt_of_le_of_lt hx (by norm_num), lt_of_le_of_lt hy (by norm_num),
    lt_of_le_of_lt hz (by norm_num)⟩

/-- C3 at presetId 2 and atom 14, the attach atom of the side chain. -/
theorem C3_preset_coordinates_bounded_witness :
    (0 : Int) ≤ 2 ∧ (2 : Int) ≤ 19 ∧ (0 : Int) ≤ 14 ∧
      14 < (apply_preset Real.cos Real.sin blankMolecule 2).atomCount ∧
      |((apply_preset Real.cos Real.sin blankMolecule 2).atomPos 14).x| < 200 ∧
      |((apply_preset Real.cos Real.sin blankMolecule 2).atomPos 14).y| < 200 ∧
      |((apply_preset Real.cos Real.sin blankMolecule 2).atomPos 14).z| < 200 :=
  have hlt : 14 < (apply_preset Real.cos Real.sin blankMolecule 2).atomCount :=
    lt_of_lt_of_le (by decide) (apply_preset_counts_ge Real.cos Real.sin blankMolecule 2).1
  ⟨by decide, by decide, by decide, hlt,
    C3_preset_coordinates_bounded blankMolecule 2 (by decide) (by decide) 14 (by decide) hlt⟩

/-- C4: the geometry built by `apply_preset` depends on presetId alone: from any
two prior contents of the output buffer the two results have the same counts and
the same atom positions, atom labels and bonds at every index below the counts. -/
theorem C4_apply_preset_deterministic (cosf sinf : α → α) (m1 m2 : MoleculeGeometry α)
    (presetId : Int) :
    (apply_preset cosf sinf m1 presetId).atomCount
        = (apply_preset cosf sinf m2 presetId).atomCount ∧
      (apply_preset cosf sinf m1 presetId).bondCount
        = (apply_preset cosf sinf m2 presetId).bondCount ∧
      (∀ i : Int, 0 ≤ i → i < (apply_preset cosf sinf m1 presetId).atomCount →
        (apply_preset cosf sinf m1 presetId).atomPos i
            = (apply_preset cosf sinf m2 presetId).atomPos i ∧
          (apply_preset cosf sinf m1 presetId).atomLabel i
            = (apply_preset cosf sinf m2 presetId).atomLabel i) ∧
      (∀ i : Int, 0 ≤ i → i < (apply_preset cosf sinf m1 presetId).bondCount →
        (apply_preset cosf sinf m1 presetId).bonds i
          = (apply_preset cosf sinf m2 presetId).bonds i) := by
  obtain ⟨he1, _⟩ := apply_preset_rep cosf sinf m1 presetId
  obtain ⟨he2, _⟩ := apply_preset_rep cosf sinf m2 presetId
  rw [he1, he2]
  refine ⟨rfl, rfl, ?_, ?_⟩
  · intro i hi0 hi
    have e1 := (ofLists_live_atom _ m1 i hi0 hi).1
    have e2 := (ofLists_live_atom _ m2 i hi0 hi).1
    have e := e1.trans e2.symm
    exact ⟨congrArg Prod.fst e, congrArg Prod.snd e⟩
  · intro i hi0 hi
    exact (ofLists_live_bond _ m1 i hi0 hi).1.trans (ofLists_live_bond _ m2 i hi0 hi).1.symm

/-- C5: `add_atom` on a geometry with 64 or more atoms and `add_bond` on one with
96 or more bonds return the geometry unchanged; below capacity each stores the
new element at the old count index, advances its own count by one and changes
no other entry and not the other count. -/
theorem C5_capacity_policy (mol : MoleculeGeometry α) (p : Vec3 α) (label : Nat)
    (a b order : Int) :
    (64 ≤ mol.atomCount → add_atom mol p label = mol) ∧
      (96 ≤ mol.bondCount → add_bond mol a b order = mol) ∧
      (mol.atomCount < 64 →
        (add_atom mol p label).atomCount = mol.atomCount + 1 ∧
          (add_atom mol p label).atomPos mol.atomCount = p ∧
          (add_atom mol p label).atomLabel mol.atomCount = label ∧
          (∀ j, j ≠ mol.atomCount →
            (add_atom mol p label).atomPos j = mol.atomPos j ∧
              (add_atom mol p label).atomLabel j = mol.atomLabel j) ∧
          (add_atom mol p label).bonds = mol.bonds ∧
          (add_atom mol p label).bondCount = mol.bondCount) ∧
      (mol.bondCount < 96 →
        (add_bond mol a b order).bondCount = mol.bondCount + 1 ∧
          (add_bond mol a b order).bonds mol.bondCount = ⟨a, b, order⟩ ∧
          (∀ j, j ≠ mol.bondCount → (add_bond mol a b order).bonds j = mol.bonds j) ∧
          (add_bond mol a b order).atomPos = mol.atomPos ∧
          (add_bond mol a b order).atomLabel = mol.atomLabel ∧
          (add_bond mol a b order).atomCount = mol.atomCount) := by
  refine ⟨?_, ?_, ?_, ?_⟩
  · intro h
    simp [add_atom, MAX_ATOMS, h]
  · intro h
    simp [add_bond, MAX_BONDS, h]
  · intro h
    have h64 : ¬ (mol.atomCount ≥ MAX_ATOMS) := by simp [MAX_ATOMS]; omega
    simp only [add_atom, h64, if_false, if_true, true_and, and_true]
    intro j hj
    simp [hj]
  · intro h
    have h96 : ¬ (mol.bondCount ≥ MAX_BONDS) := by simp [MAX_BONDS]; omega
    simp only [add_bond, h96, if_false, if_true, true_and, and_true]
    intro j hj
    simp [hj]

/-- C5 on a full rational buffer (both additions dropped) and on a blank one
(both additions stored at index 0). -/
theorem C5_capacity_policy_witness :
    add_atom (fullMolecule : MoleculeGeometry ℚ) ⟨1, 2, 3⟩ 1 = fullMolecule ∧
      add_bond (fullMolecule : MoleculeGeometry ℚ) 0 1 2 = fullMolecule ∧
      (add_atom (blankMolecule : MoleculeGeometry ℚ) ⟨1, 2, 3⟩ 1).atomCount
        = (blankMolecule : MoleculeGeometry ℚ).atomCount + 1 ∧
      (add_bond (blankMolecule : MoleculeGeometry ℚ) 0 1 2).bonds
        (blankMolecule : MoleculeGeometry ℚ).bondCount = ⟨0, 1, 2⟩ :=
  ⟨(C5_capacity_policy fullMolecule ⟨1, 2, 3⟩ 1 0 1 2).1 (by decide),
    (C5_capacity_policy fullMolecule ⟨1, 2, 3⟩ 1 0 1 2).2.1 (by decide),
    ((C5_capacity_policy blankMolecule ⟨1, 2, 3⟩ 1 0 1 2).2.2.1 (by decide)).1,
    ((C5_capacity_policy blankMolecule ⟨1, 2, 3⟩ 1 0 1 2).2.2.2 (by decide)).2.1⟩

/-! ## Projector: claims C6 to C10 -/

/-- C6: rotation identity, `rotate_yaw_pitch(p, 0, 0) = p` for every point `p`
(real arithmetic, real cosine and sine). -/
theorem C6_rotate_identity (p : Vec3 ℝ) : rotate_yaw_pitch Real.cos Real.sin p 0 0 = p := by
  simp [rotate_yaw_pitch, make_vec3]

/-- C8: the depth output of `project_to_screen` is `p.z`, whatever `p.x`, `p.y`,
the zoom and the centre are. -/
theorem C8_project_depth_is_z (p : Vec3 α) (zoom : α) (centerX centerY : Int) :
    (project_to_screen p zoom centerX centerY).outDepth = p.z ∧
      ∀ (x y zoom2 : α) (centerX2 centerY2 : Int),
        (project_to_screen ⟨x, y, p.z⟩ zoom2 centerX2 centerY2).outDepth
          = (project_to_screen p zoom centerX centerY).outDepth :=
  ⟨rfl, fun _ _ _ _ _ => rfl⟩

theorem clampf_mem (v lo hi : α) (h : lo ≤ hi) : lo ≤ clampf v lo hi ∧ clampf v lo hi ≤ hi := by
  unfold clampf
  split_ifs with h1 h2
  · exact ⟨le_refl _, h⟩
  · exact ⟨h, le_refl _⟩
  · exact ⟨not_lt.mp h1, not_lt.mp h2⟩

theorem InRange_reset (v : ViewControl α) : InRange (reset_view_control v) := by
  simp only [InRange, reset_view_control]
  norm_num

theorem on_keydown_viewControls (s : MainState α) (key : Keycode) :
    (on_keydown s key).viewControls
      = if key = Keycode.SDLK_r then
          Function.update s.viewControls s.selectedIndex
            (reset_view_control (s.viewControls s.selectedIndex))
        else s.viewControls := by
  cases key <;> simp only [on_keydown, reduceCtorEq, if_false, if_true] <;> split_ifs <;> rfl

/-- Every handled event keeps the range invariant at every index of
`viewControls`. -/
theorem handle_event_InRange (s : MainState α) (e : SDL_Event) (i : Int)
    (h : InRange (s.viewControls i)) : InRange ((handle_event s e).viewControls i) := by
  have hp : (-1.2 : α) ≤ 1.2 := by norm_num
  have hz : (0.35 : α) ≤ 4.0 := by norm_num
  cases e with
  | SDL_QUIT => exact h
  | SDL_KEYDOWN key =>
    simp only [handle_event, on_keydown_viewControls]
    by_cases hr : key = Keycode.SDLK_r
    · simp only [hr, if_true]
      by_cases hi : i = s.selectedIndex
      · subst hi
        simp [Function.update, InRange_reset]
      · simp [Function.update, hi, h]
    · simp only [hr, if_false]
      exact h
  | SDL_MOUSEBUTTONDOWN button x y =>
    simp only [handle_event]
    split_ifs <;> exact h
  | SDL_MOUSEBUTTONUP button =>
    simp only [handle_event]
    split_ifs <;> exact h
  | SDL_MOUSEMOTION x y =>
    simp only [handle_event, on_mousemotion]
    by_cases hi : i = s.selectedIndex
    · subst hi
      obtain ⟨h1, h2, h3, h4⟩ := h
      split_ifs <;> simp only [Function.update, dite_true, InRange] <;>
        first
        | exact ⟨(clampf_mem _ _ _ hp).1, (clampf_mem _ _ _ hp).2, h3, h4⟩
        | exact ⟨h1, h2, h3, h4⟩
    · split_ifs <;> simp [Function.update, hi, h]
  | SDL_MOUSEWHEEL y =>
    simp only [handle_event, on_mousewheel]
    by_cases hi : i = s.selectedIndex
    · subst hi
      obtain ⟨h1, h2, h3, h4⟩ := h
      simp only [Function.update, dite_true, InRange]
      refine ⟨?_, ?_, (clampf_mem _ _ _ hz).1, (clampf_mem _ _ _ hz).2⟩ <;>
        split_ifs <;> assumption
    · simp [Function.update, hi, h]
  | other => exact h

theorem handle_events_InRange (events : List SDL_Event) (s : MainState α) (i : Int)
    (h : InRange (s.viewControls i)) : InRange ((handle_events s events).viewControls i) := by
  induction events generalizing s with
  | nil => exact h
  | cons e es ih => exact ih (handle_event s e) (handle_event_InRange s e i h)

theorem main_init_InRange (garbage : Int → ViewControl α) (i : Int) (h0 : 0 ≤ i) (h20 : i < 20) :
    InRange ((main_init garbage).viewControls i) := by
  have key : ∀ n : Nat, ∀ j : Int, 0 ≤ j → j < n →
      InRange (forLoop n (fun vc (k : Nat) =>
        Function.update vc (k : Int) (reset_view_control (vc (k : Int)))) garbage j) := by
    intro n
    induction n with
    | zero => intro j hj0 hj; omega
    | succ n ih =>
      intro j hj0 hj
      rw [forLoop_succ]
      by_cases hjn : j = (n : Int)
      · subst hjn
        simp [Function.update, InRange_reset]
      · simp only [Function.update, hjn, dite_false]
        exact ih j hj0 (by push_cast at hj; omega)
  exact key 20 i h0 (by exact_mod_cast h20)

/-- C11: starting from the state set by `reset_view_control`, after any finite
sequence of events handled by `main` (rotate drag, pan drag, wheel, reset, with
arbitrary integer coordinates and notches) every view control has pitch in
`[-1.2, 1.2]` and zoomMultiplier in `[0.35, 4.0]`; in particular after any number
of positive wheel notches the zoom is at most 4.0 and after any number of
negative notches at least 0.35. -/
theorem C11_view_control_ranges (garbage : Int → ViewControl α) (events : List SDL_Event)
    (i : Int) (h0 : 0 ≤ i) (h20 : i < 20) :
    -1.2 ≤ ((handle_events (main_init garbage) events).viewControls i).pitch ∧
      ((handle_events (main_init garbage) events).viewControls i).pitch ≤ 1.2 ∧
      0.35 ≤ ((handle_events (main_init garbage) events).viewControls i).zoomMultiplier ∧
      ((handle_events (main_init garbage) events).viewControls i).zoomMultiplier ≤ 4.0 ∧
      (∀ n : Nat, ((handle_events (main_init garbage)
          (List.replicate n (SDL_Event.SDL_MOUSEWHEEL 1))).viewControls i).zoomMultiplier ≤ 4.0) ∧
      (∀ n : Nat, 0.35 ≤ ((handle_events (main_init garbage)
          (List.replicate n (SDL_Event.SDL_MOUSEWHEEL (-1)))).viewControls i).zoomMultiplier) := by
  have hinit := main_init_InRange garbage i h0 h20
  obtain ⟨h1, h2, h3, h4⟩ := handle_events_InRange events _ i hinit
  exact ⟨h1, h2, h3, h4, fun n => (handle_events_InRange _ _ i hinit).2.2.2,
    fun n => (handle_events_InRange _ _ i hinit).2.2.1⟩

/-- C11 on a stale rational array, for entry 0 after a left drag of 1000 pixels
down followed by three wheel notches. -/
theorem C11_view_control_ranges_witness :
    (0 : Int) ≤ 0 ∧ (0 : Int) < 20 ∧
      (-1.2 : ℚ) ≤ ((handle_events (main_init (fun _ => (staleView : ViewControl ℚ)))
        [SDL_Event.SDL_MOUSEBUTTONDOWN MouseButton.SDL_BUTTON_LEFT 10 10,
          SDL_Event.SDL_MOUSEMOTION 10 1010, SDL_Event.SDL_MOUSEWHEEL 1,
          SDL_Event.SDL_MOUSEWHEEL 1, SDL_Event.SDL_MOUSEWHEEL (-1)]).viewControls 0).pitch ∧
      ((handle_events (main_init (fun _ => (staleView : ViewControl ℚ)))
        [SDL_Event.SDL_MOUSEBUTTONDOWN MouseButton.SDL_BUTTON_LEFT 10 10,
          SDL_Event.SDL_MOUSEMOTION 10 1010, SDL_Event.SDL_MOUSEWHEEL 1,
          SDL_Event.SDL_MOUSEWHEEL 1, SDL_Event.SDL_MOUSEWHEEL (-1)]).viewControls 0).pitch
        ≤ 1.2 ∧
      (0.35 : ℚ) ≤ ((handle_events (main_init (fun _ => (staleView : ViewControl ℚ)))
        [SDL_Event.SDL_MOUSEBUTTONDOWN MouseButton.SDL_BUTTON_LEFT 10 10,
          SDL_Event.SDL_MOUSEMOTION 10 1010, SDL_Event.SDL_MOUSEWHEEL 1,
          SDL_Event.SDL_MOUSEWHEEL 1, SDL_Event.SDL_MOUSEWHEEL (-1)]).viewControls
            0).zoomMultiplier ∧
      ((handle_events (main_init (fun _ => (staleView : ViewControl ℚ)))
        [SDL_Event.SDL_MOUSEBUTTONDOWN MouseButton.SDL_BUTTON_LEFT 10 10,
          SDL_Event.SDL_MOUSEMOTION 10 1010, SDL_Event.SDL_MOUSEWHEEL 1,
          SDL_Event.SDL_MOUSEWHEEL 1, SDL_Event.SDL_MOUSEWHEEL (-1)]).viewControls
            0).zoomMultiplier ≤ 4.0 :=
  have h := C11_view_control_ranges (fun _ => (staleView : ViewControl ℚ))
    [SDL_Event.SDL_MOUSEBUTTONDOWN MouseButton.SDL_BUTTON_LEFT 10 10,
      SDL_Event.SDL_MOUSEMOTION 10 1010, SDL_Event.SDL_MOUSEWHEEL 1,
      SDL_Event.SDL_MOUSEWHEEL 1, SDL_Event.SDL_MOUSEWHEEL (-1)] 0 (by decide) (by decide)
  ⟨by decide, by decide, h.1, h.2.1, h.2.2.1, h.2.2.2.1⟩

/-! ## Rotation order: claim C16 -/

/-- C16: `rotate_yaw_pitch(p, yaw, pitch)` is the pitch rotation (yaw 0) applied
to the yaw rotation (pitch 0) of `p`; and the two do not commute: for
`p = (0, 1, 0)` and yaw = pitch = pi/2, pitch first and yaw second gives
`(1, 0, 0)` while `rotate_yaw_pitch` gives `(0, 0, 1)` (real arithmetic, real
cosine and sine). -/
theorem C16_rotate_composition_order :
    (∀ (p : Vec3 ℝ) (yaw pitch : ℝ),
      rotate_yaw_pitch Real.cos Real.sin p yaw pitch
        = rotate_yaw_pitch Real.cos Real.sin (rotate_yaw_pitch Real.cos Real.sin p yaw 0) 0
            pitch) ∧
      rotate_yaw_pitch Real.cos Real.sin ⟨0, 1, 0⟩ (Real.pi / 2) (Real.pi / 2) = ⟨0, 0, 1⟩ ∧
      rotate_yaw_pitch Real.cos Real.sin
          (rotate_yaw_pitch Real.cos Real.sin ⟨0, 1, 0⟩ 0 (Real.pi / 2)) (Real.pi / 2) 0
        = ⟨1, 0, 0⟩ ∧
      rotate_yaw_pitch Real.cos Real.sin
          (rotate_yaw_pitch Real.cos Real.sin ⟨0, 1, 0⟩ 0 (Real.pi / 2)) (Real.pi / 2) 0
        ≠ rotate_yaw_pitch Real.cos Real.sin ⟨0, 1, 0⟩ (Real.pi / 2) (Real.pi / 2) := by
  refine ⟨?_, ?_, ?_, ?_⟩
  · intro p yaw pitch
    simp [rotate_yaw_pitch, make_vec3]
  · simp [rotate_yaw_pitch, make_vec3]
  · simp [rotate_yaw_pitch, make_vec3]
  · simp [rotate_yaw_pitch, make_vec3]

/-! ## Common substituents and the side chain: claims C14, C15 and C18 -/

theorem ExtendsL_refl (base : Contents α) : ExtendsL base base :=
  ⟨⟨[], by simp⟩, le_refl _, fun _ _ _ => rfl⟩

theorem ExtendsL_subst {base g : Contents α} {k : Int} {off : Vec3 α → Vec3 α} {l : Nat}
    {o : Int} (h : ExtendsL base g) : ExtendsL base (L_subst g k off l o) := by
  obtain ⟨⟨as, ha⟩, hb, hk⟩ := h
  refine ⟨⟨as ++ [(off (atomAt g.atoms k), l)], ?_⟩, ?_, ?_⟩
  · simp [L_subst, ha]
  · simp [L_subst]; omega
  · intro j hj1 hj2
    simp only [L_subst]
    rw [List.getElem?_append_left (by omega)]
    exact hk j hj1 hj2

theorem ExtendsL_subst_ite {base g : Contents α} {k : Int} {off : Vec3 α → Vec3 α} {l : Nat}
    {o : Int} {c : Prop} [Decidable c] (h : ExtendsL base g) :
    ExtendsL base (if c then L_subst g k off l o else g) := by
  split_ifs
  · exact ExtendsL_subst h
  · exact h

theorem ExtendsL_tail_ite {base g : Contents α} {a n : Int} {w : α} {c : Prop} [Decidable c]
    (h : ExtendsL base g) : ExtendsL base (if c then L_tail g a n w else g) := by
  split_ifs
  · obtain ⟨⟨as, ha⟩, hb, hk⟩ := h
    refine ⟨⟨as ++ (List.range n.toNat).map (fun (i : Nat) =>
      (make_vec3 ((atomAt g.atoms a).x + ((i : α) + 1) * 1.1)
        ((atomAt g.atoms a).y - 0.4 * (i : α)) ((atomAt g.atoms a).z + w * (i : α)), 0)), ?_⟩,
      ?_, ?_⟩
    · simp only [L_tail]
      rw [← List.append_assoc, ← ha]
    · simp [L_tail]; omega
    · intro j hj1 hj2
      simp only [L_tail]
      rw [List.getElem?_append_left (by omega)]
      exact hk j hj1 hj2
  · exact h

theorem ExtendsL_setOrder {base g : Contents α} {k o : Int} (h : ExtendsL base g)
    (hk28 : k.toNat < 28) : ExtendsL base (L_setOrder g k o) := by
  obtain ⟨ha, hb, hk⟩ := h
  refine ⟨ha, ?_, ?_⟩
  · simpa [L_setOrder] using hb
  · intro j hj1 hj2
    simp only [L_setOrder]
    rw [List.getElem?_set_ne (by omega)]
    exact hk j hj1 hj2

theorem ExtendsL_promote {base g : Contents α} (presetType : Int) (h : ExtendsL base g) :
    ExtendsL base
      (if presetType = 3 ∨ presetType = 5 then
        let g := if (g.bonds.length : Int) > 10 then L_setOrder (L_setOrder g 3 2) 8 2 else g
        if presetType = 3 ∧ (g.bonds.length : Int) > 15 then L_setOrder g 12 2 else g
      else g) := by
  have h2 : ExtendsL base (L_setOrder (L_setOrder g 3 2) 8 2) :=
    ExtendsL_setOrder (ExtendsL_setOrder h (by decide)) (by decide)
  dsimp only
  split_ifs
  · exact ExtendsL_setOrder h2 (by decide)
  · exact h2
  · exact ExtendsL_setOrder h (by decide)
  · exact h
  · exact h

/-- The list view of `apply_preset` keeps the nucleus and the two common
substituents in place, for every preset. -/
theorem presetL_extends (cosf sinf : α → α) (presetType : Int) :
    ExtendsL (commonL cosf sinf) (presetL cosf sinf presetType) := by
  unfold presetL
  refine ExtendsL_subst_ite ?_
  refine ExtendsL_subst_ite ?_
  refine ExtendsL_subst_ite ?_
  refine ExtendsL_subst_ite ?_
  refine ExtendsL_subst_ite ?_
  refine ExtendsL_subst_ite ?_
  refine ExtendsL_promote presetType ?_
  refine ExtendsL_subst_ite ?_
  refine ExtendsL_tail_ite ?_
  refine ExtendsL_tail_ite ?_
  refine ExtendsL_tail_ite ?_
  refine ExtendsL_tail_ite ?_
  exact ExtendsL_refl _

theorem coreAtoms_length (cosf sinf : α → α) : (coreAtoms cosf sinf).length = 22 := by
  simp [coreAtoms]

theorem coreAtoms_label (cosf sinf : α → α) (a : Vec3 α × Nat) (h : a ∈ coreAtoms cosf sinf) :
    a.2 = 0 := by
  simp only [coreAtoms, List.mem_append, List.mem_map] at h
  rcases h with ((⟨_, _, hx⟩ | ⟨_, _, hx⟩) | ⟨_, _, hx⟩) | ⟨_, _, hx⟩ <;> rw [← hx]

theorem ofLists_atom_of_getElem? (g : Contents α) (m : MoleculeGeometry α) (n : Nat)
    (a : Vec3 α × Nat) (h : g.atoms[n]? = some a) :
    (ofLists g m).atomPos (n : Int) = a.1 ∧ (ofLists g m).atomLabel (n : Int) = a.2 := by
  simp [ofLists, List.getD_eq_getElem?_getD, h]

theorem ofLists_bond_of_getElem? (g : Contents α) (m : MoleculeGeometry α) (n : Nat)
    (b : Bond) (h : g.bonds[n]? = some b) : (ofLists g m).bonds (n : Int) = b := by
  simp [ofLists, List.getD_eq_getElem?_getD, h]

/-- C14: for every integer presetType the geometry built by `apply_preset` has
atom 22 labelled oxygen (label 1) at `atomPos[2] + (-0.2, 1.4, 0.8)` with bond 28
equal to `(2, 22, 1)`, and atom 23 labelled oxygen at
`atomPos[8] + (0.3, -1.2, -0.6)` with bond 29 equal to `(8, 23, 2)`; atoms 0..21
are the atoms placed by `build_steroid_core`, all labelled carbon (label 0). -/
theorem C14_common_substituents (cosf sinf : α → α) (m : MoleculeGeometry α)
    (presetType : Int) :
    (apply_preset cosf sinf m presetType).atomLabel 22 = 1 ∧
      (apply_preset cosf sinf m presetType).atomPos 22
        = make_vec3 (((apply_preset cosf sinf m presetType).atomPos 2).x - 0.2)
            (((apply_preset cosf sinf m presetType).atomPos 2).y + 1.4)
            (((apply_preset cosf sinf m presetType).atomPos 2).z + 0.8) ∧
      (apply_preset cosf sinf m presetType).bonds 28 = ⟨2, 22, 1⟩ ∧
      (apply_preset cosf sinf m presetType).atomLabel 23 = 1 ∧
      (apply_preset cosf sinf m presetType).atomPos 23
        = make_vec3 (((apply_preset cosf sinf m presetType).atomPos 8).x + 0.3)
            (((apply_preset cosf sinf m presetType).atomPos 8).y - 1.2)
            (((apply_preset cosf sinf m presetType).atomPos 8).z - 0.6) ∧
      (apply_preset cosf sinf m presetType).bonds 29 = ⟨8, 23, 2⟩ ∧
      ∀ i : Int, 0 ≤ i → i < 22 →
        (apply_preset cosf sinf m presetType).atomLabel i = 0 ∧
          (apply_preset cosf sinf m presetType).atomPos i
            = (build_steroid_core cosf sinf m).atomPos i := by
  obtain ⟨he, _⟩ := apply_preset_rep cosf sinf m presetType
  obtain ⟨⟨as, ha⟩, hb, hk⟩ := presetL_extends cosf sinf presetType
  have hlen := coreAtoms_length cosf sinf
  -- the atoms of the common prefix, by position
  have hcore : ∀ n : Nat, n < 22 →
      (presetL cosf sinf presetType).atoms[n]? = (coreAtoms cosf sinf)[n]? := by
    intro n hn
    rw [ha, List.getElem?_append_left (by simp [commonL, L_subst, hlen]; omega)]
    simp only [commonL, L_subst, List.append_assoc]
    rw [List.getElem?_append_left (by omega)]
  have h22 : (presetL cosf sinf presetType).atoms[22]?
      = some (make_vec3 ((atomAt (coreAtoms cosf sinf) 2).x - 0.2)
          ((atomAt (coreAtoms cosf sinf) 2).y + 1.4)
          ((atomAt (coreAtoms cosf sinf) 2).z + 0.8), 1) := by
    rw [ha, List.getElem?_append_left (by simp [commonL, L_subst, hlen])]
    simp only [commonL, L_subst, List.append_assoc]
    rw [List.getElem?_append_right (by omega)]
    simp [hlen]
  have h23 : (presetL cosf sinf presetType).atoms[23]?
      = some (make_vec3 ((atomAt (coreAtoms cosf sinf) 8).x + 0.3)
          ((atomAt (coreAtoms cosf sinf) 8).y - 1.2)
          ((atomAt (coreAtoms cosf sinf) 8).z - 0.6), 1) := by
    rw [ha, List.getElem?_append_left (by simp [commonL, L_subst, hlen])]
    simp only [commonL, L_subst, List.append_assoc]
    rw [List.getElem?_append_right (by omega)]
    simp [hlen, atomAt_append _ _ 8 (by decide) (by rw [hlen]; decide)]
  have hb28 : (presetL cosf sinf presetType).bonds[28]? = some ⟨2, 22, 1⟩ := by
    rw [hk 28 (le_refl _) (by simp [commonL, L_subst, coreBonds])]
    simp [commonL, L_subst, coreBonds, hlen]
  have hb29 : (presetL cosf sinf presetType).bonds[29]? = some ⟨8, 23, 2⟩ := by
    rw [hk 29 (by decide) (by simp [commonL, L_subst, coreBonds])]
    simp [commonL, L_subst, coreBonds, hlen]
  -- positions of the attach atoms in the result
  have hpos : ∀ n : Nat, n < 22 →
      (ofLists (presetL cosf sinf presetType) m).atomPos (n : Int)
        = atomAt (coreAtoms cosf sinf) (n : Int) := by
    intro n hn
    have hn2 : n < (coreAtoms cosf sinf).length := by omega
    have e := hcore n hn
    rw [List.getElem?_eq_getElem hn2] at e
    rw [(ofLists_atom_of_getElem? _ m n _ e).1]
    simp [atomAt, List.getD_eq_getElem?_getD, List.getElem?_eq_getElem hn2]
  rw [he]
  have a22 := ofLists_atom_of_getElem? _ m 22 _ h22
  have a23 := ofLists_atom_of_getElem? _ m 23 _ h23
  have p2 := hpos 2 (by decide)
  have p8 := hpos 8 (by decide)
  refine ⟨a22.2, ?_, ofLists_bond_of_getElem? _ m 28 _ hb28, a23.2, ?_,
    ofLists_bond_of_getElem? _ m 29 _ hb29, ?_⟩
  · rw [show ((2 : Int)) = ((2 : Nat) : Int) from rfl, p2]
    exact a22.1
  · rw [show ((8 : Int)) = ((8 : Nat) : Int) from rfl, p8]
    exact a23.1
  · intro i hi0 hi
    obtain ⟨n, rfl⟩ := Int.eq_ofNat_of_zero_le hi0
    have hn : n < 22 := by omega
    have hn2 : n < (coreAtoms cosf sinf).length := by omega
    have e := hcore n hn
    rw [List.getElem?_eq_getElem hn2] at e
    have ec : (⟨coreAtoms cosf sinf, coreBonds⟩ : Contents α).atoms[n]?
        = some ((coreAtoms cosf sinf)[n]) := List.getElem?_eq_getElem hn2
    obtain ⟨q1, q2⟩ := ofLists_atom_of_getElem? _ m n _ e
    rw [core_eq, (ofLists_atom_of_getElem? _ m n _ ec).1]
    refine ⟨?_, q1⟩
    rw [q2]
    exact coreAtoms_label cosf sinf _ (List.getElem_mem hn2)

theorem getD_map_range {β : Type} (f : Nat → β) (n k : Nat) (d : β) :
    ((List.range n).map f).getD k d = if k < n then f k else d := by
  rw [List.getD_eq_getElem?_getD, List.getElem?_map]
  split_ifs with h
  · rw [List.getElem?_range h]; rfl
  · rw [List.getElem?_eq_none (by simpa using h)]; rfl

theorem ofLists_viewOf (mol : MoleculeGeometry α) (h1 : 0 ≤ mol.atomCount)
    (h2 : 0 ≤ mol.bondCount) : ofLists (viewOf mol) mol = mol := by
  rcases mol with ⟨ap, al, ac, bs, bc⟩
  simp only at h1 h2
  simp only [ofLists, viewOf, List.length_map, List.length_range, getD_map_range]
  congr 1
  · funext j
    by_cases hj : 0 ≤ j
    · simp only [hj, if_true, Int.toNat_of_nonneg hj]
      split_ifs <;> rfl
    · simp [hj]
  · funext j
    by_cases hj : 0 ≤ j
    · simp only [hj, if_true, Int.toNat_of_nonneg hj]
      split_ifs <;> rfl
    · simp [hj]
  · exact Int.toNat_of_nonneg h1
  · funext j
    by_cases hj : 0 ≤ j
    · simp only [hj, if_true, Int.toNat_of_nonneg hj]
      split_ifs <;> rfl
    · simp [hj]
  · exact Int.toNat_of_nonneg h2

/-- C15: on a geometry with a valid attach atom `a` and room for `n >= 0` more
atoms and bonds, `add_ester_tail(mol, a, n, w)` advances both counts by `n`;
the `i`-th new atom is a carbon at `atomPos[a] + ((i+1)*1.1, -0.4*i, w*i)`, the
`i`-th new bond has order 1 and joins the previous chain atom (the attach atom
for `i = 0`) to the `i`-th new atom; every other atom and bond entry is
unchanged. -/
theorem C15_add_ester_tail_appends_chain (mol : MoleculeGeometry α) (a n : Int) (w : α)
    (ha0 : 0 ≤ a) (ha : a < mol.atomCount) (hn : 0 ≤ n) (hcap : mol.atomCount + n ≤ 64)
    (hb0 : 0 ≤ mol.bondCount) (hbcap : mol.bondCount + n ≤ 96) :
    (add_ester_tail mol a n w).atomCount = mol.atomCount + n ∧
      (add_ester_tail mol a n w).bondCount = mol.bondCount + n ∧
      (∀ i : Int, 0 ≤ i → i < n →
        (add_ester_tail mol a n w).atomPos (mol.atomCount + i)
            = make_vec3 ((mol.atomPos a).x + ((i : α) + 1) * 1.1)
                ((mol.atomPos a).y - 0.4 * (i : α)) ((mol.atomPos a).z + w * (i : α)) ∧
          (add_ester_tail mol a n w).atomLabel (mol.atomCount + i) = 0 ∧
          (add_ester_tail mol a n w).bonds (mol.bondCount + i)
            = ⟨if i = 0 then a else mol.atomCount + i - 1, mol.atomCount + i, 1⟩) ∧
      (∀ j : Int, j < mol.atomCount ∨ mol.atomCount + n ≤ j →
        (add_ester_tail mol a n w).atomPos j = mol.atomPos j ∧
          (add_ester_tail mol a n w).atomLabel j = mol.atomLabel j) ∧
      (∀ j : Int, j < mol.bondCount ∨ mol.bondCount + n ≤ j →
        (add_ester_tail mol a n w).bonds j = mol.bonds j) := by
  have hA0 : 0 ≤ mol.atomCount := by omega
  obtain ⟨A, hA⟩ := Int.eq_ofNat_of_zero_le hA0
  obtain ⟨B, hB⟩ := Int.eq_ofNat_of_zero_le hb0
  obtain ⟨N, rfl⟩ := Int.eq_ofNat_of_zero_le hn
  obtain ⟨k, rfl⟩ := Int.eq_ofNat_of_zero_le ha0
  have hk : k < A := by omega
  have hlenA : (viewOf mol).atoms.length = A := by simp [viewOf, hA]
  have hlenB : (viewOf mol).bonds.length = B := by simp [viewOf, hB]
  have hbase : atomAt (viewOf mol).atoms (k : Int) = mol.atomPos (k : Int) := by
    simp only [atomAt, viewOf, getD_map_range, hA, Int.toNat_ofNat, hk, if_true]
  have hr : add_ester_tail mol (k : Int) (N : Int) w
      = ofLists (L_tail (viewOf mol) (k : Int) (N : Int) w) mol := by
    conv_lhs => rw [← ofLists_viewOf mol hA0 hb0]
    exact add_ester_tail_ofLists _ mol _ _ w (by omega) (by rw [hlenA]; exact_mod_cast hk)
      (by rw [hlenA]; simp only [Int.toNat_ofNat]; omega)
      (by rw [hlenB]; simp only [Int.toNat_ofNat]; omega)
  rw [hr]
  simp only [ofLists, L_tail, hbase, hlenA, List.length_append, List.length_map,
    List.length_range, Int.toNat_ofNat, hlenB, hA, hB, Nat.cast_add, true_and]
  refine ⟨?_, ?_, ?_⟩
  · intro i hi0 hi
    obtain ⟨i, rfl⟩ := Int.eq_ofNat_of_zero_le hi0
    have hiN : i < N := by exact_mod_cast hi
    have e1 : ((A : Int) + (i : Int)).toNat = A + i := by omega
    have e2 : ((B : Int) + (i : Int)).toNat = B + i := by omega
    have p1 : (0 : Int) ≤ (A : Int) + (i : Int) := by omega
    have p2 : (0 : Int) ≤ (B : Int) + (i : Int) := by omega
    simp only [p1, p2, if_true, e1, e2, List.getD_eq_getElem?_getD]
    rw [List.getElem?_append_right (by rw [hlenA]; omega),
      List.getElem?_append_right (by rw [hlenB]; omega), hlenA, hlenB]
    simp [hiN, List.getElem?_range]
  · intro j hj
    by_cases hj0 : 0 ≤ j
    · obtain ⟨j, rfl⟩ := Int.eq_ofNat_of_zero_le hj0
      simp only [hj0, if_true, Int.toNat_ofNat, List.getD_eq_getElem?_getD]
      rcases hj with hj | hj
      · have hjA : j < A := by omega
        rw [List.getElem?_append_left (by rw [hlenA]; exact hjA)]
        simp [viewOf, hA, List.getElem?_range hjA]
      · rw [List.getElem?_eq_none (by simp [hlenA]; omega)]
        simp
    · simp [hj0]
  · intro j hj
    by_cases hj0 : 0 ≤ j
    · obtain ⟨j, rfl⟩ := Int.eq_ofNat_of_zero_le hj0
      simp only [hj0, if_true, Int.toNat_ofNat, List.getD_eq_getElem?_getD]
      rcases hj with hj | hj
      · have hjB : j < B := by omega
        rw [List.getElem?_append_left (by rw [hlenB]; exact hjB)]
        simp [viewOf, hB, List.getElem?_range hjB]
      · rw [List.getElem?_eq_none (by simp [hlenB]; omega)]
        simp
    · simp [hj0]

/-- C15 on the geometry with two atoms and one bond, attach atom 1, three
segments. -/
theorem C15_add_ester_tail_appends_chain_witness :
    (0 : Int) ≤ 1 ∧ 1 < (twoAtomMolecule : MoleculeGeometry ℚ).atomCount ∧ (0 : Int) ≤ 3 ∧
      (twoAtomMolecule : MoleculeGeometry ℚ).atomCount + 3 ≤ 64 ∧
      0 ≤ (twoAtomMolecule : MoleculeGeometry ℚ).bondCount ∧
      (twoAtomMolecule : MoleculeGeometry ℚ).bondCount + 3 ≤ 96 ∧
      (add_ester_tail (twoAtomMolecule : MoleculeGeometry ℚ) 1 3 (1 / 10)).atomCount
        = (twoAtomMolecule : MoleculeGeometry ℚ).atomCount + 3 ∧
      (add_ester_tail (twoAtomMolecule : MoleculeGeometry ℚ) 1 3 (1 / 10)).bondCount
        = (twoAtomMolecule : MoleculeGeometry ℚ).bondCount + 3 :=
  have h := C15_add_ester_tail_appends_chain (twoAtomMolecule : MoleculeGeometry ℚ) 1 3 (1 / 10)
    (by decide) (by decide) (by decide) (by decide) (by decide) (by decide)
  ⟨by decide, by decide, by decide, by decide, by decide, by decide, h.1, h.2.1⟩

theorem BondsValid_add_atom (mol : MoleculeGeometry α) (p : Vec3 α) (l : Nat)
    (h : BondsValid mol) : BondsValid (add_atom mol p l) := by
  unfold add_atom
  split_ifs
  · exact h
  · intro i hi0 hi
    exact BondOK_mono (h i hi0 hi) (by simp)

theorem BondsValid_add_bond (mol : MoleculeGeometry α) (a b o : Int)
    (h : BondsValid mol) (hb : BondOK mol.atomCount ⟨a, b, o⟩) :
    BondsValid (add_bond mol a b o) := by
  unfold add_bond
  split_ifs
  · exact h
  · intro i hi0 hi
    simp only at hi ⊢
    by_cases hi2 : i = mol.bondCount
    · simp only [hi2, if_true]
      exact hb
    · simp only [hi2, if_false]
      exact h i hi0 (by omega)

/-- The loop of `add_ester_tail` while no atom is dropped: the bonds stay valid,
the atom count advances by one per round and `previous` is a live atom. -/
theorem tail_loop_valid (mol : MoleculeGeometry α) (a : Int) (w : α) (ha0 : 0 ≤ a)
    (ha : a < mol.atomCount) (h : BondsValid mol) (j : Nat) (hcap : mol.atomCount + j ≤ 64) :
    BondsValid (forLoop j (add_ester_tail_body a w) (mol, a)).1 ∧
      (forLoop j (add_ester_tail_body a w) (mol, a)).1.atomCount = mol.atomCount + j ∧
      0 ≤ (forLoop j (add_ester_tail_body a w) (mol, a)).2 ∧
      (forLoop j (add_ester_tail_body a w) (mol, a)).2
        < (forLoop j (add_ester_tail_body a w) (mol, a)).1.atomCount := by
  induction j with
  | zero => simpa [forLoop_zero] using ⟨h, ha0, ha⟩
  | succ j ih =>
    obtain ⟨h1, h2, h3, h4⟩ := ih (by push_cast at hcap; omega)
    rw [forLoop_succ]
    generalize forLoop j (add_ester_tail_body a w) (mol, a) = s at h1 h2 h3 h4
    obtain ⟨m1, prev⟩ := s
    simp only at h1 h2 h3 h4
    have hlt : ¬ (m1.atomCount ≥ MAX_ATOMS) := by
      simp only [MAX_ATOMS]; push_cast at hcap; omega
    have hcount : ∀ p l, (add_atom m1 p l).atomCount = m1.atomCount + 1 := by
      intro p l
      simp [add_atom, hlt]
    simp only [add_ester_tail_body]
    have hbc : ∀ (m2 : MoleculeGeometry α) (x y o : Int),
        (add_bond m2 x y o).atomCount = m2.atomCount := by
      intro m2 x y o
      unfold add_bond
      split_ifs <;> rfl
    refine ⟨?_, ?_, ?_, ?_⟩
    · apply BondsValid_add_bond _ _ _ _ (BondsValid_add_atom _ _ _ h1)
      rw [hcount]
      refine ⟨h3, ?_, ?_, ?_, ?_, Or.inl rfl⟩ <;> simp only <;> omega
    · rw [hbc, hcount, h2]; push_cast; ring
    · rw [hcount]; omega
    · rw [hbc, hcount]; omega

theorem forLoop_one {σ : Type} (body : σ → Nat → σ) (s : σ) : forLoop 1 body s = body s 0 :=
  forLoop_succ 0 body s

/-- C18 as stated fails: on a geometry with 64 atoms and one valid bond,
`add_ester_tail` with attach atom 63 and one segment drops the atom and stores
the bond `(63, 63, 1)`, whose endpoints are equal, at the live index 1. -/
theorem C18_tail_bond_invariant_counterexample :
    (saturatedAtoms : MoleculeGeometry ℚ).atomCount ≤ 64 ∧
      (saturatedAtoms : MoleculeGeometry ℚ).bondCount ≤ 96 ∧
      BondsValid (saturatedAtoms : MoleculeGeometry ℚ) ∧
      (0 : Int) ≤ 63 ∧ 63 < (saturatedAtoms : MoleculeGeometry ℚ).atomCount ∧
      (1 : Int) < (add_ester_tail (saturatedAtoms : MoleculeGeometry ℚ) 63 1 (1 / 10)).bondCount ∧
      (add_ester_tail (saturatedAtoms : MoleculeGeometry ℚ) 63 1 (1 / 10)).bonds 1
        = ⟨63, 63, 1⟩ ∧
      ¬ BondsValid (add_ester_tail (saturatedAtoms : MoleculeGeometry ℚ) 63 1 (1 / 10)) := by
  have hb : (add_ester_tail (saturatedAtoms : MoleculeGeometry ℚ) 63 1 (1 / 10)).bonds 1
      = ⟨63, 63, 1⟩ := by
    have e : (1 : Int).toNat = 1 := rfl
    simp [add_ester_tail, e, forLoop_one, add_ester_tail_body, add_atom, add_bond,
      saturatedAtoms, MAX_ATOMS, MAX_BONDS]
  have hc : (add_ester_tail (saturatedAtoms : MoleculeGeometry ℚ) 63 1 (1 / 10)).bondCount
      = 2 := by
    have e : (1 : Int).toNat = 1 := rfl
    simp [add_ester_tail, e, forLoop_one, add_ester_tail_body, add_atom, add_bond,
      saturatedAtoms, MAX_ATOMS, MAX_BONDS]
  refine ⟨by decide, by decide, ?_, by decide, by decide, by rw [hc]; decide, hb, ?_⟩
  · intro i hi0 hi
    have : i = 0 := by simp only [saturatedAtoms] at hi; omega
    subst this
    simp only [saturatedAtoms]
    decide
  · intro hv
    have := hv 1 (by decide) (by rw [hc]; decide)
    rw [hb] at this
    exact this.2.2.2.2.1 rfl

/-- C18 amended: when no atom is dropped (`atomCount + segmentCount <= 64`),
`add_ester_tail` keeps the Bond invariant: if every bond of the geometry has
valid distinct endpoints and order 1, 2 or 3 and the attach atom is valid, then
so has every bond of the result, whatever the bond count is (also when bonds are
dropped). -/
theorem C18_tail_preserves_bond_invariant (mol : MoleculeGeometry α) (a n : Int) (w : α)
    (ha0 : 0 ≤ a) (ha : a < mol.atomCount) (_hn : 0 ≤ n) (hcap : mol.atomCount + n ≤ 64)
    (_hb : mol.bondCount ≤ 96)
    (h : ∀ i : Int, 0 ≤ i → i < mol.bondCount →
      0 ≤ (mol.bonds i).from_ ∧ (mol.bonds i).from_ < mol.atomCount ∧
        0 ≤ (mol.bonds i).to_ ∧ (mol.bonds i).to_ < mol.atomCount ∧
        (mol.bonds i).from_ ≠ (mol.bonds i).to_ ∧
        ((mol.bonds i).order = 1 ∨ (mol.bonds i).order = 2 ∨ (mol.bonds i).order = 3)) :
    ∀ i : Int, 0 ≤ i → i < (add_ester_tail mol a n w).bondCount →
      0 ≤ ((add_ester_tail mol a n w).bonds i).from_ ∧
        ((add_ester_tail mol a n w).bonds i).from_ < (add_ester_tail mol a n w).atomCount ∧
        0 ≤ ((add_ester_tail mol a n w).bonds i).to_ ∧
        ((add_ester_tail mol a n w).bonds i).to_ < (add_ester_tail mol a n w).atomCount ∧
        ((add_ester_tail mol a n w).bonds i).from_ ≠ ((add_ester_tail mol a n w).bonds i).to_ ∧
        (((add_ester_tail mol a n w).bonds i).order = 1 ∨
          ((add_ester_tail mol a n w).bonds i).order = 2 ∨
          ((add_ester_tail mol a n w).bonds i).order = 3) :=
  (tail_loop_valid mol a w ha0 ha h n.toNat (by omega)).1

/-- C18 amended on a geometry with two atoms and one bond, attach atom 1 and
three segments. -/
theorem C18_tail_preserves_bond_invariant_witness :
    BondsValid (twoAtomMolecule : MoleculeGeometry ℚ) ∧
      BondsValid (add_ester_tail (twoAtomMolecule : MoleculeGeometry ℚ) 1 3 (1 / 10)) :=
  have hv : BondsValid (twoAtomMolecule : MoleculeGeometry ℚ) := by
    intro i hi0 hi
    have : i = 0 := by simp only [twoAtomMolecule] at hi; omega
    subst this
    simp only [twoAtomMolecule]
    decide
  ⟨hv, C18_tail_preserves_bond_invariant twoAtomMolecule 1 3 (1 / 10) (by decide) (by decide)
    (by decide) (by decide) (by decide) hv⟩

/-! ## The test copy of the builder: claim C17 -/

set_option maxRecDepth 4000 in
theorem apply_preset_test_rep (cosf sinf : α → α) (m : MoleculeGeometry α) (presetType : Int) :
    Rep m (apply_preset_test cosf sinf m presetType) (presetL_test cosf sinf presetType)
      48 54 := by
  unfold apply_preset_test presetL_test
  refine Rep_subst_ite 47 53 ?_ (by decide) (by decide) (by decide)
  refine Rep_subst_ite 46 52 ?_ (by decide) (by decide) (by decide)
  refine Rep_subst_ite 45 51 ?_ (by decide) (by decide) (by decide)
  refine Rep_subst_ite 44 50 ?_ (by decide) (by decide) (by decide)
  refine Rep_promote presetType ?_
  refine Rep_subst_ite 43 49 ?_ (by decide) (by decide) (by decide)
  refine Rep_tail_ite 40 46 ?_ (by decide) (by decide)
  refine Rep_tail_ite 37 43 ?_ (by decide) (by decide)
  refine Rep_tail_ite 30 36 ?_ (by decide) (by decide)
  refine Rep_tail_ite 24 30 ?_ (by decide) (by decide)
  refine Rep_subst 23 29 ?_ (by decide) (by decide) (by decide)
  refine Rep_subst 22 28 ?_ (by decide) (by decide) (by decide)
  exact Rep_core cosf sinf m

/-- The program's builder is the test copy followed by the two clauses that the
test copy lacks. -/
theorem apply_preset_eq_test_then (cosf sinf : α → α) (m : MoleculeGeometry α)
    (presetType : Int) :
    apply_preset cosf sinf m presetType
      = (if presetType = 11 then
          add_substituent
            (if presetType = 4 ∨ presetType = 10 ∨ presetType = 14 ∨ presetType = 15 then
              add_substituent (apply_preset_test cosf sinf m presetType) 11
                (fun b => make_vec3 (b.x + 0.9) (b.y - 0.9) (b.z + 0.3)) 0 1
            else apply_preset_test cosf sinf m presetType)
            6 (fun b => make_vec3 (b.x + 0.7) (b.y + 1.0) b.z) 0 1
        else
          (if presetType = 4 ∨ presetType = 10 ∨ presetType = 14 ∨ presetType = 15 then
            add_substituent (apply_preset_test cosf sinf m presetType) 11
              (fun b => make_vec3 (b.x + 0.9) (b.y - 0.9) (b.z + 0.3)) 0 1
          else apply_preset_test cosf sinf m presetType)) := rfl

/-- C17 fails at presetId 4 (and likewise at 11): the copy of `apply_preset` in
the test suite builds 24 atoms and 30 bonds, the program's `apply_preset` builds
25 atoms and 31 bonds.  For every presetId other than 4, 10, 11, 14 and 15 the
two build the same buffer. -/
theorem C17_test_copy_diverges (cosf sinf : α → α) (m : MoleculeGeometry α) :
    (apply_preset_test cosf sinf m 4).atomCount = 24 ∧
      (apply_preset_test cosf sinf m 4).bondCount = 30 ∧
      (apply_preset cosf sinf m 4).atomCount = 25 ∧
      (apply_preset cosf sinf m 4).bondCount = 31 ∧
      (apply_preset_test cosf sinf m 11).atomCount = 24 ∧
      (apply_preset cosf sinf m 11).atomCount = 25 ∧
      ∀ presetId : Int, presetId ≠ 4 → presetId ≠ 10 → presetId ≠ 11 → presetId ≠ 14 →
        presetId ≠ 15 → apply_preset_test cosf sinf m presetId = apply_preset cosf sinf m presetId := by
  have hlen := coreAtoms_length cosf sinf
  refine ⟨?_, ?_, ?_, ?_, ?_, ?_, ?_⟩
  · rw [(apply_preset_test_rep cosf sinf m 4).1]
    simp [ofLists, presetL_test, L_subst, hlen]
  · rw [(apply_preset_test_rep cosf sinf m 4).1]
    simp [ofLists, presetL_test, L_subst, coreBonds]
  · rw [(apply_preset_rep cosf sinf m 4).1]
    simp [ofLists, presetL, L_subst, hlen]
  · rw [(apply_preset_rep cosf sinf m 4).1]
    simp [ofLists, presetL, L_subst, coreBonds]
  · rw [(apply_preset_test_rep cosf sinf m 11).1]
    simp [ofLists, presetL_test, L_subst, hlen]
  · rw [(apply_preset_rep cosf sinf m 11).1]
    simp [ofLists, presetL, L_subst, hlen]
  · intro presetId h4 h10 h11 h14 h15
    rw [apply_preset_eq_test_then]
    simp [h4, h10, h11, h14, h15]

/-! ## Bounding radius: claim C19 -/

/-- The running maximum of `compute_bounding_radius` after `n` atoms: it is
non-negative, bounds the squared norm of each atom seen, and is 0 or one of
them. -/
theorem maxR2_spec (mol : MoleculeGeometry α) (n : Nat) :
    0 ≤ forLoop n (fun (maxR2 : α) i =>
        let x := (mol.atomPos i).x
        let y := (mol.atomPos i).y
        let z := (mol.atomPos i).z
        let r2 := x * x + y * y + z * z
        if r2 > maxR2 then r2 else maxR2) 0.0 ∧
      (∀ i : Nat, i < n →
        (mol.atomPos i).x * (mol.atomPos i).x + (mol.atomPos i).y * (mol.atomPos i).y
            + (mol.atomPos i).z * (mol.atomPos i).z
          ≤ forLoop n (fun (maxR2 : α) i =>
            let x := (mol.atomPos i).x
            let y := (mol.atomPos i).y
            let z := (mol.atomPos i).z
            let r2 := x * x + y * y + z * z
            if r2 > maxR2 then r2 else maxR2) 0.0) ∧
      (forLoop n (fun (maxR2 : α) i =>
          let x := (mol.atomPos i).x
          let y := (mol.atomPos i).y
          let z := (mol.atomPos i).z
          let r2 := x * x + y * y + z * z
          if r2 > maxR2 then r2 else maxR2) 0.0 = 0 ∨
        ∃ i : Nat, i < n ∧
          forLoop n (fun (maxR2 : α) i =>
            let x := (mol.atomPos i).x
            let y := (mol.atomPos i).y
            let z := (mol.atomPos i).z
            let r2 := x * x + y * y + z * z
            if r2 > maxR2 then r2 else maxR2) 0.0
          = (mol.atomPos i).x * (mol.atomPos i).x + (mol.atomPos i).y * (mol.atomPos i).y
            + (mol.atomPos i).z * (mol.atomPos i).z) := by
  induction n with
  | zero =>
    simp only [forLoop_zero]
    norm_num
  | succ n ih =>
    obtain ⟨h0, hle, hex⟩ := ih
    rw [forLoop_succ]
    dsimp only
    split_ifs with hgt
    · refine ⟨le_trans h0 (le_of_lt hgt), ?_, Or.inr ⟨n, Nat.lt_succ_self n, rfl⟩⟩
      intro i hi
      rcases Nat.lt_succ_iff_lt_or_eq.mp hi with hi | rfl
      · exact le_trans (hle i hi) (le_of_lt hgt)
      · exact le_refl _
    · refine ⟨h0, ?_, ?_⟩
      · intro i hi
        rcases Nat.lt_succ_iff_lt_or_eq.mp hi with hi | rfl
        · exact hle i hi
        · exact not_lt.mp hgt
      · rcases hex with hex | ⟨i, hi, hex⟩
        · exact Or.inl hex
        · exact Or.inr ⟨i, Nat.lt_succ_of_lt hi, hex⟩

/-- C19: over the reals with the real square root, `compute_bounding_radius`
returns the largest Euclidean norm of a live atom when some live atom has norm
at least 0.001, and 1.0 when every live atom has norm below 0.001 (in
particular when there is no atom); the result is at least 0.001, so it is not
zero and the division `(minDim * 0.38) / radius` of `draw_molecule` has a
non-zero divisor. -/
theorem C19_bounding_radius (mol : MoleculeGeometry ℝ) :
    0.001 ≤ compute_bounding_radius Real.sqrt mol ∧
      compute_bounding_radius Real.sqrt mol ≠ 0 ∧
      ((∃ i : Int, 0 ≤ i ∧ i < mol.atomCount ∧
          0.001 ≤ Real.sqrt ((mol.atomPos i).x * (mol.atomPos i).x
            + (mol.atomPos i).y * (mol.atomPos i).y + (mol.atomPos i).z * (mol.atomPos i).z)) →
        (∀ i : Int, 0 ≤ i → i < mol.atomCount →
          Real.sqrt ((mol.atomPos i).x * (mol.atomPos i).x
            + (mol.atomPos i).y * (mol.atomPos i).y + (mol.atomPos i).z * (mol.atomPos i).z)
            ≤ compute_bounding_radius Real.sqrt mol) ∧
        (∃ i : Int, 0 ≤ i ∧ i < mol.atomCount ∧
          compute_bounding_radius Real.sqrt mol
            = Real.sqrt ((mol.atomPos i).x * (mol.atomPos i).x
              + (mol.atomPos i).y * (mol.atomPos i).y
              + (mol.atomPos i).z * (mol.atomPos i).z))) ∧
      ((∀ i : Int, 0 ≤ i → i < mol.atomCount →
          Real.sqrt ((mol.atomPos i).x * (mol.atomPos i).x
            + (mol.atomPos i).y * (mol.atomPos i).y + (mol.atomPos i).z * (mol.atomPos i).z)
            < 0.001) →
        compute_bounding_radius Real.sqrt mol = 1.0) := by
  obtain ⟨h0, hle, hex⟩ := maxR2_spec mol mol.atomCount.toNat
  unfold compute_bounding_radius
  dsimp only
  generalize forLoop mol.atomCount.toNat (fun (maxR2 : ℝ) i =>
    if (mol.atomPos i).x * (mol.atomPos i).x + (mol.atomPos i).y * (mol.atomPos i).y
        + (mol.atomPos i).z * (mol.atomPos i).z > maxR2 then
      (mol.atomPos i).x * (mol.atomPos i).x + (mol.atomPos i).y * (mol.atomPos i).y
        + (mol.atomPos i).z * (mol.atomPos i).z
    else maxR2) 0.0 = M at h0 hle hex
  have hlive : ∀ i : Int, 0 ≤ i → i < mol.atomCount →
      Real.sqrt ((mol.atomPos i).x * (mol.atomPos i).x
        + (mol.atomPos i).y * (mol.atomPos i).y + (mol.atomPos i).z * (mol.atomPos i).z)
        ≤ Real.sqrt M := by
    intro i hi0 hi
    obtain ⟨k, rfl⟩ := Int.eq_ofNat_of_zero_le hi0
    exact Real.sqrt_le_sqrt (hle k (by omega))
  have hatt : M = 0 ∨ ∃ i : Int, 0 ≤ i ∧ i < mol.atomCount ∧
      Real.sqrt M = Real.sqrt ((mol.atomPos i).x * (mol.atomPos i).x
        + (mol.atomPos i).y * (mol.atomPos i).y + (mol.atomPos i).z * (mol.atomPos i).z) := by
    rcases hex with hex | ⟨k, hk, hex⟩
    · exact Or.inl hex
    · exact Or.inr ⟨k, by omega, by omega, by rw [hex]⟩
  refine ⟨?_, ?_, ?_, ?_⟩
  · split_ifs with h
    · norm_num
    · exact not_lt.mp h
  · split_ifs with h
    · norm_num
    · have := not_lt.mp h
      intro hz
      rw [hz] at this
      norm_num at this
  · rintro ⟨i, hi0, hi, hbig⟩
    have hM : ¬ Real.sqrt M < 0.001 := not_lt.mpr (le_trans hbig (hlive i hi0 hi))
    rw [if_neg hM]
    refine ⟨hlive, ?_⟩
    rcases hatt with hz | hatt
    · exfalso
      rw [hz, Real.sqrt_zero] at hM
      norm_num at hM
    · exact hatt
  · intro hsmall
    have hM : Real.sqrt M < 0.001 := by
      rcases hatt with hz | ⟨i, hi0, hi, e⟩
      · rw [hz, Real.sqrt_zero]; norm_num
      · rw [e]; exact hsmall i hi0 hi
    rw [if_pos hM]

/-! ## Draw lists and emission: claims C12, C13 and C20 -/

theorem sort_bonds_sign (a b : BondDraw α) :
    (sort_bonds_far_to_near a b < 0 ↔ a.depth < b.depth) ∧
      (sort_bonds_far_to_near a b = 0 ↔ a.depth = b.depth) ∧
      (0 < sort_bonds_far_to_near a b ↔ b.depth < a.depth) := by
  unfold sort_bonds_far_to_near
  rcases lt_trichotomy a.depth b.depth with h | h | h
  · simp [h, not_lt_of_lt h, ne_of_lt h]
  · simp [h]
  · simp [h, not_lt_of_lt h, ne_of_gt h]

theorem sort_atoms_sign (a b : AtomDraw α) :
    (sort_atoms_far_to_near a b < 0 ↔ a.depth < b.depth) ∧
      (sort_atoms_far_to_near a b = 0 ↔ a.depth = b.depth) ∧
      (0 < sort_atoms_far_to_near a b ↔ b.depth < a.depth) := by
  unfold sort_atoms_far_to_near
  rcases lt_trichotomy a.depth b.depth with h | h | h
  · simp [h, not_lt_of_lt h, ne_of_lt h]
  · simp [h]
  · simp [h, not_lt_of_lt h, ne_of_gt h]

theorem sort_bonds_le (a b : BondDraw α) :
    sort_bonds_far_to_near a b ≤ 0 ↔ a.depth ≤ b.depth := by
  rw [← not_lt, (sort_bonds_sign a b).2.2, not_lt]

theorem sort_atoms_le (a b : AtomDraw α) :
    sort_atoms_far_to_near a b ≤ 0 ↔ a.depth ≤ b.depth := by
  rw [← not_lt, (sort_atoms_sign a b).2.2, not_lt]

theorem sort_bonds_consistent : ConsistentCompare (sort_bonds_far_to_near : BondDraw α → BondDraw α → Int) := by
  constructor
  · intro a b h
    rw [(sort_bonds_sign b a).1]
    exact (sort_bonds_sign a b).2.2.mp h
  · intro a b c h1 h2
    rw [sort_bonds_le] at h1 h2 ⊢
    exact le_trans h1 h2

theorem sort_atoms_consistent : ConsistentCompare (sort_atoms_far_to_near : AtomDraw α → AtomDraw α → Int) := by
  constructor
  · intro a b h
    rw [(sort_atoms_sign b a).1]
    exact (sort_atoms_sign a b).2.2.mp h
  · intro a b c h1 h2
    rw [sort_atoms_le] at h1 h2 ⊢
    exact le_trans h1 h2

theorem qsort_insertion_contract {β : Type} :
    QsortContract (qsort_insertion : (β → β → Int) → List β → List β) := by
  intro cmp l hc
  haveI : IsTotal β (fun a b => cmp a b ≤ 0) := ⟨fun a b => by
    by_cases h : cmp a b ≤ 0
    · exact Or.inl h
    · exact Or.inr (le_of_lt (hc.1 a b (not_le.mp h)))⟩
  haveI : IsTrans β (fun a b => cmp a b ≤ 0) := ⟨fun a b c => hc.2 a b c⟩
  exact ⟨List.perm_insertionSort _ l, List.sorted_insertionSort _ l⟩

/-- C12: with any `qsort` that meets the libc contract, `draw_molecule` builds
one draw entry per bond and one per atom, sorts the two lists separately, and
emits all bonds and then all atoms in the sorted order; each sorted list is a
rearrangement of the list built and is ascending in depth (every entry has a
depth at most that of every later entry, in particular of the next one); both
comparison functions return a negative, zero or positive value exactly when the
first depth is less than, equal to or greater than the second. -/
theorem C12_draw_lists_sorted_by_depth (cosf sinf sqrtf : α → α)
    (qsortB : (BondDraw α → BondDraw α → Int) → List (BondDraw α) → List (BondDraw α))
    (qsortA : (AtomDraw α → AtomDraw α → Int) → List (AtomDraw α) → List (AtomDraw α))
    (hB : QsortContract qsortB) (hA : QsortContract qsortA)
    (compound : Compound α) (mol : MoleculeGeometry α) (rect : RectI)
    (isSelected isWireframe : Bool) (timeSeconds : α) (view : ViewControl α)
    (autoRotateEnabled : Bool) :
    (build_bond_draws cosf sinf sqrtf compound mol rect isSelected timeSeconds view
        autoRotateEnabled).length = mol.bondCount.toNat ∧
      (build_atom_draws cosf sinf sqrtf compound mol rect isWireframe timeSeconds view
        autoRotateEnabled).length = mol.atomCount.toNat ∧
      List.Perm
        (qsortB sort_bonds_far_to_near (build_bond_draws cosf sinf sqrtf compound mol rect
          isSelected timeSeconds view autoRotateEnabled))
        (build_bond_draws cosf sinf sqrtf compound mol rect isSelected timeSeconds view
          autoRotateEnabled) ∧
      List.Pairwise (fun a b => a.depth ≤ b.depth)
        (qsortB sort_bonds_far_to_near (build_bond_draws cosf sinf sqrtf compound mol rect
          isSelected timeSeconds view autoRotateEnabled)) ∧
      List.Perm
        (qsortA sort_atoms_far_to_near (build_atom_draws cosf sinf sqrtf compound mol rect
          isWireframe timeSeconds view autoRotateEnabled))
        (build_atom_draws cosf sinf sqrtf compound mol rect isWireframe timeSeconds view
          autoRotateEnabled) ∧
      List.Pairwise (fun a b => a.depth ≤ b.depth)
        (qsortA sort_atoms_far_to_near (build_atom_draws cosf sinf sqrtf compound mol rect
          isWireframe timeSeconds view autoRotateEnabled)) ∧
      draw_molecule cosf sinf sqrtf qsortB qsortA compound mol rect isSelected isWireframe
          timeSeconds view autoRotateEnabled
        = [DrawCall.SDL_RenderSetClipRect (some ⟨rect.x, rect.y, rect.w, rect.h⟩),
            DrawCall.SDL_SetRenderDrawColor 16 16 20 255,
            DrawCall.SDL_RenderFillRect ⟨rect.x, rect.y, rect.w, rect.h⟩,
            (if isSelected then DrawCall.SDL_SetRenderDrawColor 240 240 255 255
              else DrawCall.SDL_SetRenderDrawColor 60 60 75 255),
            DrawCall.SDL_RenderDrawRect ⟨rect.x, rect.y, rect.w, rect.h⟩] ++
          (qsortB sort_bonds_far_to_near (build_bond_draws cosf sinf sqrtf compound mol rect
            isSelected timeSeconds view autoRotateEnabled)).flatMap (emit_bond isWireframe) ++
          (qsortA sort_atoms_far_to_near (build_atom_draws cosf sinf sqrtf compound mol rect
            isWireframe timeSeconds view autoRotateEnabled)).flatMap
              (emit_atom mol isSelected isWireframe) ++
          [DrawCall.SDL_RenderSetClipRect none] ∧
      (∀ a b : BondDraw α,
        (sort_bonds_far_to_near a b < 0 ↔ a.depth < b.depth) ∧
          (sort_bonds_far_to_near a b = 0 ↔ a.depth = b.depth) ∧
          (0 < sort_bonds_far_to_near a b ↔ b.depth < a.depth)) ∧
      (∀ a b : AtomDraw α,
        (sort_atoms_far_to_near a b < 0 ↔ a.depth < b.depth) ∧
          (sort_atoms_far_to_near a b = 0 ↔ a.depth = b.depth) ∧
          (0 < sort_atoms_far_to_near a b ↔ b.depth < a.depth)) := by
  obtain ⟨pB, sB⟩ := hB sort_bonds_far_to_near
    (build_bond_draws cosf sinf sqrtf compound mol rect isSelected timeSeconds view
      autoRotateEnabled) sort_bonds_consistent
  obtain ⟨pA, sA⟩ := hA sort_atoms_far_to_near
    (build_atom_draws cosf sinf sqrtf compound mol rect isWireframe timeSeconds view
      autoRotateEnabled) sort_atoms_consistent
  refine ⟨by simp [build_bond_draws], by simp [build_atom_draws], pB, ?_, pA, ?_, rfl,
    sort_bonds_sign, sort_atoms_sign⟩
  · exact sB.imp (fun h => (sort_bonds_le _ _).mp h)
  · exact sA.imp (fun h => (sort_atoms_le _ _).mp h)

/-- C12 with insertion sort as `qsort`, on the geometry with two atoms and one
bond, over the reals. -/
theorem C12_draw_lists_sorted_by_depth_witness :
    QsortContract (qsort_insertion : (BondDraw ℝ → BondDraw ℝ → Int) → _ → _) ∧
      QsortContract (qsort_insertion : (AtomDraw ℝ → AtomDraw ℝ → Int) → _ → _) ∧
      List.Perm
        (qsort_insertion sort_atoms_far_to_near (build_atom_draws Real.cos Real.sin Real.sqrt
          ⟨0xE74C3CFF, 0, 1⟩ twoAtomMolecule ⟨0, 0, 200, 100⟩ false 0 ⟨0, 0, 0, 0, 1⟩ false))
        (build_atom_draws Real.cos Real.sin Real.sqrt
          ⟨0xE74C3CFF, 0, 1⟩ twoAtomMolecule ⟨0, 0, 200, 100⟩ false 0 ⟨0, 0, 0, 0, 1⟩ false) ∧
      List.Pairwise (fun a b => a.depth ≤ b.depth)
        (qsort_insertion sort_atoms_far_to_near (build_atom_draws Real.cos Real.sin Real.sqrt
          ⟨0xE74C3CFF, 0, 1⟩ twoAtomMolecule ⟨0, 0, 200, 100⟩ false 0 ⟨0, 0, 0, 0, 1⟩ false)) :=
  have h := C12_draw_lists_sorted_by_depth Real.cos Real.sin Real.sqrt qsort_insertion
    qsort_insertion qsort_insertion_contract qsort_insertion_contract ⟨0xE74C3CFF, 0, 1⟩
    twoAtomMolecule ⟨0, 0, 200, 100⟩ false false 0 ⟨0, 0, 0, 0, 1⟩ false
  ⟨qsort_insertion_contract, qsort_insertion_contract, h.2.2.2.2.1, h.2.2.2.2.2.1⟩

/-- C13 fails on the code: for the geometry with atom 0 at `(0, 0, 5)` and atom 1
at `(0, 0, 0)`, viewed with yaw 0 and pitch 0, the sorted atom list of
`draw_molecule` holds atom 1 (depth 0) before atom 0 (depth 5), although atom 0
is the farther one: its `z` is larger and its perspective factor `900/(900+z)`
is smaller.  The comparison function answers -1 for (depth 0, depth 5). -/
theorem C13_nearest_entry_emitted_first :
    (qsort_insertion sort_atoms_far_to_near
        (build_atom_draws Real.cos Real.sin Real.sqrt ⟨0xE74C3CFF, 0, 1⟩ twoAtomMolecule
          ⟨0, 0, 200, 100⟩ false 0 ⟨0, 0, 0, 0, 1⟩ false)).map
        (fun ad => (ad.atomIndex, ad.depth)) = [(1, 0), (0, 5)] ∧
      (900 / (900 + 5) : ℝ) < 900 / (900 + 0) ∧
      sort_atoms_far_to_near (⟨1, 0, 0, 0, 7, 0⟩ : AtomDraw ℝ) ⟨0, 5, 0, 0, 5, 0⟩ = -1 := by
  refine ⟨?_, by norm_num, ?_⟩
  · have e : (2 : Int).toNat = 2 := rfl
    have z : (0.0 : ℝ) = 0 := by norm_num
    simp [z, build_atom_draws, twoAtomMolecule, e, projected, rotate_yaw_pitch, make_vec3,
      project_to_screen, qsort_insertion, List.range_succ, sort_atoms_far_to_near]
    norm_num
  · simp [sort_atoms_far_to_near]

/-- C20 as stated fails: in wireframe mode a bond of order 2 emits three strokes,
not four; the stroke on the offset path is a single bright one and no dark
stroke is drawn there. -/
theorem C20_wireframe_bond_strokes_counterexample :
    ((emit_bond true (⟨10, 20, 30, 40, 0, 2, 0xE74C3CFF, 230⟩ : BondDraw ℚ)).filter
        DrawCall.isStroke)
      = [DrawCall.draw_thick_line 10 20 30 40 4, DrawCall.draw_thick_line 10 20 30 40 2,
          DrawCall.draw_thick_line 12 18 32 38 2] ∧
      ((emit_bond true (⟨10, 20, 30, 40, 0, 2, 0xE74C3CFF, 230⟩ : BondDraw ℚ)).filter
        DrawCall.isStroke).length ≠ 4 := by
  constructor
  · simp [emit_bond, set_draw_color, DrawCall.isStroke]
  · simp [emit_bond, set_draw_color, DrawCall.isStroke]

/-- C20 amended: in wireframe mode `draw_molecule` emits the sorted bond entries
one after the other, and for each entry a stroke of thickness 4 in the colour
`darken(color, 0.55)` followed by a stroke of thickness 2 (thinner) in the colour
`lighten(color, 0.20)` on the same path, and for an entry with order 2 one more
stroke of thickness 2 in the same bright colour on the path shifted by
`(+2, -2)`; so a bond of order 2 emits three strokes and any other bond two.
Both thicknesses pass the clamp of `draw_thick_line` unchanged. -/
theorem C20_wireframe_bond_strokes (cosf sinf sqrtf : α → α)
    (qsortB : (BondDraw α → BondDraw α → Int) → List (BondDraw α) → List (BondDraw α))
    (qsortA : (AtomDraw α → AtomDraw α → Int) → List (AtomDraw α) → List (AtomDraw α))
    (compound : Compound α) (mol : MoleculeGeometry α) (rect : RectI)
    (isSelected : Bool) (timeSeconds : α) (view : ViewControl α) (autoRotateEnabled : Bool)
    (bd : BondDraw α) :
    emit_bond true bd
        = [DrawCall.SDL_SetRenderDrawColor (color_r (darken bd.color (0.55 : α)))
              (color_g (darken bd.color (0.55 : α))) (color_b (darken bd.color (0.55 : α)))
              bd.alpha,
            DrawCall.draw_thick_line bd.x1 bd.y1 bd.x2 bd.y2 4,
            DrawCall.SDL_SetRenderDrawColor (color_r (lighten bd.color (0.20 : α)))
              (color_g (lighten bd.color (0.20 : α))) (color_b (lighten bd.color (0.20 : α)))
              bd.alpha,
            DrawCall.draw_thick_line bd.x1 bd.y1 bd.x2 bd.y2 2] ++
          (if bd.order = 2 then
            [DrawCall.SDL_SetRenderDrawColor (color_r (lighten bd.color (0.20 : α)))
                (color_g (lighten bd.color (0.20 : α))) (color_b (lighten bd.color (0.20 : α)))
                bd.alpha,
              DrawCall.draw_thick_line (bd.x1 + 2) (bd.y1 - 2) (bd.x2 + 2) (bd.y2 - 2) 2]
          else []) ∧
      ((emit_bond true bd).filter DrawCall.isStroke).length = (if bd.order = 2 then 3 else 2) ∧
      thick_line_width 4 = 4 ∧ thick_line_width 2 = 2 ∧
      ((draw_molecule cosf sinf sqrtf qsortB qsortA compound mol rect isSelected true
          timeSeconds view autoRotateEnabled).filter DrawCall.isStroke)
        = ((qsortB sort_bonds_far_to_near (build_bond_draws cosf sinf sqrtf compound mol rect
            isSelected timeSeconds view autoRotateEnabled)).flatMap
              (emit_bond true)).filter DrawCall.isStroke := by
  have hatom : ∀ ad : AtomDraw α,
      (emit_atom mol isSelected true ad).filter DrawCall.isStroke = [] := by
    intro ad
    simp [emit_atom, set_draw_color, DrawCall.isStroke]
  refine ⟨?_, ?_, by decide, by decide, ?_⟩
  · simp only [emit_bond, set_draw_color, if_true, List.append_assoc, List.cons_append,
      List.nil_append, List.singleton_append]
  · by_cases h2 : bd.order = 2 <;>
      simp [emit_bond, set_draw_color, DrawCall.isStroke, h2]
  · simp only [draw_molecule, List.filter_append, List.filter_cons, List.filter_nil,
      DrawCall.isStroke]
    have hflat : ((qsortA sort_atoms_far_to_near (build_atom_draws cosf sinf sqrtf compound
        mol rect true timeSeconds view autoRotateEnabled)).flatMap
          (emit_atom mol isSelected true)).filter DrawCall.isStroke = [] := by
      generalize qsortA sort_atoms_far_to_near (build_atom_draws cosf sinf sqrtf compound
        mol rect true timeSeconds view autoRotateEnabled) = l
      induction l with
      | nil => rfl
      | cons a l ih => simp [List.flatMap_cons, List.filter_append, hatom a, ih]
    rw [hflat]
    cases isSelected <;> simp [DrawCall.isStroke]

/-! ## `clampf` -/

/-- A value inside the interval is returned unchanged by `clampf`. -/
theorem clampf_of_mem (v lo hi : α) (h1 : lo ≤ v) (h2 : v ≤ hi) : clampf v lo hi = v := by
  simp [clampf, not_lt.mpr h1, not_lt.mpr h2]

/-- C30: for `lo ≤ hi`, `clampf v lo hi` is `lo` when `v < lo`, `hi` when
`v > hi` and `v` otherwise; the result lies in `[lo, hi]`; clamping twice is
clamping once; and the three values of `test_clampf` are as the test expects. -/
theorem C30_clampf (v lo hi : α) (h : lo ≤ hi) :
    (v < lo → clampf v lo hi = lo) ∧
      (v > hi → clampf v lo hi = hi) ∧
      (lo ≤ v → v ≤ hi → clampf v lo hi = v) ∧
      lo ≤ clampf v lo hi ∧ clampf v lo hi ≤ hi ∧
      clampf (clampf v lo hi) lo hi = clampf v lo hi ∧
      clampf (5.0 : α) 0.0 10.0 = 5.0 ∧ clampf (-2.0 : α) 0.0 10.0 = 0.0 ∧
      clampf (99.0 : α) 0.0 10.0 = 10.0 := by
  refine ⟨?_, ?_, ?_, ?_, ?_, ?_, ?_, ?_, ?_⟩
  · intro h1
    simp [clampf, h1]
  · intro h1
    have h2 : ¬ v < lo := not_lt.mpr (le_trans h (le_of_lt h1))
    simp [clampf, h1, h2]
  · exact clampf_of_mem v lo hi
  · exact (clampf_mem v lo hi h).1
  · exact (clampf_mem v lo hi h).2
  · exact clampf_of_mem _ lo hi (clampf_mem v lo hi h).1 (clampf_mem v lo hi h).2
  · unfold clampf
    norm_num
  · unfold clampf
    norm_num
  · unfold clampf
    norm_num

/-- C30 at the first input of `test_clampf`. -/
theorem C30_clampf_witness :
    (0 : ℝ) ≤ 10 ∧ clampf (5 : ℝ) 0 10 = 5 :=
  ⟨by norm_num, (C30_clampf (5 : ℝ) 0 10 (by norm_num)).2.2.1 (by norm_num) (by norm_num)⟩

/-! ## Rotation and the bounding radius -/

/-- The rotation keeps the sum of the squares of the coordinates, for any pair
`cosf`, `sinf` with `cosf t ^ 2 + sinf t ^ 2 = 1`. -/
theorem rotate_norm_sq (cosf sinf : α → α) (hcs : ∀ t, cosf t ^ 2 + sinf t ^ 2 = 1)
    (p : Vec3 α) (yaw pitch : α) :
    (rotate_yaw_pitch cosf sinf p yaw pitch).x ^ 2 + (rotate_yaw_pitch cosf sinf p yaw pitch).y ^ 2
      + (rotate_yaw_pitch cosf sinf p yaw pitch).z ^ 2 = p.x ^ 2 + p.y ^ 2 + p.z ^ 2 := by
  have hy := hcs yaw
  have hp := hcs pitch
  simp only [rotate_yaw_pitch, make_vec3]
  linear_combination (p.y ^ 2 + (-sinf yaw * p.x + cosf yaw * p.z) ^ 2) * hp
    + (p.x ^ 2 + p.z ^ 2) * hy

/-- The points that `draw_molecule` projects stay clear of the zero divisor: for
a geometry built by `apply_preset` (real cosine and sine), every live atom, and
all angles, the rotated atom has `900 + z > 0`, so `project_to_screen_checked`
returns the pixel of `project_to_screen`. -/
theorem rotated_atom_divisor_pos (m : MoleculeGeometry ℝ) (presetType : Int) (i : Int)
    (hi0 : 0 ≤ i) (hi : i < (apply_preset Real.cos Real.sin m presetType).atomCount)
    (yaw pitch zoom : ℝ) (centerX centerY : Int) :
    0 < 900 + (rotate_yaw_pitch Real.cos Real.sin
        ((apply_preset Real.cos Real.sin m presetType).atomPos i) yaw pitch).z ∧
      project_to_screen_checked (rotate_yaw_pitch Real.cos Real.sin
          ((apply_preset Real.cos Real.sin m presetType).atomPos i) yaw pitch)
          zoom centerX centerY
        = some (project_to_screen (rotate_yaw_pitch Real.cos Real.sin
          ((apply_preset Real.cos Real.sin m presetType).atomPos i) yaw pitch)
          zoom centerX centerY) := by
  obtain ⟨he, _⟩ := apply_preset_rep Real.cos Real.sin m presetType
  have hbox := presetL_box Real.cos Real.sin Real.abs_cos_le_one Real.abs_sin_le_one presetType
  have hpos : 0 < 900 + (rotate_yaw_pitch Real.cos Real.sin
      ((apply_preset Real.cos Real.sin m presetType).atomPos i) yaw pitch).z := by
    rw [he] at hi ⊢
    obtain ⟨e, hmem⟩ := ofLists_live_atom _ m i hi0 hi
    obtain ⟨hx, hy, hz⟩ := hbox _ hmem
    have e1 := congrArg Prod.fst e
    simp only at e1
    rw [e1]
    generalize ((presetL Real.cos Real.sin presetType).atoms.getD i.toNat (⟨0, 0, 0⟩, 0)).1 = p
      at hx hy hz
    have hn := rotate_norm_sq Real.cos Real.sin Real.cos_sq_add_sin_sq p yaw pitch
    generalize rotate_yaw_pitch Real.cos Real.sin p yaw pitch = q at hn
    rw [abs_le] at hx hy hz
    have bx : p.x ^ 2 ≤ 57 ^ 2 := by nlinarith
    have bz : p.z ^ 2 ≤ 57 ^ 2 := by nlinarith
    have bw : p.y ^ 2 ≤ 57 ^ 2 := by nlinarith
    nlinarith [sq_nonneg q.x, sq_nonneg q.y, sq_nonneg (q.z + 900), sq_nonneg (q.z - 900)]
  refine ⟨hpos, ?_⟩
  unfold project_to_screen_checked
  rw [if_neg (ne_of_gt hpos)]

/-- C28: over the reals, with the real cosine and sine, `rotate_yaw_pitch`
keeps `x^2 + y^2 + z^2`; hence the Euclidean norm of every rotated live atom is
at most `compute_bounding_radius` of the geometry, for all angles. -/
theorem C28_rotation_preserves_norm :
    (∀ (p : Vec3 ℝ) (yaw pitch : ℝ),
        (rotate_yaw_pitch Real.cos Real.sin p yaw pitch).x ^ 2
          + (rotate_yaw_pitch Real.cos Real.sin p yaw pitch).y ^ 2
          + (rotate_yaw_pitch Real.cos Real.sin p yaw pitch).z ^ 2
          = p.x ^ 2 + p.y ^ 2 + p.z ^ 2) ∧
      (∀ (mol : MoleculeGeometry ℝ) (yaw pitch : ℝ) (i : Int), 0 ≤ i → i < mol.atomCount →
        Real.sqrt ((rotate_yaw_pitch Real.cos Real.sin (mol.atomPos i) yaw pitch).x ^ 2
          + (rotate_yaw_pitch Real.cos Real.sin (mol.atomPos i) yaw pitch).y ^ 2
          + (rotate_yaw_pitch Real.cos Real.sin (mol.atomPos i) yaw pitch).z ^ 2)
          ≤ compute_bounding_radius Real.sqrt mol) := by
  have hcs : ∀ t : ℝ, Real.cos t ^ 2 + Real.sin t ^ 2 = 1 := Real.cos_sq_add_sin_sq
  refine ⟨fun p yaw pitch => rotate_norm_sq Real.cos Real.sin hcs p yaw pitch, ?_⟩
  intro mol yaw pitch i hi0 hi
  rw [rotate_norm_sq Real.cos Real.sin hcs]
  obtain ⟨h0, hle, -⟩ := maxR2_spec mol mol.atomCount.toNat
  obtain ⟨k, rfl⟩ := Int.eq_ofNat_of_zero_le hi0
  have hk := hle k (by omega)
  unfold compute_bounding_radius
  dsimp only at hk ⊢
  have hs : Real.sqrt ((mol.atomPos k).x ^ 2 + (mol.atomPos k).y ^ 2 + (mol.atomPos k).z ^ 2)
      ≤ Real.sqrt (forLoop mol.atomCount.toNat (fun (maxR2 : ℝ) i =>
        if (mol.atomPos i).x * (mol.atomPos i).x + (mol.atomPos i).y * (mol.atomPos i).y
            + (mol.atomPos i).z * (mol.atomPos i).z > maxR2 then
          (mol.atomPos i).x * (mol.atomPos i).x + (mol.atomPos i).y * (mol.atomPos i).y
            + (mol.atomPos i).z * (mol.atomPos i).z
        else maxR2) 0.0) := by
    apply Real.sqrt_le_sqrt
    have e : (mol.atomPos k).x ^ 2 + (mol.atomPos k).y ^ 2 + (mol.atomPos k).z ^ 2
        = (mol.atomPos k).x * (mol.atomPos k).x + (mol.atomPos k).y * (mol.atomPos k).y
          + (mol.atomPos k).z * (mol.atomPos k).z := by ring
    rw [e]
    exact hk
  split_ifs with hr
  · have : (0.001 : ℝ) ≤ 1.0 := by norm_num
    linarith
  · exact hs

/-! ## Grid selection -/

/-- The selected index after a key event, by key: only the four arrow keys
change it, and only while `isFocused` is false. -/
theorem on_keydown_selectedIndex (s : MainState α) (key : Keycode) :
    (on_keydown s key).selectedIndex =
      if s.isFocused = true then s.selectedIndex
      else if key = Keycode.SDLK_LEFT then
        (if s.selectedIndex.tmod GRID_COLS = 0 then s.selectedIndex else s.selectedIndex - 1)
      else if key = Keycode.SDLK_RIGHT then
        (if s.selectedIndex.tmod GRID_COLS = GRID_COLS - 1 then s.selectedIndex
          else s.selectedIndex + 1)
      else if key = Keycode.SDLK_UP then
        (if s.selectedIndex - GRID_COLS ≥ 0 then s.selectedIndex - GRID_COLS else s.selectedIndex)
      else if key = Keycode.SDLK_DOWN then
        (if s.selectedIndex + GRID_COLS < COMPOUND_COUNT then s.selectedIndex + GRID_COLS
          else s.selectedIndex)
      else s.selectedIndex := by
  cases key <;> simp only [on_keydown, reduceCtorEq, if_false, if_true] <;>
    cases s.isFocused <;> simp

/-- One key event keeps the selected index inside the grid. -/
theorem on_keydown_selected_valid (s : MainState α) (key : Keycode)
    (h : 0 ≤ s.selectedIndex ∧ s.selectedIndex < 20) :
    0 ≤ (on_keydown s key).selectedIndex ∧ (on_keydown s key).selectedIndex < 20 := by
  rw [on_keydown_selectedIndex]
  have e := Int.tmod_eq_emod h.1 (show (0 : Int) ≤ 5 by decide)
  simp only [GRID_COLS, COMPOUND_COUNT] at e ⊢
  simp only [e]
  split_ifs <;> omega

/-- One event keeps the selected index inside the grid. -/
theorem handle_event_selected_valid (s : MainState α) (e : SDL_Event)
    (h : 0 ≤ s.selectedIndex ∧ s.selectedIndex < 20) :
    0 ≤ (handle_event s e).selectedIndex ∧ (handle_event s e).selectedIndex < 20 := by
  cases e with
  | SDL_QUIT => exact h
  | SDL_KEYDOWN key => exact on_keydown_selected_valid s key h
  | SDL_MOUSEBUTTONDOWN button x y =>
    cases button <;> exact h
  | SDL_MOUSEBUTTONUP button =>
    cases button <;> exact h
  | SDL_MOUSEMOTION x y =>
    simp only [handle_event, on_mousemotion]
    split_ifs <;> exact h
  | SDL_MOUSEWHEEL y => exact h
  | other => exact h

/-- Any list of events keeps the selected index inside the grid. -/
theorem handle_events_selected_valid (events : List SDL_Event) (s : MainState α)
    (h : 0 ≤ s.selectedIndex ∧ s.selectedIndex < 20) :
    0 ≤ (handle_events s events).selectedIndex ∧ (handle_events s events).selectedIndex < 20 := by
  induction events generalizing s with
  | nil => exact h
  | cons e es ih => exact ih (handle_event s e) (handle_event_selected_valid s e h)

/-- C29: from the state in which `main` enters its loop (`selectedIndex = 0`),
after any finite sequence of events (the four arrow keys among them) the
selected index is at least 0 and below `COMPOUND_COUNT` = 20; in such a state a
LEFT or RIGHT key leaves the row `selectedIndex / GRID_COLS` unchanged and an UP
or DOWN key leaves the column `selectedIndex % GRID_COLS` unchanged (`/` and `%`
of C, with `GRID_COLS` = 5). -/
theorem C29_grid_selection_valid (garbage : Int → ViewControl α) (events : List SDL_Event) :
    (main_init garbage).selectedIndex = 0 ∧
      0 ≤ (handle_events (main_init garbage) events).selectedIndex ∧
      (handle_events (main_init garbage) events).selectedIndex < COMPOUND_COUNT ∧
      (handle_event (handle_events (main_init garbage) events)
          (SDL_Event.SDL_KEYDOWN Keycode.SDLK_LEFT)).selectedIndex.tdiv GRID_COLS
        = (handle_events (main_init garbage) events).selectedIndex.tdiv GRID_COLS ∧
      (handle_event (handle_events (main_init garbage) events)
          (SDL_Event.SDL_KEYDOWN Keycode.SDLK_RIGHT)).selectedIndex.tdiv GRID_COLS
        = (handle_events (main_init garbage) events).selectedIndex.tdiv GRID_COLS ∧
      (handle_event (handle_events (main_init garbage) events)
          (SDL_Event.SDL_KEYDOWN Keycode.SDLK_UP)).selectedIndex.tmod GRID_COLS
        = (handle_events (main_init garbage) events).selectedIndex.tmod GRID_COLS ∧
      (handle_event (handle_events (main_init garbage) events)
          (SDL_Event.SDL_KEYDOWN Keycode.SDLK_DOWN)).selectedIndex.tmod GRID_COLS
        = (handle_events (main_init garbage) events).selectedIndex.tmod GRID_COLS := by
  have h := handle_events_selected_valid events (main_init garbage)
    (show 0 ≤ (0 : Int) ∧ (0 : Int) < 20 from ⟨le_refl 0, by decide⟩)
  generalize handle_events (main_init garbage) events = s at h
  have five : (0 : Int) ≤ 5 := by decide
  have hL := on_keydown_selected_valid s Keycode.SDLK_LEFT h
  have hR := on_keydown_selected_valid s Keycode.SDLK_RIGHT h
  have hU := on_keydown_selected_valid s Keycode.SDLK_UP h
  have hD := on_keydown_selected_valid s Keycode.SDLK_DOWN h
  refine ⟨rfl, h.1, h.2, ?_, ?_, ?_, ?_⟩
  · show (on_keydown s Keycode.SDLK_LEFT).selectedIndex.tdiv GRID_COLS = _
    simp only [GRID_COLS]
    rw [Int.tdiv_eq_ediv hL.1 five, Int.tdiv_eq_ediv h.1 five]
    rw [on_keydown_selectedIndex]
    have e := Int.tmod_eq_emod h.1 five
    simp only [GRID_COLS, COMPOUND_COUNT, reduceCtorEq, if_false, if_true] at e ⊢
    simp only [e]
    split_ifs <;> omega
  · show (on_keydown s Keycode.SDLK_RIGHT).selectedIndex.tdiv GRID_COLS = _
    simp only [GRID_COLS]
    rw [Int.tdiv_eq_ediv hR.1 five, Int.tdiv_eq_ediv h.1 five]
    rw [on_keydown_selectedIndex]
    have e := Int.tmod_eq_emod h.1 five
    simp only [GRID_COLS, COMPOUND_COUNT, reduceCtorEq, if_false, if_true] at e ⊢
    simp only [e]
    split_ifs <;> omega
  · show (on_keydown s Keycode.SDLK_UP).selectedIndex.tmod GRID_COLS = _
    simp only [GRID_COLS]
    rw [Int.tmod_eq_emod hU.1 five, Int.tmod_eq_emod h.1 five]
    rw [on_keydown_selectedIndex]
    simp only [GRID_COLS, COMPOUND_COUNT, reduceCtorEq, if_false, if_true]
    split_ifs <;> omega
  · show (on_keydown s Keycode.SDLK_DOWN).selectedIndex.tmod GRID_COLS = _
    simp only [GRID_COLS]
    rw [Int.tmod_eq_emod hD.1 five, Int.tmod_eq_emod h.1 five]
    rw [on_keydown_selectedIndex]
    simp only [GRID_COLS, COMPOUND_COUNT, reduceCtorEq, if_false, if_true]
    split_ifs <;> omega

/-! ## Depth-scaled atom radius -/

/-- The list view of the buffer made from a list view is that list view. -/
theorem viewOf_ofLists (g : Contents α) (m : MoleculeGeometry α) : viewOf (ofLists g m) = g := by
  obtain ⟨as, bs⟩ := g
  have ha : (List.range as.length).map
      (fun (i : Nat) => ((ofLists ⟨as, bs⟩ m).atomPos i, (ofLists ⟨as, bs⟩ m).atomLabel i)) = as := by
    apply List.ext_getElem
    · simp
    · intro n h1 h2
      simp [ofLists, List.getD_eq_getElem?_getD, List.getElem?_eq_getElem h2]
  have hb : (List.range bs.length).map (fun (i : Nat) => (ofLists ⟨as, bs⟩ m).bonds i) = bs := by
    apply List.ext_getElem
    · simp
    · intro n h1 h2
      simp [ofLists, List.getD_eq_getElem?_getD, List.getElem?_eq_getElem h2]
  simp only [viewOf, ofLists_atomCount, ofLists_bondCount, Int.toNat_ofNat]
  rw [ha, hb]

/-- C24: `build_steroid_core` leaves exactly 22 atoms, all labelled carbon, and
exactly 28 bonds, all of order 1 with both ends among the 22 atoms.  With the
rings being atoms 0-5, 6-11, 12-16 and 17-21 (sizes 6, 6, 5, 5), the bonds with
both ends in one ring are exactly the bonds from atom `i` of the ring to atom
`(i + 1) mod N` of the ring, one for each of its `N` atoms; each of the three
pairs of consecutive rings is joined by exactly two bonds; and no bond joins
two rings that are not consecutive. -/
theorem C24_nucleus_structure (cosf sinf : α → α) (m : MoleculeGeometry α) :
    (build_steroid_core cosf sinf m).atomCount = 22 ∧
      (∀ i : Int, 0 ≤ i → i < 22 → (build_steroid_core cosf sinf m).atomLabel i = 0) ∧
      (build_steroid_core cosf sinf m).bondCount = 28 ∧
      (∀ b ∈ (viewOf (build_steroid_core cosf sinf m)).bonds,
        b.order = 1 ∧ 0 ≤ b.from_ ∧ b.from_ < 22 ∧ 0 ≤ b.to_ ∧ b.to_ < 22) ∧
      (∀ r ∈ [(0 : Int), 1, 2, 3],
        (viewOf (build_steroid_core cosf sinf m)).bonds.filter
            (fun b => decide (ringOf b.from_ = r ∧ ringOf b.to_ = r))
          = (List.range (ringSize r)).map (fun (i : Nat) =>
              (⟨ringBase r + i, ringBase r + ((i + 1) % ringSize r : Nat), 1⟩ : Bond))) ∧
      (∀ r ∈ [(0 : Int), 1, 2],
        ((viewOf (build_steroid_core cosf sinf m)).bonds.filter
            (fun b => decide ((ringOf b.from_ = r ∧ ringOf b.to_ = r + 1) ∨
              (ringOf b.from_ = r + 1 ∧ ringOf b.to_ = r)))).length = 2) ∧
      (∀ b ∈ (viewOf (build_steroid_core cosf sinf m)).bonds,
        ringOf b.to_ - ringOf b.from_ ≤ 1 ∧ ringOf b.from_ - ringOf b.to_ ≤ 1) := by
  rw [core_eq, viewOf_ofLists]
  refine ⟨?_, ?_, ?_, ?_, ?_, ?_, ?_⟩
  · simp [ofLists, coreAtoms_length]
  · intro i h0 h1
    have h := ofLists_live_atom ⟨coreAtoms cosf sinf, coreBonds⟩ m i h0
      (by simp only [coreAtoms_length]; exact_mod_cast h1)
    have hl := coreAtoms_label cosf sinf _ h.2
    have := congrArg Prod.snd h.1
    simp only at this
    rw [this]
    exact hl
  · rfl
  · show ∀ b ∈ coreBonds, _
    decide
  · show ∀ r ∈ [(0 : Int), 1, 2, 3], coreBonds.filter _ = _
    decide
  · show ∀ r ∈ [(0 : Int), 1, 2], (coreBonds.filter _).length = 2
    decide
  · show ∀ b ∈ coreBonds, _
    decide

/-! ## Bond-order promotion -/

/-- The geometry before the first test of `presetType` is the list view
`commonL`: 24 atoms and 30 bonds. -/
theorem apply_preset_common_rep (cosf sinf : α → α) (m : MoleculeGeometry α) :
    Rep m (apply_preset_common cosf sinf m) (commonL cosf sinf) 24 30 := by
  unfold apply_preset_common commonL
  exact Rep_subst 23 29 (Rep_subst 22 28 (Rep_core cosf sinf m) (by decide) (by decide)
    (by decide)) (by decide) (by decide) (by decide)

theorem commonL_lengths (cosf sinf : α → α) :
    (commonL cosf sinf).atoms.length = 24 ∧ (commonL cosf sinf).bonds.length = 30 := by
  simp [commonL, L_subst, coreAtoms_length, coreBonds]

theorem apply_preset_common_counts (cosf sinf : α → α) (m : MoleculeGeometry α) :
    (apply_preset_common cosf sinf m).atomCount = 24 ∧
      (apply_preset_common cosf sinf m).bondCount = 30 := by
  rw [(apply_preset_common_rep cosf sinf m).1]
  simp [ofLists, commonL_lengths]

/-- The bonds of the geometry before the first test of `presetType`, below
position 28, are the bonds of the nucleus. -/
theorem apply_preset_common_bond (cosf sinf : α → α) (m : MoleculeGeometry α) (n : Nat)
    (h : n < 28) :
    (apply_preset_common cosf sinf m).bonds (n : Int) = coreBonds.getD n ⟨0, 0, 0⟩ := by
  rw [(apply_preset_common_rep cosf sinf m).1]
  have hn : n < coreBonds.length := by simpa [coreBonds] using h
  simp [ofLists, commonL, L_subst, List.getD_eq_getElem?_getD, List.getElem?_append_left hn,
    List.getElem?_eq_getElem hn]

theorem set_bond_order_bondCount (mol : MoleculeGeometry α) (k o : Int) :
    (set_bond_order mol k o).bondCount = mol.bondCount := rfl

theorem set_bond_order_bonds (mol : MoleculeGeometry α) (k o j : Int) :
    (set_bond_order mol k o).bonds j
      = if j = k then { mol.bonds k with order := o } else mol.bonds j := rfl

/-- Preset 3 is the common geometry with the order of bonds 3, 8 and 12 set
to 2. -/
theorem apply_preset_three (cosf sinf : α → α) (m : MoleculeGeometry α) :
    apply_preset cosf sinf m 3
      = set_bond_order (set_bond_order (set_bond_order (apply_preset_common cosf sinf m) 3 2) 8 2)
          12 2 := by
  have hb := (apply_preset_common_counts cosf sinf m).2
  unfold apply_preset_common at hb ⊢
  unfold apply_preset
  simp only [Int.reduceEq, if_false, false_or, or_false, or_self, true_or, if_true, true_and,
    set_bond_order_bondCount, hb, gt_iff_lt, Int.reduceLT]

/-- Preset 5 is the common geometry with the order of bonds 3 and 8 set to 2. -/
theorem apply_preset_five (cosf sinf : α → α) (m : MoleculeGeometry α) :
    apply_preset cosf sinf m 5
      = set_bond_order (set_bond_order (apply_preset_common cosf sinf m) 3 2) 8 2 := by
  have hb := (apply_preset_common_counts cosf sinf m).2
  unfold apply_preset_common at hb ⊢
  unfold apply_preset
  simp only [Int.reduceEq, if_false, false_or, or_false, or_self, or_true, true_or, if_true,
    false_and, set_bond_order_bondCount, hb, gt_iff_lt, Int.reduceLT]

/-- C23: when `apply_preset` reaches the promotion block the geometry has 30
bonds, so both guards (`bondCount > 10`, `bondCount > 15`) hold and positions 3,
8 and 12 are below `bondCount`; the bonds there are the order-1 nucleus bonds
(3,4), (8,9) and (1,10).  Preset 3 is that geometry with the order of bonds 3, 8
and 12 set to 2, preset 5 with the order of bonds 3 and 8 set to 2: the
promoted bonds keep their endpoints and every other bond is as it was
created. -/
theorem C23_bond_order_promotion (cosf sinf : α → α) (m : MoleculeGeometry α) :
    (apply_preset_common cosf sinf m).bondCount = 30 ∧
      (apply_preset_common cosf sinf m).bonds 3 = ⟨3, 4, 1⟩ ∧
      (apply_preset_common cosf sinf m).bonds 8 = ⟨8, 9, 1⟩ ∧
      (apply_preset_common cosf sinf m).bonds 12 = ⟨1, 10, 1⟩ ∧
      apply_preset cosf sinf m 3
        = set_bond_order
            (set_bond_order (set_bond_order (apply_preset_common cosf sinf m) 3 2) 8 2) 12 2 ∧
      apply_preset cosf sinf m 5
        = set_bond_order (set_bond_order (apply_preset_common cosf sinf m) 3 2) 8 2 ∧
      (apply_preset cosf sinf m 3).bondCount = 30 ∧
      (apply_preset cosf sinf m 3).bonds 3 = ⟨3, 4, 2⟩ ∧
      (apply_preset cosf sinf m 3).bonds 8 = ⟨8, 9, 2⟩ ∧
      (apply_preset cosf sinf m 3).bonds 12 = ⟨1, 10, 2⟩ ∧
      (∀ i : Int, i ≠ 3 → i ≠ 8 → i ≠ 12 →
        (apply_preset cosf sinf m 3).bonds i = (apply_preset_common cosf sinf m).bonds i) ∧
      (apply_preset cosf sinf m 5).bondCount = 30 ∧
      (apply_preset cosf sinf m 5).bonds 3 = ⟨3, 4, 2⟩ ∧
      (apply_preset cosf sinf m 5).bonds 8 = ⟨8, 9, 2⟩ ∧
      (∀ i : Int, i ≠ 3 → i ≠ 8 →
        (apply_preset cosf sinf m 5).bonds i = (apply_preset_common cosf sinf m).bonds i) := by
  have hb := (apply_preset_common_counts cosf sinf m).2
  have h3 : (apply_preset_common cosf sinf m).bonds 3 = ⟨3, 4, 1⟩ := by
    have h := apply_preset_common_bond cosf sinf m 3 (by decide)
    rw [show ((3 : Nat) : Int) = 3 from rfl] at h
    rw [h]
    rfl
  have h8 : (apply_preset_common cosf sinf m).bonds 8 = ⟨8, 9, 1⟩ := by
    have h := apply_preset_common_bond cosf sinf m 8 (by decide)
    rw [show ((8 : Nat) : Int) = 8 from rfl] at h
    rw [h]
    rfl
  have h12 : (apply_preset_common cosf sinf m).bonds 12 = ⟨1, 10, 1⟩ := by
    have h := apply_preset_common_bond cosf sinf m 12 (by decide)
    rw [show ((12 : Nat) : Int) = 12 from rfl] at h
    rw [h]
    rfl
  rw [apply_preset_three, apply_preset_five]
  refine ⟨hb, h3, h8, h12, rfl, rfl, ?_, ?_, ?_, ?_, ?_, ?_, ?_, ?_, ?_⟩
  · simp only [set_bond_order_bondCount, hb]
  · simp [set_bond_order_bonds, h3]
  · simp [set_bond_order_bonds, h8]
  · simp [set_bond_order_bonds, h12]
  · intro i i3 i8 i12
    simp [set_bond_order_bonds, i3, i8, i12]
  · simp only [set_bond_order_bondCount, hb]
  · simp [set_bond_order_bonds, h3]
  · simp [set_bond_order_bonds, h8]
  · intro i i3 i8
    simp [set_bond_order_bonds, i3, i8]

/-! ## Sizes by preset and the baseline -/

/-- The sizes of the list view for each preset of the catalog. -/
theorem presetL_counts (cosf sinf : α → α) (presetType : Int) (h0 : 0 ≤ presetType)
    (h1 : presetType ≤ 19) :
    (presetL cosf sinf presetType).atoms.length = 24 + preset_extra_atoms presetType ∧
      (presetL cosf sinf presetType).bonds.length = 30 + preset_extra_atoms presetType := by
  have hlen := coreAtoms_length cosf sinf
  interval_cases presetType <;>
    simp [presetL, L_subst, L_tail, L_setOrder, hlen, coreBonds, preset_extra_atoms]

/-- The counts of the built geometry for each preset of the catalog. -/
theorem apply_preset_counts (cosf sinf : α → α) (m : MoleculeGeometry α) (presetType : Int)
    (h0 : 0 ≤ presetType) (h1 : presetType ≤ 19) :
    (apply_preset cosf sinf m presetType).atomCount = 24 + preset_extra_atoms presetType ∧
      (apply_preset cosf sinf m presetType).bondCount = 30 + preset_extra_atoms presetType := by
  rw [(apply_preset_rep cosf sinf m presetType).1]
  have h := presetL_counts cosf sinf presetType h0 h1
  simp only [ofLists_atomCount, ofLists_bondCount, h.1, h.2]
  exact ⟨by push_cast; rfl, by push_cast; rfl⟩

/-- Preset 0 runs none of the preset-specific statements. -/
theorem apply_preset_zero (cosf sinf : α → α) (m : MoleculeGeometry α) :
    apply_preset cosf sinf m 0 = apply_preset_common cosf sinf m := by
  unfold apply_preset_common apply_preset
  simp only [Int.reduceEq, if_false, false_or, or_false, or_self, false_and]

theorem coreBonds_order : ∀ n : Nat, n < 28 → (coreBonds.getD n ⟨0, 0, 0⟩).order = 1 := by
  decide

/-- Among the presets of the catalog only preset 0 builds the baseline. -/
theorem baseline_iff (cosf sinf : α → α) (m : MoleculeGeometry α) (presetType : Int)
    (h0 : 0 ≤ presetType) (h1 : presetType ≤ 19) :
    IsBaseline (apply_preset cosf sinf m presetType) ↔ presetType = 0 := by
  constructor
  · rintro ⟨ha, -, ho⟩
    have hc := (apply_preset_counts cosf sinf m presetType h0 h1).1
    rw [ha] at hc
    have he : preset_extra_atoms presetType = 0 := by omega
    by_cases p3 : presetType = 3
    · exfalso
      subst p3
      have := ho 3 (by decide) (by decide)
      rw [apply_preset_three] at this
      simp [set_bond_order_bonds] at this
    by_cases p5 : presetType = 5
    · exfalso
      subst p5
      have := ho 3 (by decide) (by decide)
      rw [apply_preset_five] at this
      simp [set_bond_order_bonds] at this
    unfold preset_extra_atoms at he
    split_ifs at he <;> omega
  · rintro rfl
    rw [apply_preset_zero]
    refine ⟨(apply_preset_common_counts cosf sinf m).1, (apply_preset_common_counts cosf sinf m).2, ?_⟩
    intro i i0 i1
    obtain ⟨n, rfl⟩ := Int.eq_ofNat_of_zero_le i0
    have hn : n < 28 := by omega
    rw [apply_preset_common_bond cosf sinf m n hn]
    exact coreBonds_order n hn

/-- C26 as stated fails: no two distinct presets of the catalog both build the
baseline geometry (24 atoms, 30 bonds, no promoted nucleus bond); shown with
the real cosine and sine on the blank buffer. -/
theorem C26_baseline_counterexample :
    ¬ ∃ p q : Int, 0 ≤ p ∧ p ≤ 19 ∧ 0 ≤ q ∧ q ≤ 19 ∧ p ≠ q ∧
      IsBaseline (apply_preset Real.cos Real.sin blankMolecule p) ∧
      IsBaseline (apply_preset Real.cos Real.sin blankMolecule q) := by
  rintro ⟨p, q, p0, p1, q0, q1, hne, hp, hq⟩
  have e1 := (baseline_iff Real.cos Real.sin blankMolecule p p0 p1).mp hp
  have e2 := (baseline_iff Real.cos Real.sin blankMolecule q q0 q1).mp hq
  exact hne (e1.trans e2.symm)

/-- C26 amended: exactly one preset of the catalog, preset 0, builds the
baseline geometry: for every presetId in 0..19 the built geometry has 24 atoms,
30 bonds and every nucleus bond of order 1 if and only if the presetId is 0;
preset 0 builds exactly the geometry of the nucleus with the two common
substituents, and every preset from 1 to 19 adds an atom or promotes bond 3. -/
theorem C26_baseline_only_preset_zero (cosf sinf : α → α) (m : MoleculeGeometry α)
    (presetType : Int) (h0 : 0 ≤ presetType) (h1 : presetType ≤ 19) :
    (IsBaseline (apply_preset cosf sinf m presetType) ↔ presetType = 0) ∧
      apply_preset cosf sinf m 0 = apply_preset_common cosf sinf m ∧
      (presetType ≠ 0 →
        24 < (apply_preset cosf sinf m presetType).atomCount ∨
        ((apply_preset cosf sinf m presetType).bonds 3).order = 2) := by
  refine ⟨baseline_iff cosf sinf m presetType h0 h1, apply_preset_zero cosf sinf m, ?_⟩
  intro hne
  by_cases p3 : presetType = 3
  · right
    subst p3
    rw [apply_preset_three]
    simp [set_bond_order_bonds]
  by_cases p5 : presetType = 5
  · right
    subst p5
    rw [apply_preset_five]
    simp [set_bond_order_bonds]
  left
  rw [(apply_preset_counts cosf sinf m presetType h0 h1).1]
  have : 0 < preset_extra_atoms presetType := by
    unfold preset_extra_atoms
    split_ifs <;> omega
  omega

/-- C26 amended at preset 0 on the blank buffer. -/
theorem C26_baseline_only_preset_zero_witness :
    IsBaseline (apply_preset Real.cos Real.sin (blankMolecule : MoleculeGeometry ℝ) 0) :=
  (C26_baseline_only_preset_zero Real.cos Real.sin blankMolecule 0 (by decide) (by decide)).1.mpr rfl

/-! ## Labels of the preset-specific atoms -/

theorem ExtraLabelsL_subst_ite {S : Nat → Prop} {g : Contents α} {k : Int}
    {off : Vec3 α → Vec3 α} {l : Nat} {o : Int} {c : Prop} [Decidable c]
    (h : ExtraLabelsL S g) (hl : c → S l) :
    ExtraLabelsL S (if c then L_subst g k off l o else g) := by
  by_cases hc : c
  · simp only [hc, if_true]
    obtain ⟨h1, h2⟩ := h
    refine ⟨by simp [L_subst]; omega, ?_⟩
    intro a ha
    simp only [L_subst, List.drop_append_of_le_length h1, List.mem_append,
      List.mem_singleton] at ha
    rcases ha with ha | rfl
    · exact h2 a ha
    · exact hl hc
  · simp only [hc, if_false]
    exact h

theorem ExtraLabelsL_tail_ite {S : Nat → Prop} {g : Contents α} {a n : Int} {w : α}
    {c : Prop} [Decidable c] (h : ExtraLabelsL S g) (hl : S 0) :
    ExtraLabelsL S (if c then L_tail g a n w else g) := by
  by_cases hc : c
  · simp only [hc, if_true]
    obtain ⟨h1, h2⟩ := h
    refine ⟨by simp [L_tail]; omega, ?_⟩
    intro x hx
    simp only [L_tail, List.drop_append_of_le_length h1, List.mem_append, List.mem_map] at hx
    rcases hx with hx | ⟨i, -, rfl⟩
    · exact h2 x hx
    · exact hl
  · simp only [hc, if_false]
    exact h

theorem ExtraLabelsL_promote {S : Nat → Prop} {g : Contents α} (presetType : Int)
    (h : ExtraLabelsL S g) :
    ExtraLabelsL S
      (if presetType = 3 ∨ presetType = 5 then
        let g := if (g.bonds.length : Int) > 10 then L_setOrder (L_setOrder g 3 2) 8 2 else g
        if presetType = 3 ∧ (g.bonds.length : Int) > 15 then L_setOrder g 12 2 else g
      else g) := by
  dsimp only
  split_ifs <;> exact h

/-- The labels of the atoms from position 24 on in the list view: carbon,
nitrogen, chlorine or fluorine, and oxygen only for presets 7 and 9. -/
theorem presetL_extra_labels (cosf sinf : α → α) (presetType : Int) :
    ExtraLabelsL
      (fun l => l = 0 ∨ l = 2 ∨ l = 3 ∨ l = 4 ∨ (l = 1 ∧ (presetType = 7 ∨ presetType = 9)))
      (presetL cosf sinf presetType) := by
  unfold presetL
  refine ExtraLabelsL_subst_ite ?_ (fun _ => Or.inl rfl)
  refine ExtraLabelsL_subst_ite ?_ (fun _ => Or.inl rfl)
  refine ExtraLabelsL_subst_ite ?_ (fun hc => Or.inr (Or.inr (Or.inr (Or.inr ⟨rfl, hc⟩))))
  refine ExtraLabelsL_subst_ite ?_ (fun _ => Or.inr (Or.inr (Or.inr (Or.inl rfl))))
  refine ExtraLabelsL_subst_ite ?_ (fun _ => Or.inr (Or.inr (Or.inl rfl)))
  refine ExtraLabelsL_subst_ite ?_ (fun _ => Or.inr (Or.inl rfl))
  refine ExtraLabelsL_promote presetType ?_
  refine ExtraLabelsL_subst_ite ?_ (fun _ => Or.inl rfl)
  refine ExtraLabelsL_tail_ite ?_ (Or.inl rfl)
  refine ExtraLabelsL_tail_ite ?_ (Or.inl rfl)
  refine ExtraLabelsL_tail_ite ?_ (Or.inl rfl)
  refine ExtraLabelsL_tail_ite ?_ (Or.inl rfl)
  refine ⟨by simp [L_subst, coreAtoms_length], ?_⟩
  intro a ha
  rw [List.drop_eq_nil_of_le (by simp [L_subst, coreAtoms_length])] at ha
  exact absurd ha (List.not_mem_nil a)

/-- The label of an atom from position 24 on in the built geometry. -/
theorem apply_preset_extra_label (cosf sinf : α → α) (m : MoleculeGeometry α) (presetType : Int)
    (i : Int) (h24 : 24 ≤ i) (hi : i < (apply_preset cosf sinf m presetType).atomCount) :
    (apply_preset cosf sinf m presetType).atomLabel i = 0 ∨
      (apply_preset cosf sinf m presetType).atomLabel i = 2 ∨
      (apply_preset cosf sinf m presetType).atomLabel i = 3 ∨
      (apply_preset cosf sinf m presetType).atomLabel i = 4 ∨
      ((apply_preset cosf sinf m presetType).atomLabel i = 1 ∧
        (presetType = 7 ∨ presetType = 9)) := by
  have hrep := (apply_preset_rep cosf sinf m presetType).1
  rw [hrep] at hi ⊢
  obtain ⟨n, rfl⟩ := Int.eq_ofNat_of_zero_le (show (0 : Int) ≤ i by omega)
  have hn : n < (presetL cosf sinf presetType).atoms.length := by
    simpa [ofLists] using hi
  have h24n : 24 ≤ n := by omega
  have hget : (presetL cosf sinf presetType).atoms[n]?
      = some ((presetL cosf sinf presetType).atoms[n]) := List.getElem?_eq_getElem hn
  rw [(ofLists_atom_of_getElem? _ m n _ hget).2]
  have hmem : (presetL cosf sinf presetType).atoms[n]
      ∈ (presetL cosf sinf presetType).atoms.drop 24 := by
    rw [List.mem_iff_getElem]
    refine ⟨n - 24, by simp; omega, ?_⟩
    simp only [List.getElem_drop]
    congr 1
    omega
  exact (presetL_extra_labels cosf sinf presetType).2 _ hmem

/-- Preset 7 is the common geometry with one substituent at atom 10. -/
theorem apply_preset_seven (cosf sinf : α → α) (m : MoleculeGeometry α) :
    apply_preset cosf sinf m 7
      = add_substituent (apply_preset_common cosf sinf m) 10
          (fun b => make_vec3 (b.x + 0.2) (b.y + 1.1) (b.z - 0.4)) 1 1 := by
  unfold apply_preset_common apply_preset
  simp only [Int.reduceEq, if_false, false_or, or_false, or_self, true_or, if_true, false_and]

/-- Preset 9 is the common geometry with one substituent at atom 10. -/
theorem apply_preset_nine (cosf sinf : α → α) (m : MoleculeGeometry α) :
    apply_preset cosf sinf m 9
      = add_substituent (apply_preset_common cosf sinf m) 10
          (fun b => make_vec3 (b.x + 0.2) (b.y + 1.1) (b.z - 0.4)) 1 1 := by
  unfold apply_preset_common apply_preset
  simp only [Int.reduceEq, if_false, false_or, or_false, or_self, or_true, if_true, false_and]

/-- One substituent on the common geometry gives 25 atoms, and atom 24 has the
label of the substituent. -/
theorem common_subst_label (cosf sinf : α → α) (m : MoleculeGeometry α) (k : Int)
    (off : Vec3 α → Vec3 α) (l : Nat) (o : Int) (hk : 0 ≤ k ∧ k < 22)
    (ho : o = 1 ∨ o = 2 ∨ o = 3) :
    (add_substituent (apply_preset_common cosf sinf m) k off l o).atomCount = 25 ∧
      (add_substituent (apply_preset_common cosf sinf m) k off l o).atomLabel 24 = l := by
  have h : Rep m (add_substituent (apply_preset_common cosf sinf m) k off l o)
      (L_subst (commonL cosf sinf) k off l o) 25 31 :=
    Rep_subst 24 30 (apply_preset_common_rep cosf sinf m) hk ho (by decide)
  have hl := (commonL_lengths cosf sinf).1
  rw [h.1]
  refine ⟨by simp [ofLists, L_subst, hl], ?_⟩
  have hget : (L_subst (commonL cosf sinf) k off l o).atoms[24]?
      = some (off (atomAt (commonL cosf sinf).atoms k), l) := by
    simp only [L_subst]
    rw [List.getElem?_append_right (by omega)]
    simp [hl]
  exact (ofLists_atom_of_getElem? _ m 24 _ hget).2

/-- Presets 7 and 9 put one atom beyond the common geometry, atom 24, and it is
labelled oxygen. -/
theorem apply_preset_seven_nine (cosf sinf : α → α) (m : MoleculeGeometry α) :
    (apply_preset cosf sinf m 7).atomCount = 25 ∧ (apply_preset cosf sinf m 7).atomLabel 24 = 1 ∧
      (apply_preset cosf sinf m 9).atomCount = 25 ∧
      (apply_preset cosf sinf m 9).atomLabel 24 = 1 := by
  rw [apply_preset_seven, apply_preset_nine]
  have h := common_subst_label cosf sinf m 10
    (fun b => make_vec3 (b.x + 0.2) (b.y + 1.1) (b.z - 0.4)) 1 1 (by decide) (by decide)
  exact ⟨h.1, h.2, h.1, h.2⟩

/-- C21 as stated fails at presetId 7 (and likewise at 9): the built geometry has
25 atoms and atom 24, added by the preset-specific statements, is labelled
oxygen (label 1), which is none of 0, 2, 3, 4. -/
theorem C21_extra_labels_counterexample :
    (apply_preset Real.cos Real.sin (blankMolecule : MoleculeGeometry ℝ) 7).atomCount = 25 ∧
      (apply_preset Real.cos Real.sin (blankMolecule : MoleculeGeometry ℝ) 7).atomLabel 24 = 1 ∧
      ¬ (∀ presetId : Int, 0 ≤ presetId → presetId ≤ 19 → ∀ i : Int, 24 ≤ i →
        i < (apply_preset Real.cos Real.sin (blankMolecule : MoleculeGeometry ℝ) presetId).atomCount →
        (apply_preset Real.cos Real.sin (blankMolecule : MoleculeGeometry ℝ) presetId).atomLabel i = 0 ∨
        (apply_preset Real.cos Real.sin (blankMolecule : MoleculeGeometry ℝ) presetId).atomLabel i = 2 ∨
        (apply_preset Real.cos Real.sin (blankMolecule : MoleculeGeometry ℝ) presetId).atomLabel i = 3 ∨
        (apply_preset Real.cos Real.sin (blankMolecule : MoleculeGeometry ℝ) presetId).atomLabel i
          = 4) := by
  obtain ⟨h1, h2, -, -⟩ := apply_preset_seven_nine Real.cos Real.sin (blankMolecule : MoleculeGeometry ℝ)
  refine ⟨h1, h2, ?_⟩
  intro h
  have := h 7 (by decide) (by decide) 24 (le_refl _) (by rw [h1]; decide)
  rw [h2] at this
  omega

/-- C21 amended: for every presetId in 0..19, every atom of the built geometry
at an index from 24 on carries a carbon, nitrogen, chlorine or fluorine label
(0, 2, 3 or 4), except that for presetId 7 and 9 it may carry the oxygen label
(1); and for presetId 7 and 9 the one such atom, atom 24, is labelled oxygen. -/
theorem C21_extra_labels (cosf sinf : α → α) (m : MoleculeGeometry α) (presetId : Int)
    (h0 : 0 ≤ presetId) (h1 : presetId ≤ 19) (i : Int) (h24 : 24 ≤ i)
    (hi : i < (apply_preset cosf sinf m presetId).atomCount) :
    ((apply_preset cosf sinf m presetId).atomLabel i = 0 ∨
      (apply_preset cosf sinf m presetId).atomLabel i = 2 ∨
      (apply_preset cosf sinf m presetId).atomLabel i = 3 ∨
      (apply_preset cosf sinf m presetId).atomLabel i = 4 ∨
      ((apply_preset cosf sinf m presetId).atomLabel i = 1 ∧ (presetId = 7 ∨ presetId = 9))) ∧
    ((presetId = 7 ∨ presetId = 9) →
      (apply_preset cosf sinf m presetId).atomCount = 25 ∧
      (apply_preset cosf sinf m presetId).atomLabel 24 = 1) := by
  refine ⟨apply_preset_extra_label cosf sinf m presetId i h24 hi, ?_⟩
  obtain ⟨a1, a2, a3, a4⟩ := apply_preset_seven_nine cosf sinf m
  rintro (rfl | rfl)
  · exact ⟨a1, a2⟩
  · exact ⟨a3, a4⟩

/-- C21 amended at presetId 7 and atom 24 on the blank buffer. -/
theorem C21_extra_labels_witness :
    (apply_preset Real.cos Real.sin (blankMolecule : MoleculeGeometry ℝ) 7).atomLabel 24 = 1 :=
  ((C21_extra_labels Real.cos Real.sin (blankMolecule : MoleculeGeometry ℝ) 7 (by decide)
    (by decide) 24 (le_refl _)
    (by rw [(apply_preset_seven_nine Real.cos Real.sin blankMolecule).1]; decide)).2
    (Or.inl rfl)).2

/-! ## Connectivity -/

/-- Every atom of the nucleus is reached from atom 0 along nucleus bonds. -/
theorem coreBonds_connected (k : Nat) (hk : k < 22) :
    Relation.ReflTransGen (AdjL coreBonds) 0 (k : Int) := by
  have r0 : Relation.ReflTransGen (AdjL coreBonds) 0 (0 : Int) := Relation.ReflTransGen.refl
  have r1 : Relation.ReflTransGen (AdjL coreBonds) 0 (1 : Int) :=
    r0.tail ⟨⟨0, 1, 1⟩, by decide, Or.inl ⟨rfl, rfl⟩⟩
  have r2 : Relation.ReflTransGen (AdjL coreBonds) 0 (2 : Int) :=
    r1.tail ⟨⟨1, 2, 1⟩, by decide, Or.inl ⟨rfl, rfl⟩⟩
  have r3 : Relation.ReflTransGen (AdjL coreBonds) 0 (3 : Int) :=
    r2.tail ⟨⟨2, 3, 1⟩, by decide, Or.inl ⟨rfl, rfl⟩⟩
  have r4 : Relation.ReflTransGen (AdjL coreBonds) 0 (4 : Int) :=
    r3.tail ⟨⟨3, 4, 1⟩, by decide, Or.inl ⟨rfl, rfl⟩⟩
  have r5 : Relation.ReflTransGen (AdjL coreBonds) 0 (5 : Int) :=
    r4.tail ⟨⟨4, 5, 1⟩, by decide, Or.inl ⟨rfl, rfl⟩⟩
  have r10 : Relation.ReflTransGen (AdjL coreBonds) 0 (10 : Int) :=
    r1.tail ⟨⟨1, 10, 1⟩, by decide, Or.inl ⟨rfl, rfl⟩⟩
  have r11 : Relation.ReflTransGen (AdjL coreBonds) 0 (11 : Int) :=
    r10.tail ⟨⟨10, 11, 1⟩, by decide, Or.inl ⟨rfl, rfl⟩⟩
  have r6 : Relation.ReflTransGen (AdjL coreBonds) 0 (6 : Int) :=
    r11.tail ⟨⟨11, 6, 1⟩, by decide, Or.inl ⟨rfl, rfl⟩⟩
  have r7 : Relation.ReflTransGen (AdjL coreBonds) 0 (7 : Int) :=
    r6.tail ⟨⟨6, 7, 1⟩, by decide, Or.inl ⟨rfl, rfl⟩⟩
  have r8 : Relation.ReflTransGen (AdjL coreBonds) 0 (8 : Int) :=
    r7.tail ⟨⟨7, 8, 1⟩, by decide, Or.inl ⟨rfl, rfl⟩⟩
  have r9 : Relation.ReflTransGen (AdjL coreBonds) 0 (9 : Int) :=
    r8.tail ⟨⟨8, 9, 1⟩, by decide, Or.inl ⟨rfl, rfl⟩⟩
  have r15 : Relation.ReflTransGen (AdjL coreBonds) 0 (15 : Int) :=
    r7.tail ⟨⟨7, 15, 1⟩, by decide, Or.inl ⟨rfl, rfl⟩⟩
  have r16 : Relation.ReflTransGen (AdjL coreBonds) 0 (16 : Int) :=
    r15.tail ⟨⟨15, 16, 1⟩, by decide, Or.inl ⟨rfl, rfl⟩⟩
  have r12 : Relation.ReflTransGen (AdjL coreBonds) 0 (12 : Int) :=
    r16.tail ⟨⟨16, 12, 1⟩, by decide, Or.inl ⟨rfl, rfl⟩⟩
  have r13 : Relation.ReflTransGen (AdjL coreBonds) 0 (13 : Int) :=
    r12.tail ⟨⟨12, 13, 1⟩, by decide, Or.inl ⟨rfl, rfl⟩⟩
  have r14 : Relation.ReflTransGen (AdjL coreBonds) 0 (14 : Int) :=
    r13.tail ⟨⟨13, 14, 1⟩, by decide, Or.inl ⟨rfl, rfl⟩⟩
  have r20 : Relation.ReflTransGen (AdjL coreBonds) 0 (20 : Int) :=
    r13.tail ⟨⟨13, 20, 1⟩, by decide, Or.inl ⟨rfl, rfl⟩⟩
  have r21 : Relation.ReflTransGen (AdjL coreBonds) 0 (21 : Int) :=
    r20.tail ⟨⟨20, 21, 1⟩, by decide, Or.inl ⟨rfl, rfl⟩⟩
  have r17 : Relation.ReflTransGen (AdjL coreBonds) 0 (17 : Int) :=
    r21.tail ⟨⟨21, 17, 1⟩, by decide, Or.inl ⟨rfl, rfl⟩⟩
  have r18 : Relation.ReflTransGen (AdjL coreBonds) 0 (18 : Int) :=
    r17.tail ⟨⟨17, 18, 1⟩, by decide, Or.inl ⟨rfl, rfl⟩⟩
  have r19 : Relation.ReflTransGen (AdjL coreBonds) 0 (19 : Int) :=
    r18.tail ⟨⟨18, 19, 1⟩, by decide, Or.inl ⟨rfl, rfl⟩⟩
  interval_cases k
  · exact r0
  · exact r1
  · exact r2
  · exact r3
  · exact r4
  · exact r5
  · exact r6
  · exact r7
  · exact r8
  · exact r9
  · exact r10
  · exact r11
  · exact r12
  · exact r13
  · exact r14
  · exact r15
  · exact r16
  · exact r17
  · exact r18
  · exact r19
  · exact r20
  · exact r21

theorem AdjL_mono {bs bs2 : List Bond} (h : ∀ b ∈ bs, b ∈ bs2) {a b : Int} (hab : AdjL bs a b) :
    AdjL bs2 a b := by
  obtain ⟨bd, hbd, hends⟩ := hab
  exact ⟨bd, h bd hbd, hends⟩

theorem ReachL_mono {bs bs2 : List Bond} (h : ∀ b ∈ bs, b ∈ bs2) {a b : Int}
    (hab : Relation.ReflTransGen (AdjL bs) a b) : Relation.ReflTransGen (AdjL bs2) a b :=
  Relation.ReflTransGen.mono (fun _ _ hxy => AdjL_mono h hxy) hab

theorem ConnL_subst {g : Contents α} {k : Int} {off : Vec3 α → Vec3 α} {l : Nat} {o : Int}
    (h : ConnL g) (hk : 0 ≤ k ∧ k < g.atoms.length) : ConnL (L_subst g k off l o) := by
  intro j hj
  have hsub : ∀ b ∈ g.bonds, b ∈ g.bonds ++ [(⟨k, g.atoms.length, o⟩ : Bond)] :=
    fun b hb => List.mem_append_left _ hb
  simp only [L_subst, List.length_append, List.length_singleton] at hj ⊢
  by_cases hjl : j < g.atoms.length
  · exact ReachL_mono hsub (h j hjl)
  · have hj2 : j = g.atoms.length := by omega
    obtain ⟨n, rfl⟩ := Int.eq_ofNat_of_zero_le hk.1
    have hn : n < g.atoms.length := by exact_mod_cast hk.2
    rw [hj2]
    exact (ReachL_mono hsub (h n hn)).tail
      ⟨⟨n, g.atoms.length, o⟩, List.mem_append_right _ (List.mem_singleton.mpr rfl),
        Or.inl ⟨rfl, rfl⟩⟩

theorem ConnL_subst_ite {g : Contents α} {k : Int} {off : Vec3 α → Vec3 α} {l : Nat} {o : Int}
    {c : Prop} [Decidable c] (h : ConnL g ∧ 22 ≤ g.atoms.length) (hk : 0 ≤ k ∧ k < 22) :
    ConnL (if c then L_subst g k off l o else g) ∧
      22 ≤ (if c then L_subst g k off l o else g).atoms.length := by
  obtain ⟨h, h22⟩ := h
  split_ifs
  · exact ⟨ConnL_subst h ⟨hk.1, by have := hk.2; omega⟩, by simp [L_subst]; omega⟩
  · exact ⟨h, h22⟩

theorem ConnL_tail {g : Contents α} {a n : Int} {w : α} (h : ConnL g)
    (ha : 0 ≤ a ∧ a < g.atoms.length) : ConnL (L_tail g a n w) := by
  have hsub : ∀ b ∈ g.bonds, b ∈ (L_tail g a n w).bonds :=
    fun b hb => by simp only [L_tail]; exact List.mem_append_left _ hb
  have hnew : ∀ i : Nat, i < n.toNat →
      Relation.ReflTransGen (AdjL (L_tail g a n w).bonds) 0 ((g.atoms.length : Int) + i) := by
    intro i
    induction i with
    | zero =>
      intro hi
      obtain ⟨p, rfl⟩ := Int.eq_ofNat_of_zero_le ha.1
      have hp : p < g.atoms.length := by exact_mod_cast ha.2
      refine (ReachL_mono hsub (h p hp)).tail ⟨⟨p, (g.atoms.length : Int) + (0 : Nat), 1⟩, ?_,
        Or.inl ⟨rfl, rfl⟩⟩
      simp only [L_tail]
      refine List.mem_append_right _ (List.mem_map.mpr ⟨0, List.mem_range.mpr hi, ?_⟩)
      simp
    | succ i ih =>
      intro hi
      refine (ih (by omega)).tail
        ⟨⟨(g.atoms.length : Int) + i, (g.atoms.length : Int) + (i + 1 : Nat), 1⟩, ?_,
          Or.inl ⟨rfl, rfl⟩⟩
      simp only [L_tail]
      refine List.mem_append_right _ (List.mem_map.mpr ⟨i + 1, List.mem_range.mpr hi, ?_⟩)
      simp
      omega
  intro j hj
  by_cases hjl : j < g.atoms.length
  · exact ReachL_mono hsub (h j hjl)
  · simp only [L_tail, List.length_append, List.length_map, List.length_range] at hj
    have := hnew (j - g.atoms.length) (by omega)
    have e : (g.atoms.length : Int) + ((j - g.atoms.length : Nat) : Int) = (j : Int) := by omega
    rw [e] at this
    exact this

theorem ConnL_tail_ite {g : Contents α} {a n : Int} {w : α} {c : Prop} [Decidable c]
    (h : ConnL g ∧ 22 ≤ g.atoms.length) (ha : 0 ≤ a ∧ a < 22) :
    ConnL (if c then L_tail g a n w else g) ∧
      22 ≤ (if c then L_tail g a n w else g).atoms.length := by
  obtain ⟨h, h22⟩ := h
  split_ifs
  · exact ⟨ConnL_tail h ⟨ha.1, by have := ha.2; omega⟩, by simp [L_tail]; omega⟩
  · exact ⟨h, h22⟩

theorem ConnL_setOrder {g : Contents α} {k o : Int} (h : ConnL g) : ConnL (L_setOrder g k o) := by
  intro j hj
  refine Relation.ReflTransGen.mono ?_ (h j hj)
  rintro x y ⟨bd, hbd, hends⟩
  obtain ⟨n, hn, rfl⟩ := List.mem_iff_getElem.mp hbd
  by_cases hnk : n = k.toNat
  · refine ⟨{ g.bonds.getD k.toNat ⟨0, 0, 0⟩ with order := o }, ?_, ?_⟩
    · simp only [L_setOrder]
      rw [List.mem_iff_getElem]
      exact ⟨n, by simpa using hn, by simp [hnk]⟩
    · subst hnk
      simpa [List.getD_eq_getElem?_getD, List.getElem?_eq_getElem hn] using hends
  · refine ⟨g.bonds[n], ?_, hends⟩
    simp only [L_setOrder]
    rw [List.mem_iff_getElem]
    exact ⟨n, by simpa using hn, by simp [List.getElem_set_ne (Ne.symm hnk)]⟩

theorem ConnL_promote {g : Contents α} (presetType : Int) (h : ConnL g ∧ 22 ≤ g.atoms.length) :
    ConnL
      (if presetType = 3 ∨ presetType = 5 then
        let g := if (g.bonds.length : Int) > 10 then L_setOrder (L_setOrder g 3 2) 8 2 else g
        if presetType = 3 ∧ (g.bonds.length : Int) > 15 then L_setOrder g 12 2 else g
      else g) ∧
    22 ≤ (if presetType = 3 ∨ presetType = 5 then
        let g := if (g.bonds.length : Int) > 10 then L_setOrder (L_setOrder g 3 2) 8 2 else g
        if presetType = 3 ∧ (g.bonds.length : Int) > 15 then L_setOrder g 12 2 else g
      else g).atoms.length := by
  obtain ⟨h, h22⟩ := h
  dsimp only
  split_ifs
  · exact ⟨ConnL_setOrder (ConnL_setOrder (ConnL_setOrder h)), h22⟩
  · exact ⟨ConnL_setOrder (ConnL_setOrder h), h22⟩
  · exact ⟨ConnL_setOrder h, h22⟩
  · exact ⟨h, h22⟩
  · exact ⟨h, h22⟩

/-- Every atom of the list view of `apply_preset` is reached from atom 0, for
every preset. -/
theorem presetL_connected (cosf sinf : α → α) (presetType : Int) :
    ConnL (presetL cosf sinf presetType) ∧ 22 ≤ (presetL cosf sinf presetType).atoms.length := by
  unfold presetL
  refine ConnL_subst_ite ?_ (by decide)
  refine ConnL_subst_ite ?_ (by decide)
  refine ConnL_subst_ite ?_ (by decide)
  refine ConnL_subst_ite ?_ (by decide)
  refine ConnL_subst_ite ?_ (by decide)
  refine ConnL_subst_ite ?_ (by decide)
  refine ConnL_promote presetType ?_
  refine ConnL_subst_ite ?_ (by decide)
  refine ConnL_tail_ite ?_ (by decide)
  refine ConnL_tail_ite ?_ (by decide)
  refine ConnL_tail_ite ?_ (by decide)
  refine ConnL_tail_ite ?_ (by decide)
  have hlen := coreAtoms_length cosf sinf
  have hcore : ConnL (⟨coreAtoms cosf sinf, coreBonds⟩ : Contents α) := by
    intro k hk
    exact coreBonds_connected k (by simpa [hlen] using hk)
  have h1 : ConnL (L_subst (⟨coreAtoms cosf sinf, coreBonds⟩ : Contents α) 2
      (fun b => make_vec3 (b.x - 0.2) (b.y + 1.4) (b.z + 0.8)) 1 1) :=
    ConnL_subst hcore ⟨by decide, by simp [hlen]⟩
  refine ⟨ConnL_subst h1 ⟨by decide, by simp [L_subst, hlen]⟩, by simp [L_subst, hlen]⟩

/-- Adjacency in the list view is adjacency in the buffer made from it. -/
theorem Adjacent_ofLists (g : Contents α) (m : MoleculeGeometry α) {a b : Int}
    (h : AdjL g.bonds a b) : Adjacent (ofLists g m) a b := by
  obtain ⟨bd, hbd, hends⟩ := h
  obtain ⟨n, hn, rfl⟩ := List.mem_iff_getElem.mp hbd
  refine ⟨(n : Int), Int.natCast_nonneg n, by simp [ofLists]; exact hn, ?_⟩
  rw [ofLists_bond_of_getElem? g m n _ (List.getElem?_eq_getElem hn)]
  exact hends

/-- C27: in the geometry built by `apply_preset`, for every presetId (those of
the catalog, 0..19, among them), every atom index below `atomCount` is reached
from atom 0 along live bonds taken as undirected edges. -/
theorem C27_molecule_connected (cosf sinf : α → α) (m : MoleculeGeometry α) (presetId : Int)
    (i : Int) (h0 : 0 ≤ i) (hi : i < (apply_preset cosf sinf m presetId).atomCount) :
    Reachable (apply_preset cosf sinf m presetId) 0 i := by
  rw [(apply_preset_rep cosf sinf m presetId).1] at hi ⊢
  obtain ⟨n, rfl⟩ := Int.eq_ofNat_of_zero_le h0
  have hn : n < (presetL cosf sinf presetId).atoms.length := by simpa [ofLists] using hi
  exact Relation.ReflTransGen.mono (fun _ _ hxy => Adjacent_ofLists _ m hxy)
    ((presetL_connected cosf sinf presetId).1 n hn)

/-- C27 at preset 2 (the longest side chain) and its last atom, atom 30, on the
blank buffer. -/
theorem C27_molecule_connected_witness :
    Reachable (apply_preset Real.cos Real.sin (blankMolecule : MoleculeGeometry ℝ) 2) 0 30 :=
  C27_molecule_connected Real.cos Real.sin blankMolecule 2 30 (by decide)
    (by rw [(apply_preset_counts Real.cos Real.sin blankMolecule 2 (by decide) (by decide)).1]
        decide)

/-! ## The catalog never saturates the buffers -/

theorem LogExact_add_atom {s : Logged α} (h : LogExact s) (p : Vec3 α) (l : Nat) :
    LogExact (add_atom_logged s p l) := by
  obtain ⟨h1, h2, h3, h4⟩ := h
  unfold add_atom_logged add_atom
  by_cases hc : s.mol.atomCount ≥ MAX_ATOMS
  · simp only [hc, if_true]
    refine ⟨h1, h2, fun hlt => absurd hc (not_le.mpr hlt), h4⟩
  · simp only [hc, if_false]
    obtain ⟨n, hn⟩ := Int.eq_ofNat_of_zero_le h1
    have e3 := h3 (not_le.mp hc)
    refine ⟨?_, h2, fun _ => ?_, h4⟩
    · show 0 ≤ s.mol.atomCount + 1
      omega
    · show s.atomCalls ++ [s.mol.atomCount]
        = (List.range (s.mol.atomCount + 1).toNat).map (fun (n : Nat) => (n : Int))
      rw [e3, hn]
      simp only [Int.toNat_ofNat]
      rw [show ((n : Int) + 1).toNat = n + 1 by omega, List.range_succ, List.map_append]
      rfl

theorem LogExact_add_bond {s : Logged α} (h : LogExact s) (a b o : Int) :
    LogExact (add_bond_logged s a b o) := by
  obtain ⟨h1, h2, h3, h4⟩ := h
  unfold add_bond_logged add_bond
  by_cases hc : s.mol.bondCount ≥ MAX_BONDS
  · simp only [hc, if_true]
    refine ⟨h1, h2, h3, fun hlt => absurd hc (not_le.mpr hlt)⟩
  · simp only [hc, if_false]
    obtain ⟨n, hn⟩ := Int.eq_ofNat_of_zero_le h2
    have e4 := h4 (not_le.mp hc)
    refine ⟨h1, ?_, h3, fun _ => ?_⟩
    · show 0 ≤ s.mol.bondCount + 1
      omega
    · show s.bondCalls ++ [s.mol.bondCount]
        = (List.range (s.mol.bondCount + 1).toNat).map (fun (n : Nat) => (n : Int))
      rw [e4, hn]
      simp only [Int.toNat_ofNat]
      rw [show ((n : Int) + 1).toNat = n + 1 by omega, List.range_succ, List.map_append]
      rfl

theorem LogExact_set_bond_order {s : Logged α} (h : LogExact s) (k o : Int) :
    LogExact (set_bond_order_logged s k o) := h

theorem LogExact_forLoop (n : Nat) (body : Logged α → Nat → Logged α)
    (hbody : ∀ s i, LogExact s → LogExact (body s i)) (s : Logged α) (h : LogExact s) :
    LogExact (forLoop n body s) := by
  induction n with
  | zero => rw [forLoop_zero]; exact h
  | succ n ih => rw [forLoop_succ]; exact hbody _ _ ih

theorem LogExact_core (cosf sinf : α → α) (m : MoleculeGeometry α) :
    LogExact (build_steroid_core_logged cosf sinf ⟨m, [], []⟩) := by
  unfold build_steroid_core_logged
  dsimp only
  refine LogExact_add_bond ?_ _ _ _
  refine LogExact_add_bond ?_ _ _ _
  refine LogExact_forLoop _ _ (fun s i hs => LogExact_add_bond hs _ _ _) _ ?_
  refine LogExact_forLoop _ _ (fun s i hs => LogExact_add_atom hs _ _) _ ?_
  refine LogExact_add_bond ?_ _ _ _
  refine LogExact_add_bond ?_ _ _ _
  refine LogExact_forLoop _ _ (fun s i hs => LogExact_add_bond hs _ _ _) _ ?_
  refine LogExact_forLoop _ _ (fun s i hs => LogExact_add_atom hs _ _) _ ?_
  refine LogExact_add_bond ?_ _ _ _
  refine LogExact_add_bond ?_ _ _ _
  refine LogExact_forLoop _ _ (fun s i hs => LogExact_add_bond hs _ _ _) _ ?_
  refine LogExact_forLoop _ _ (fun s i hs => LogExact_add_atom hs _ _) _ ?_
  refine LogExact_forLoop _ _ (fun s i hs => LogExact_add_bond hs _ _ _) _ ?_
  refine LogExact_forLoop _ _ (fun s i hs => LogExact_add_atom hs _ _) _ ?_
  exact ⟨le_refl _, le_refl _, fun _ => rfl, fun _ => rfl⟩

theorem LogExact_subst {s : Logged α} (h : LogExact s) (k : Int) (off : Vec3 α → Vec3 α)
    (l : Nat) (o : Int) : LogExact (add_substituent_logged s k off l o) :=
  LogExact_add_bond (LogExact_add_atom h _ _) _ _ _

theorem LogExact_subst_ite {s : Logged α} {c : Prop} [Decidable c] (h : LogExact s) (k : Int)
    (off : Vec3 α → Vec3 α) (l : Nat) (o : Int) :
    LogExact (if c then add_substituent_logged s k off l o else s) := by
  split_ifs
  · exact LogExact_subst h k off l o
  · exact h

theorem LogExact_tail_loop (a : Int) (w : α) (n : Nat) (s : Logged α) (p : Int)
    (h : LogExact s) : LogExact (forLoop n (add_ester_tail_body_logged a w) (s, p)).1 := by
  induction n with
  | zero => rw [forLoop_zero]; exact h
  | succ n ih =>
    rw [forLoop_succ]
    exact LogExact_add_bond (LogExact_add_atom ih _ _) _ _ _

theorem LogExact_tail_ite {s : Logged α} {c : Prop} [Decidable c] (h : LogExact s) (a n : Int)
    (w : α) : LogExact (if c then add_ester_tail_logged s a n w else s) := by
  split_ifs
  · exact LogExact_tail_loop a w _ s a h
  · exact h

theorem LogExact_promote {s : Logged α} (presetType : Int) (h : LogExact s) :
    LogExact
      (if presetType = 3 ∨ presetType = 5 then
        let s := if s.mol.bondCount > 10 then
            set_bond_order_logged (set_bond_order_logged s 3 2) 8 2
          else s
        if presetType = 3 ∧ s.mol.bondCount > 15 then set_bond_order_logged s 12 2 else s
      else s) := by
  dsimp only
  split_ifs <;> exact h

/-- The log of `apply_preset` is exact, whatever the preset and the prior
buffer contents. -/
theorem LogExact_apply_preset (cosf sinf : α → α) (m : MoleculeGeometry α) (presetType : Int) :
    LogExact (apply_preset_logged cosf sinf ⟨m, [], []⟩ presetType) := by
  unfold apply_preset_logged
  refine LogExact_subst_ite ?_ _ _ _ _
  refine LogExact_subst_ite ?_ _ _ _ _
  refine LogExact_subst_ite ?_ _ _ _ _
  refine LogExact_subst_ite ?_ _ _ _ _
  refine LogExact_subst_ite ?_ _ _ _ _
  refine LogExact_subst_ite ?_ _ _ _ _
  refine LogExact_promote presetType ?_
  refine LogExact_subst_ite ?_ _ _ _ _
  refine LogExact_tail_ite ?_ _ _ _
  refine LogExact_tail_ite ?_ _ _ _
  refine LogExact_tail_ite ?_ _ _ _
  refine LogExact_tail_ite ?_ _ _ _
  refine LogExact_subst ?_ _ _ _ _
  refine LogExact_subst ?_ _ _ _ _
  exact LogExact_core cosf sinf m

theorem add_atom_logged_mol (s : Logged α) (p : Vec3 α) (l : Nat) :
    (add_atom_logged s p l).mol = add_atom s.mol p l := rfl

theorem add_bond_logged_mol (s : Logged α) (a b o : Int) :
    (add_bond_logged s a b o).mol = add_bond s.mol a b o := rfl

theorem atomLoop_logged_mol (n : Nat) (f : Nat → Vec3 α) (l : Nat) (s : Logged α) :
    (forLoop n (fun s i => add_atom_logged s (f i) l) s).mol
      = forLoop n (fun mol i => add_atom mol (f i) l) s.mol := by
  induction n with
  | zero => rfl
  | succ n ih => rw [forLoop_succ, forLoop_succ, add_atom_logged_mol, ih]

theorem bondLoop_logged_mol (n : Nat) (fa fb : Nat → Int) (o : Int) (s : Logged α) :
    (forLoop n (fun s i => add_bond_logged s (fa i) (fb i) o) s).mol
      = forLoop n (fun mol i => add_bond mol (fa i) (fb i) o) s.mol := by
  induction n with
  | zero => rfl
  | succ n ih => rw [forLoop_succ, forLoop_succ, add_bond_logged_mol, ih]

/-- The geometry component of the logged `build_steroid_core` is
`build_steroid_core` of the geometry component. -/
theorem build_steroid_core_logged_mol (cosf sinf : α → α) (s : Logged α) :
    (build_steroid_core_logged cosf sinf s).mol = build_steroid_core cosf sinf s.mol := by
  unfold build_steroid_core_logged build_steroid_core
  dsimp only
  simp only [add_bond_logged_mol, atomLoop_logged_mol, bondLoop_logged_mol]

theorem add_substituent_logged_mol {s : Logged α} {mol : MoleculeGeometry α} (h : s.mol = mol)
    (k : Int) (off : Vec3 α → Vec3 α) (l : Nat) (o : Int) :
    (add_substituent_logged s k off l o).mol = add_substituent mol k off l o := by
  subst h
  rfl

theorem add_substituent_logged_mol_ite {s : Logged α} {mol : MoleculeGeometry α} {c : Prop}
    [Decidable c] (h : s.mol = mol) (k : Int) (off : Vec3 α → Vec3 α) (l : Nat) (o : Int) :
    (if c then add_substituent_logged s k off l o else s).mol
      = (if c then add_substituent mol k off l o else mol) := by
  split_ifs
  · exact add_substituent_logged_mol h k off l o
  · exact h

theorem tail_loop_logged_mol (a : Int) (w : α) (n : Nat) (s : Logged α) (p : Int) :
    ((forLoop n (add_ester_tail_body_logged a w) (s, p)).1.mol,
        (forLoop n (add_ester_tail_body_logged a w) (s, p)).2)
      = forLoop n (add_ester_tail_body a w) (s.mol, p) := by
  induction n with
  | zero => rfl
  | succ n ih =>
    rw [forLoop_succ, forLoop_succ, ← ih]
    rfl

theorem add_ester_tail_logged_mol_ite {s : Logged α} {mol : MoleculeGeometry α} {c : Prop}
    [Decidable c] (h : s.mol = mol) (a n : Int) (w : α) :
    (if c then add_ester_tail_logged s a n w else s).mol
      = (if c then add_ester_tail mol a n w else mol) := by
  subst h
  split_ifs
  · unfold add_ester_tail_logged add_ester_tail
    rw [← tail_loop_logged_mol]
  · rfl

theorem promote_logged_mol {s : Logged α} {mol : MoleculeGeometry α} (presetType : Int)
    (h : s.mol = mol) :
    (if presetType = 3 ∨ presetType = 5 then
        let s := if s.mol.bondCount > 10 then
            set_bond_order_logged (set_bond_order_logged s 3 2) 8 2
          else s
        if presetType = 3 ∧ s.mol.bondCount > 15 then set_bond_order_logged s 12 2 else s
      else s).mol
      = (if presetType = 3 ∨ presetType = 5 then
        let mol := if mol.bondCount > 10 then
            set_bond_order (set_bond_order mol 3 2) 8 2
          else mol
        if presetType = 3 ∧ mol.bondCount > 15 then set_bond_order mol 12 2 else mol
      else mol) := by
  subst h
  have e : (set_bond_order_logged (set_bond_order_logged s 3 2) 8 2).mol.bondCount
      = (set_bond_order (set_bond_order s.mol 3 2) 8 2).bondCount := rfl
  dsimp only
  split_ifs <;> first | rfl | (exfalso; omega)

/-- The geometry component of the logged `apply_preset` is the geometry that
`apply_preset` builds. -/
theorem apply_preset_logged_mol (cosf sinf : α → α) (s : Logged α) (presetType : Int) :
    (apply_preset_logged cosf sinf s presetType).mol = apply_preset cosf sinf s.mol presetType := by
  unfold apply_preset_logged apply_preset
  refine add_substituent_logged_mol_ite ?_ _ _ _ _
  refine add_substituent_logged_mol_ite ?_ _ _ _ _
  refine add_substituent_logged_mol_ite ?_ _ _ _ _
  refine add_substituent_logged_mol_ite ?_ _ _ _ _
  refine add_substituent_logged_mol_ite ?_ _ _ _ _
  refine add_substituent_logged_mol_ite ?_ _ _ _ _
  refine promote_logged_mol presetType ?_
  refine add_substituent_logged_mol_ite ?_ _ _ _ _
  refine add_ester_tail_logged_mol_ite ?_ _ _ _
  refine add_ester_tail_logged_mol_ite ?_ _ _ _
  refine add_ester_tail_logged_mol_ite ?_ _ _ _
  refine add_ester_tail_logged_mol_ite ?_ _ _ _
  refine add_substituent_logged_mol ?_ _ _ _ _
  refine add_substituent_logged_mol ?_ _ _ _ _
  exact build_steroid_core_logged_mol cosf sinf s

/-- C22: for every presetId in 0..19, run from any buffer with an empty log,
`apply_preset` finds `atomCount` equal to 0, 1, 2, ... at its successive calls of
`add_atom` and `bondCount` equal to 0, 1, 2, ... at its successive calls of
`add_bond`, one call for each atom and each bond of the result; every count
found is below the capacity (64 and 96), so no call is dropped; and the built
geometry (the one `apply_preset` returns) has at most 31 atoms and 37 bonds. -/
theorem C22_catalog_never_saturates (cosf sinf : α → α) (m : MoleculeGeometry α)
    (presetId : Int) (h0 : 0 ≤ presetId) (h1 : presetId ≤ 19) :
    (apply_preset_logged cosf sinf ⟨m, [], []⟩ presetId).mol = apply_preset cosf sinf m presetId ∧
      (∀ n ∈ (apply_preset_logged cosf sinf ⟨m, [], []⟩ presetId).atomCalls,
        0 ≤ n ∧ n < MAX_ATOMS) ∧
      (∀ n ∈ (apply_preset_logged cosf sinf ⟨m, [], []⟩ presetId).bondCalls,
        0 ≤ n ∧ n < MAX_BONDS) ∧
      (apply_preset_logged cosf sinf ⟨m, [], []⟩ presetId).atomCalls
        = (List.range (apply_preset cosf sinf m presetId).atomCount.toNat).map
            (fun (n : Nat) => (n : Int)) ∧
      (apply_preset_logged cosf sinf ⟨m, [], []⟩ presetId).bondCalls
        = (List.range (apply_preset cosf sinf m presetId).bondCount.toNat).map
            (fun (n : Nat) => (n : Int)) ∧
      (apply_preset cosf sinf m presetId).atomCount ≤ 31 ∧
      (apply_preset cosf sinf m presetId).bondCount ≤ 37 := by
  have hmol : (apply_preset_logged cosf sinf ⟨m, [], []⟩ presetId).mol
      = apply_preset cosf sinf m presetId := apply_preset_logged_mol cosf sinf ⟨m, [], []⟩ presetId
  obtain ⟨-, -, e3, e4⟩ := LogExact_apply_preset cosf sinf m presetId
  rw [hmol] at e3 e4
  obtain ⟨c1, c2⟩ := apply_preset_counts cosf sinf m presetId h0 h1
  have hx : preset_extra_atoms presetId ≤ 7 := by
    unfold preset_extra_atoms
    split_ifs <;> omega
  have ha : (apply_preset cosf sinf m presetId).atomCount ≤ 31 := by omega
  have hb : (apply_preset cosf sinf m presetId).bondCount ≤ 37 := by omega
  have e3 := e3 (by simp only [MAX_ATOMS]; omega)
  have e4 := e4 (by simp only [MAX_BONDS]; omega)
  refine ⟨hmol, ?_, ?_, e3, e4, ha, hb⟩
  · intro n hn
    rw [e3] at hn
    obtain ⟨j, hj, rfl⟩ := List.mem_map.mp hn
    have := List.mem_range.mp hj
    simp only [MAX_ATOMS]
    omega
  · intro n hn
    rw [e4] at hn
    obtain ⟨j, hj, rfl⟩ := List.mem_map.mp hn
    have := List.mem_range.mp hj
    simp only [MAX_BONDS]
    omega

/-- C22 at presetId 2, the largest geometry of the catalog, on a buffer filled
to capacity. -/
theorem C22_catalog_never_saturates_witness :
    (apply_preset Real.cos Real.sin (fullMolecule : MoleculeGeometry ℝ) 2).atomCount ≤ 31 ∧
      (apply_preset Real.cos Real.sin (fullMolecule : MoleculeGeometry ℝ) 2).bondCount ≤ 37 :=
  (C22_catalog_never_saturates Real.cos Real.sin fullMolecule 2 (by decide) (by decide)).2.2.2.2.2

end StructuralAtlas
